import Mathlib

/-!
# OneBot 12 client: connection, correlation and dispatch runtime

A shallow embedding of `client.go`, `event.go`, `action.go`, `types.go`, `errors.go`
and `options.go`.  Goroutines are modelled by atomic steps on an explicit client
state: each step is the body of one critical section or one `select` arm of the
source, so that an interleaving of goroutines is a sequence of steps.

The Go runtime objects the client shares between goroutines are kept in small
heaps inside the state: the request objects (the writer mutates `Echo` through
the pointer the caller holds) and the response channels (buffered, capacity 1).

JSON texts and Go values are kept apart: `JValue` is a JSON document as the decoder
reads it, `GoValue` is what a Go `any` holds.  `json.Marshal` goes from the second to
the first and can fail; `json.Unmarshal` goes back and turns every number into a
`float64`.
-/

namespace OneBot

/-! ## JSON documents -/

/-- A JSON number literal: a plain integer literal (`42`, `-7`) or a literal with a
fraction or exponent part, of value `mantissa * 10 ^ exponent`. -/
inductive JNumber
  | int (n : Int)
  | dec (mantissa : Int) (exponent : Int)
deriving DecidableEq, Repr

mutual
/-- A JSON value, as `encoding/json` sees it after its syntax check. -/
inductive JValue
  | null
  | bool (b : Bool)
  | num (n : JNumber)
  | str (s : String)
  | arr (xs : JList)
  | obj (kvs : JFields)
deriving DecidableEq
/-- The elements of a JSON array, in document order. -/
inductive JList
  | nil
  | cons (x : JValue) (xs : JList)
deriving DecidableEq
/-- The members of a JSON object, in document order (duplicate keys are kept). -/
inductive JFields
  | nil
  | cons (k : String) (v : JValue) (rest : JFields)
deriving DecidableEq
end

/-- Array elements from a Lean list. -/
def JList.ofList : List JValue → JList
  | [] => .nil
  | x :: xs => .cons x (JList.ofList xs)

/-- Object members from a Lean list of key/value pairs. -/
def JFields.ofList : List (String × JValue) → JFields
  | [] => .nil
  | (k, v) :: rest => .cons k v (JFields.ofList rest)

/-- The elements of a JSON array as a Lean list. -/
def JList.toList : JList → List JValue
  | .nil => []
  | .cons x xs => x :: xs.toList

/-- The keys of a JSON object, in document order. -/
def JFields.keys : JFields → List String
  | .nil => []
  | .cons k _ rest => k :: rest.keys

/-- The members of an object as a Lean list. -/
def JFields.toList : JFields → List (String × JValue)
  | .nil => []
  | .cons k v rest => (k, v) :: rest.toList

/-- Lookup of the first member with the given key. -/
def JFields.get : JFields → String → Option JValue
  | .nil, _ => none
  | .cons k v rest, key => if k = key then some v else rest.get key

/-- A frame read from the socket: the JSON document its bytes spell, or `none` when
the bytes are not one valid JSON text (`json.Unmarshal` checks the syntax of the
whole input before it stores anything). -/
abbrev Frame := Option JValue

/-! ## Numbers (`strconv.ParseFloat`, `strconv.AppendFloat`)

A finite `float64` is kept as the rational number it denotes (the sign of zero is not
represented).  Decoding a literal rounds its decimal value to the nearest `float64`,
ties to even. -/

/-- The bound `2^1024 - 2^970`: a decimal literal whose magnitude reaches it rounds
to infinity, and `strconv.ParseFloat` reports a range error. -/
def float64Bound : Nat :=
  179769313486231580793728971405303415079934132710037826936173778980444968292764750946649017977587207096330286416692887910946555547851940402630657488671505820681908902000708383676273854845817711531764475730270069855571366959622842914819860834936475292719074168444365510704342711559699508093042880177904174497792

/-- Whether `strconv.ParseFloat(lit, 64)` succeeds on the literal (no range error). -/
def JNumber.inFloat64 : JNumber → Bool
  | .int n => decide (n.natAbs < float64Bound)
  | .dec m e =>
    if 0 ≤ e then decide (m.natAbs * 10 ^ e.toNat < float64Bound)
    else decide (m.natAbs < float64Bound * 10 ^ (-e).toNat)

/-- The exact decimal value the digits of the literal spell, before any conversion
to a Go number. -/
def JNumber.exactValue : JNumber → Rat
  | .int n => n
  | .dec m e =>
    if 0 ≤ e then ((m * 10 ^ e.toNat : Int) : Rat) else mkRat m (10 ^ (-e).toNat)

/-- The number of binary digits of `n`, by repeated halving; `fuel` bounds the number
of halvings, and `bitLen n n` is the length of `n`. -/
def bitLen : Nat → Nat → Nat
  | 0, _ => 0
  | fuel + 1, n => if n = 0 then 0 else bitLen fuel (n / 2) + 1

/-- The integer nearest to `p / q`, the even one of the two when `p / q` is half-way. -/
def roundHalfEven (p q : Nat) : Nat :=
  if 2 * (p % q) < q then p / q
  else if q < 2 * (p % q) then p / q + 1
  else p / q + (p / q) % 2

/-- The integer part of the binary logarithm of `p / q`, for positive `p` and `q`. -/
def log2Floor (p q : Nat) : Int :=
  if q * 2 ^ bitLen p p ≤ p * 2 ^ bitLen q q then (bitLen p p : Int) - bitLen q q
  else (bitLen p p : Int) - bitLen q q - 1

/-- The `float64` nearest to a rational (round to nearest, ties to even): the
significand has 53 binary digits, and the unit in the last place is never below
`2^-1074` (subnormal numbers).  Magnitudes that reach `float64Bound` have no finite
result; the decoders reject them before they round. -/
def roundFloat64 (x : Rat) : Rat :=
  if x.num = 0 then 0
  else
    let p := x.num.natAbs
    let q := x.den
    let e : Int := max (log2Floor p q - 52) (-1074)
    let v : Rat :=
      if 0 ≤ e then ((roundHalfEven p (q * 2 ^ e.toNat) * 2 ^ e.toNat : Nat) : Rat)
      else mkRat (roundHalfEven (p * 2 ^ (-e).toNat) q) (2 ^ (-e).toNat)
    if x.num < 0 then -v else v

/-- The call `strconv.ParseFloat(lit, 64)`: the `float64` nearest to the value of the literal,
or `none` on a range error. -/
def JNumber.toFloat64 (n : JNumber) : Option Rat :=
  if n.inFloat64 then some (roundFloat64 n.exactValue) else none

/-- Whether a rational is a finite `float64`: its denominator is a power of two,
rounding leaves it unchanged and its magnitude is in range. -/
def isFloat64 (x : Rat) : Bool :=
  decide (x.den = 2 ^ (bitLen x.den x.den - 1)) && decide (roundFloat64 x = x) &&
    decide (x.num.natAbs < float64Bound * x.den)

/-- The literal `json.Marshal` writes for a finite `float64`: plain digits for an
integral value below `10^21`, else a literal with a fraction or exponent part.  Go
writes the shortest digits that parse back to the same `float64`; the model writes
the exact decimal expansion, which parses back to the same `float64` too. -/
def float64Literal (x : Rat) : JNumber :=
  if x.den = 1 then (if x.num.natAbs < 10 ^ 21 then .int x.num else .dec x.num 0)
  else .dec (x.num * 5 ^ (bitLen x.den x.den - 1)) (-((bitLen x.den x.den - 1 : Nat) : Int))

/-! ## Go values (`any`, `map[string]any`, `[]any`)

What an `any` of the package can hold.  `json.Unmarshal` stores only `nil`, `bool`,
`float64`, `string`, `[]any` and `map[string]any`; user code can store anything,
so the other constructors stand for the values that `json.Marshal` treats in another
way.  A `map[string]any` is kept as the list of its entries in increasing key order
(a list in another order, or with a key twice, stands for no map); a `string` is a
Go string that is valid UTF-8. -/

mutual
/-- A value held in an `any`. -/
inductive GoValue
  /-- The nil interface. -/
  | nil
  | bool (b : Bool)
  /-- A finite `float64`. -/
  | float64 (x : Rat)
  /-- The `float64` NaN. -/
  | nan
  /-- The `float64` infinities. -/
  | inf (negative : Bool)
  /-- A value of an integer type (`int`, `int64`, ...). -/
  | int (n : Int)
  | string (s : String)
  /-- A non-nil `[]any`. -/
  | sliceAny (xs : GoList)
  /-- A non-nil `map[string]any`. -/
  | mapAny (kvs : GoFields)
  /-- A value of any other type that `json.Marshal` encodes (a struct, a `Message`, a
  typed slice or map, a pointer), given by the JSON value Marshal writes for it. -/
  | other (enc : JValue)
  /-- A value of a type `json.Marshal` rejects (a channel, a function, a complex number),
  given by the name of its type. -/
  | unsupported (typeName : String)
deriving DecidableEq
/-- The elements of a `[]any`. -/
inductive GoList
  | nil
  | cons (x : GoValue) (xs : GoList)
deriving DecidableEq
/-- The entries of a `map[string]any`. -/
inductive GoFields
  | nil
  | cons (k : String) (v : GoValue) (rest : GoFields)
deriving DecidableEq
end

/-- The order of Go strings, `a < b`: byte by byte on the UTF-8 encodings, which is
the order rune by rune.  `json.Marshal` writes the entries of a map in this order
of their keys. -/
def keyLess (a b : String) : Bool := decide (a.data < b.data)

/-- The keys of the entries, in list order. -/
def GoFields.keys : GoFields → List String
  | .nil => []
  | .cons k _ rest => k :: rest.keys

/-- The entries as a Lean list. -/
def GoFields.toList : GoFields → List (String × GoValue)
  | .nil => []
  | .cons k v rest => (k, v) :: rest.toList

/-- Concatenation of entry lists. -/
def GoFields.append : GoFields → GoFields → GoFields
  | .nil, n => n
  | .cons k v rest, n => .cons k v (rest.append n)

/-- Map lookup `m[key]` (`none` when the key is absent, where Go yields the zero
value `nil` and `ok = false`). -/
def GoFields.get : GoFields → String → Option GoValue
  | .nil, _ => none
  | .cons k v rest, key => if k = key then some v else rest.get key

/-- Map assignment `m[k] = v`: the entry of the key is replaced, a new key is put at
its place in the key order. -/
def GoFields.insert : GoFields → String → GoValue → GoFields
  | .nil, k, v => .cons k v .nil
  | .cons k0 v0 rest, k, v =>
    if k = k0 then .cons k v rest
    else if keyLess k k0 then .cons k v (.cons k0 v0 rest)
    else .cons k0 v0 (rest.insert k v)

/-- The assignments `m[k] = v` for the entries of a second list, in list order. -/
def GoFields.insertAll : GoFields → GoFields → GoFields
  | m, .nil => m
  | m, .cons k v rest => GoFields.insertAll (m.insert k v) rest

mutual
/-- Whether a value is of the kinds `json.Unmarshal` stores in an `any` (`nil`, `bool`,
finite `float64`, `string`, `[]any`, `map[string]any` of such values, the maps in key
order). -/
def GoValue.isJSONData : GoValue → Bool
  | .nil => true
  | .bool _ => true
  | .float64 x => isFloat64 x
  | .string _ => true
  | .sliceAny xs => xs.isJSONData
  | .mapAny kvs => kvs.isJSONData
  | .nan => false
  | .inf _ => false
  | .int _ => false
  | .other _ => false
  | .unsupported _ => false
/-- Elementwise `GoValue.isJSONData`. -/
def GoList.isJSONData : GoList → Bool
  | .nil => true
  | .cons x xs => x.isJSONData && xs.isJSONData
/-- Entrywise `GoValue.isJSONData`, with every key below all the keys after it. -/
def GoFields.isJSONData : GoFields → Bool
  | .nil => true
  | .cons k v rest => rest.keys.all (fun k2 => keyLess k k2) && v.isJSONData && rest.isJSONData
end

/-! ## Wire types (`types.go`, `action.go`, `event.go`, `errors.go`) -/

/-- The `Self` struct: bot self identification. -/
structure Self where
  Platform : String
  UserID : String
deriving DecidableEq, Repr

/-- The `MessageSegment` struct (`Type_` is the field `Type`).  `Data` is a
`map[string]any`; `none` is the nil map. -/
structure MessageSegment where
  Type_ : String
  Data : Option GoFields
deriving DecidableEq

/-- The `Message` type: a slice of message segments, given by its elements. -/
abbrev Message := List MessageSegment

/-- The `ActionRequest` struct.  `Params` is a `map[string]any`; `none` is the nil map. -/
structure ActionRequest where
  Action : String
  Params : Option GoFields
  Echo : String
  Self : Option Self
deriving DecidableEq

/-- The `ActionResponse` struct.  `Data` is a Go `any`: what the decoder stored, or
what the code that built the response put there. -/
structure ActionResponse where
  Status : String
  Retcode : Int
  Data : GoValue
  Message : String
  Echo : String
deriving DecidableEq

/-- The `Event` struct.  `Time` is a `float64`; `Type_` is the field `Type`. -/
structure Event where
  ID : String
  Self : Option Self
  Time : Rat
  Type_ : String
  DetailType : String
  SubType : String
deriving DecidableEq

/-- The `MessageEvent` struct (embeds `Event`).  The field `Message` is a slice header:
`Message` holds its elements and `MessageSpare` the cells of its backing array between
its length and its capacity that hold data (what a longer, earlier content left
there); a cell that holds the zero value is the same as no cell. -/
structure MessageEvent where
  toEvent : Event
  MessageID : String
  Message : Message
  MessageSpare : List MessageSegment
  AltMessage : String
  UserID : String
  GroupID : String
deriving DecidableEq

/-- The `NoticeEvent` struct (embeds `Event`). -/
structure NoticeEvent where
  toEvent : Event
  UserID : String
  GroupID : String
  OperatorID : String
deriving DecidableEq

/-- One entry of `BotStatus.Bots`. -/
structure BotEntry where
  Self : Self
  Online : Bool
deriving DecidableEq

/-- The `BotStatus` struct.  The field `Bots` is a slice header: `Bots` holds its
elements and `BotsSpare` the cells of its backing array beyond its length that
hold data. -/
structure BotStatus where
  Good : Bool
  Bots : List BotEntry
  BotsSpare : List BotEntry
deriving DecidableEq

/-- The `MetaEvent` struct (embeds `Event`). -/
structure MetaEvent where
  toEvent : Event
  Interval : Int
  Status : Option BotStatus
deriving DecidableEq

/-- The `RequestEvent` struct (embeds `Event`). -/
structure RequestEvent where
  toEvent : Event
  UserID : String
  GroupID : String
  Comment : String
deriving DecidableEq

/-- The dynamic values `ParseEvent` returns as `any` and `handleEvent` switches on. -/
inductive AnyEvent
  | message (e : MessageEvent)
  | notice (e : NoticeEvent)
  | meta (e : MetaEvent)
  | request (e : RequestEvent)
  | base (e : Event)
deriving DecidableEq

/-- The `Error` struct of `errors.go`. -/
structure Error where
  Code : Int
  Message : String
deriving DecidableEq, Repr

/-- A Go `error` value as this package produces them: a plain error built by
`fmt.Errorf`, or a pointer to an `Error`. -/
inductive GoError
  | errorf (msg : String)
  | onebot (e : Error)
deriving DecidableEq, Repr

/-- The constructor `NewActionRequest`. -/
def NewActionRequest (action : String) (params : Option GoFields) : ActionRequest :=
  { Action := action, Params := params, Echo := "", Self := none }

/-- The method `ActionRequest.WithEcho`. -/
def ActionRequest.WithEcho (r : ActionRequest) (echo : String) : ActionRequest :=
  { r with Echo := echo }

/-- The method `ActionRequest.WithSelf`. -/
def ActionRequest.WithSelf (r : ActionRequest) (self : Option OneBot.Self) : ActionRequest :=
  { r with Self := self }

/-! ## Decoding (`encoding/json` as used by `readLoop` and `ParseEvent`)

Every decoder stores a JSON value into a Go value that already holds `cur`, as
`json.Unmarshal` does, and yields `none` when `Unmarshal` returns a non-nil error.
A type mismatch makes `Unmarshal` go on and return the error at the end, a failing
`UnmarshalJSON` makes it stop: the caller sees an error either way and the sources
modelled here drop the partly filled value. -/

/-- Case folding of one rune of an object key, as `encoding/json` folds names before
comparing them with the struct tags.  All tags of this package are lower-case ASCII,
and the only non-ASCII runes whose fold orbit meets ASCII are U+017F (long s) and
U+212A (Kelvin sign). -/
def foldRune (c : Char) : Char :=
  if c = Char.ofNat 0x17F then 'S'
  else if c = Char.ofNat 0x212A then 'K'
  else c.toUpper

/-- Whether an object key selects the struct field tagged `name`: the folded names
are equal.  The tags of one struct are pairwise distinct after folding, so the
exact-match-first rule of the decoder selects the same field. -/
def sameName (key name : String) : Bool :=
  key.data.map foldRune == name.data.map foldRune

/-- Store into a `string`. -/
def decodeString (v : JValue) (cur : String) : Option String :=
  match v with
  | .str s => some s
  | .null => some cur
  | _ => none

/-- Store into an `int64`: only a plain integer literal in range is accepted. -/
def decodeInt64 (v : JValue) (cur : Int) : Option Int :=
  match v with
  | .num (.int n) =>
    if -9223372036854775808 ≤ n ∧ n ≤ 9223372036854775807 then some n else none
  | .null => some cur
  | _ => none

/-- Store into a `float64`: the literal is parsed by `strconv.ParseFloat`. -/
def decodeFloat64 (v : JValue) (cur : Rat) : Option Rat :=
  match v with
  | .num n => n.toFloat64
  | .null => some cur
  | _ => none

/-- Store into a `bool`. -/
def decodeBool (v : JValue) (cur : Bool) : Option Bool :=
  match v with
  | .bool b => some b
  | .null => some cur
  | _ => none

mutual
/-- Store into an `any`, whatever it held: `null` gives nil, a number the `float64`
it parses to (an error when it is out of range), an array a new `[]any`, an object a
new `map[string]any`. -/
def decodeAny : JValue → Option GoValue
  | .null => some .nil
  | .bool b => some (.bool b)
  | .num n =>
    match n.toFloat64 with
    | some x => some (.float64 x)
    | none => none
  | .str s => some (.string s)
  | .arr xs =>
    match decodeAnyList xs with
    | some ys => some (.sliceAny ys)
    | none => none
  | .obj kvs =>
    match decodeAnyFields kvs .nil with
    | some m => some (.mapAny m)
    | none => none
/-- Elementwise `decodeAny`. -/
def decodeAnyList : JList → Option GoList
  | .nil => some .nil
  | .cons x xs =>
    match decodeAny x, decodeAnyList xs with
    | some y, some ys => some (.cons y ys)
    | _, _ => none
/-- The assignments `m[key] = value` for the members of an object, in document order,
on the map `m`; each value is decoded as an `any`. -/
def decodeAnyFields : JFields → GoFields → Option GoFields
  | .nil, m => some m
  | .cons k v rest, m =>
    match decodeAny v with
    | some x => decodeAnyFields rest (m.insert k x)
    | none => none
end

/-- Store into a `map[string]any`: `null` gives the nil map, an object is assigned
member by member into the current map (a fresh one when the current map is nil). -/
def decodeMapAny (v : JValue) (cur : Option GoFields) : Option (Option GoFields) :=
  match v with
  | .null => some none
  | .obj kvs => (decodeAnyFields kvs (cur.getD .nil)).map some
  | _ => none

/-- Store the members of an object into a struct, one after the other; `setField`
stores one member (and ignores a key that selects no field). -/
def decodeFields {σ : Type} (setField : σ → String → JValue → Option σ) : JFields → σ → Option σ
  | .nil, cur => some cur
  | .cons k v rest, cur =>
    match setField cur k v with
    | some next => decodeFields setField rest next
    | none => none

/-- Store into a struct: an object is stored member by member, `null` leaves the
struct as it is, any other value is a type mismatch. -/
def decodeStruct {σ : Type} (setField : σ → String → JValue → Option σ) (v : JValue) (cur : σ) :
    Option σ :=
  match v with
  | .obj kvs => decodeFields setField kvs cur
  | .null => some cur
  | _ => none

/-- Store into a pointer to a struct: `null` sets the pointer to nil, any other value
is stored into the struct pointed to (allocated when the pointer is nil). -/
def decodePtr {σ : Type} (zero : σ) (setField : σ → String → JValue → Option σ) (v : JValue)
    (cur : Option σ) : Option (Option σ) :=
  match v with
  | .null => some none
  | _ => (decodeStruct setField v (cur.getD zero)).map some

/-- Store the elements of an array into the cells of a backing array, the first
element into the first cell and so on: each element is stored into what its cell
holds (`decodeState.array` does not clear the cells), and into a zero value once the
cells are used up (`reflect.Value.Grow`).  The result is the elements stored and the
cells left over. -/
def decodeElems {σ : Type} (zero : σ) (setField : σ → String → JValue → Option σ) :
    JList → List σ → Option (List σ × List σ)
  | .nil, cells => some ([], cells)
  | .cons x xs, cells =>
    match decodeStruct setField x (cells.headD zero), decodeElems zero setField xs cells.tail with
    | some y, some (ys, spare) => some (y :: ys, spare)
    | _, _ => none

/-- Store into a slice of structs whose backing array holds `cells` (the elements of
the slice, then the cells up to its capacity): `null` gives the nil slice, the empty
array a new empty slice, any other array is stored into the cells.  The result is
the elements of the slice and the cells beyond its length. -/
def decodeSlice {σ : Type} (zero : σ) (setField : σ → String → JValue → Option σ) (v : JValue)
    (cells : List σ) : Option (List σ × List σ) :=
  match v with
  | .arr .nil => some ([], [])
  | .arr xs => decodeElems zero setField xs cells
  | .null => some ([], [])
  | _ => none

/-- Store the member `key: v` into a `Self`. -/
def Self.setField (s : Self) (key : String) (v : JValue) : Option Self :=
  if sameName key "platform" then (decodeString v s.Platform).map (fun x => { s with Platform := x })
  else if sameName key "user_id" then (decodeString v s.UserID).map (fun x => { s with UserID := x })
  else some s

/-- The zero `Self`. -/
def Self.zero : Self := { Platform := "", UserID := "" }

/-- Store the member `key: v` into a `MessageSegment`. -/
def MessageSegment.setField (s : MessageSegment) (key : String) (v : JValue) :
    Option MessageSegment :=
  if sameName key "type" then (decodeString v s.Type_).map (fun x => { s with Type_ := x })
  else if sameName key "data" then (decodeMapAny v s.Data).map (fun x => { s with Data := x })
  else some s

/-- The zero `MessageSegment`. -/
def MessageSegment.zero : MessageSegment := { Type_ := "", Data := none }

/-- The method `Message.UnmarshalJSON` on the receiver `m` whose backing array also holds
`spare`: first decode the value as a string (which also accepts `null`, leaving the
string empty) and assign a new slice of one text segment; if that fails, decode the
value into the receiver as a slice of message segments.  The result is the message
and the cells of its backing array beyond its length. -/
def Message.UnmarshalJSON (m : Message) (spare : List MessageSegment) (data : JValue) :
    Option (Message × List MessageSegment) :=
  match decodeString data "" with
  | some str => some ([{ Type_ := "text", Data := some (.cons "text" (.string str) .nil) }], [])
  | none => decodeSlice MessageSegment.zero MessageSegment.setField data (m ++ spare)

/-- Store the member `key: v` into an `ActionResponse`. -/
def ActionResponse.setField (r : ActionResponse) (key : String) (v : JValue) :
    Option ActionResponse :=
  if sameName key "status" then (decodeString v r.Status).map (fun x => { r with Status := x })
  else if sameName key "retcode" then (decodeInt64 v r.Retcode).map (fun x => { r with Retcode := x })
  else if sameName key "data" then (decodeAny v).map (fun x => { r with Data := x })
  else if sameName key "message" then (decodeString v r.Message).map (fun x => { r with Message := x })
  else if sameName key "echo" then (decodeString v r.Echo).map (fun x => { r with Echo := x })
  else some r

/-- The zero `ActionResponse` (`var response ActionResponse`). -/
def ActionResponse.zero : ActionResponse :=
  { Status := "", Retcode := 0, Data := .nil, Message := "", Echo := "" }

/-- The call `json.Unmarshal(data, &response)` for a zero `ActionResponse`. -/
def UnmarshalActionResponse (data : Frame) : Option ActionResponse :=
  match data with
  | some v => decodeStruct ActionResponse.setField v ActionResponse.zero
  | none => none

/-- Whether a key selects one of the fields of `Event`. -/
def Event.hasField (key : String) : Bool :=
  sameName key "id" || sameName key "self" || sameName key "time" || sameName key "type" ||
    sameName key "detail_type" || sameName key "sub_type"

/-- Store the member `key: v` into an `Event`. -/
def Event.setField (e : Event) (key : String) (v : JValue) : Option Event :=
  if sameName key "id" then (decodeString v e.ID).map (fun x => { e with ID := x })
  else if sameName key "self" then
    (decodePtr Self.zero Self.setField v e.Self).map (fun x => { e with Self := x })
  else if sameName key "time" then (decodeFloat64 v e.Time).map (fun x => { e with Time := x })
  else if sameName key "type" then (decodeString v e.Type_).map (fun x => { e with Type_ := x })
  else if sameName key "detail_type" then
    (decodeString v e.DetailType).map (fun x => { e with DetailType := x })
  else if sameName key "sub_type" then
    (decodeString v e.SubType).map (fun x => { e with SubType := x })
  else some e

/-- The zero `Event` (`var base Event`). -/
def Event.zero : Event :=
  { ID := "", Self := none, Time := 0, Type_ := "", DetailType := "", SubType := "" }

/-- Store the member `key: v` into a `MessageEvent`; the fields of the embedded
`Event` are promoted. -/
def MessageEvent.setField (e : MessageEvent) (key : String) (v : JValue) : Option MessageEvent :=
  if Event.hasField key then (e.toEvent.setField key v).map (fun x => { e with toEvent := x })
  else if sameName key "message_id" then
    (decodeString v e.MessageID).map (fun x => { e with MessageID := x })
  else if sameName key "message" then
    (Message.UnmarshalJSON e.Message e.MessageSpare v).map
      (fun x => { e with Message := x.1, MessageSpare := x.2 })
  else if sameName key "alt_message" then
    (decodeString v e.AltMessage).map (fun x => { e with AltMessage := x })
  else if sameName key "user_id" then (decodeString v e.UserID).map (fun x => { e with UserID := x })
  else if sameName key "group_id" then
    (decodeString v e.GroupID).map (fun x => { e with GroupID := x })
  else some e

/-- The zero `MessageEvent`. -/
def MessageEvent.zero : MessageEvent :=
  { toEvent := Event.zero, MessageID := "", Message := [], MessageSpare := [], AltMessage := "",
    UserID := "", GroupID := "" }

/-- Store the member `key: v` into a `NoticeEvent`. -/
def NoticeEvent.setField (e : NoticeEvent) (key : String) (v : JValue) : Option NoticeEvent :=
  if Event.hasField key then (e.toEvent.setField key v).map (fun x => { e with toEvent := x })
  else if sameName key "user_id" then (decodeString v e.UserID).map (fun x => { e with UserID := x })
  else if sameName key "group_id" then
    (decodeString v e.GroupID).map (fun x => { e with GroupID := x })
  else if sameName key "operator_id" then
    (decodeString v e.OperatorID).map (fun x => { e with OperatorID := x })
  else some e

/-- The zero `NoticeEvent`. -/
def NoticeEvent.zero : NoticeEvent :=
  { toEvent := Event.zero, UserID := "", GroupID := "", OperatorID := "" }

/-- Store the member `key: v` into an entry of `BotStatus.Bots`. -/
def BotEntry.setField (b : BotEntry) (key : String) (v : JValue) : Option BotEntry :=
  if sameName key "self" then
    (decodeStruct Self.setField v b.Self).map (fun x => { b with Self := x })
  else if sameName key "online" then (decodeBool v b.Online).map (fun x => { b with Online := x })
  else some b

/-- The zero entry of `BotStatus.Bots`. -/
def BotEntry.zero : BotEntry := { Self := Self.zero, Online := false }

/-- Store the member `key: v` into a `BotStatus`. -/
def BotStatus.setField (b : BotStatus) (key : String) (v : JValue) : Option BotStatus :=
  if sameName key "good" then (decodeBool v b.Good).map (fun x => { b with Good := x })
  else if sameName key "bots" then
    (decodeSlice BotEntry.zero BotEntry.setField v (b.Bots ++ b.BotsSpare)).map
      (fun x => { b with Bots := x.1, BotsSpare := x.2 })
  else some b

/-- The zero `BotStatus`. -/
def BotStatus.zero : BotStatus := { Good := false, Bots := [], BotsSpare := [] }

/-- Store the member `key: v` into a `MetaEvent`. -/
def MetaEvent.setField (e : MetaEvent) (key : String) (v : JValue) : Option MetaEvent :=
  if Event.hasField key then (e.toEvent.setField key v).map (fun x => { e with toEvent := x })
  else if sameName key "interval" then
    (decodeInt64 v e.Interval).map (fun x => { e with Interval := x })
  else if sameName key "status" then
    (decodePtr BotStatus.zero BotStatus.setField v e.Status).map (fun x => { e with Status := x })
  else some e

/-- The zero `MetaEvent`. -/
def MetaEvent.zero : MetaEvent := { toEvent := Event.zero, Interval := 0, Status := none }

/-- Store the member `key: v` into a `RequestEvent`. -/
def RequestEvent.setField (e : RequestEvent) (key : String) (v : JValue) : Option RequestEvent :=
  if Event.hasField key then (e.toEvent.setField key v).map (fun x => { e with toEvent := x })
  else if sameName key "user_id" then (decodeString v e.UserID).map (fun x => { e with UserID := x })
  else if sameName key "group_id" then
    (decodeString v e.GroupID).map (fun x => { e with GroupID := x })
  else if sameName key "comment" then
    (decodeString v e.Comment).map (fun x => { e with Comment := x })
  else some e

/-- The zero `RequestEvent`. -/
def RequestEvent.zero : RequestEvent :=
  { toEvent := Event.zero, UserID := "", GroupID := "", Comment := "" }

/-- The call `json.Unmarshal(data, &v)` for a struct variable `v` holding its zero value. -/
def Unmarshal {σ : Type} (setField : σ → String → JValue → Option σ) (zero : σ) (data : Frame) :
    Option σ :=
  match data with
  | some v => decodeStruct setField v zero
  | none => none

/-- The function `ParseEvent`: decode the base `Event`, then decode the frame again into the
struct selected by `base.Type`; an unknown type gives the base event. -/
def ParseEvent (data : Frame) : Option AnyEvent :=
  match Unmarshal Event.setField Event.zero data with
  | none => none
  | some base =>
    if base.Type_ = "message" then
      (Unmarshal MessageEvent.setField MessageEvent.zero data).map AnyEvent.message
    else if base.Type_ = "notice" then
      (Unmarshal NoticeEvent.setField NoticeEvent.zero data).map AnyEvent.notice
    else if base.Type_ = "meta" then
      (Unmarshal MetaEvent.setField MetaEvent.zero data).map AnyEvent.meta
    else if base.Type_ = "request" then
      (Unmarshal RequestEvent.setField RequestEvent.zero data).map AnyEvent.request
    else some (.base base)

/-- The method `MessageEvent.IsPrivateMessage`. -/
def MessageEvent.IsPrivateMessage (e : MessageEvent) : Bool := e.toEvent.DetailType == "private"

/-- The method `MessageEvent.IsGroupMessage`. -/
def MessageEvent.IsGroupMessage (e : MessageEvent) : Bool := e.toEvent.DetailType == "group"


/-! ## Client state (`client.go`) -/

/-- An event handler, identified by the closure value registered with `On`. -/
abbrev Handler := Nat

/-- A `chan *ActionResponse` value: `none` is the nil channel, `some i` refers to
the channel object `i` of the channel heap. -/
abbrev ChanRef := Option Nat

/-- The `actionCall` struct: a pointer to the request object and the response channel. -/
structure ActionCall where
  request : Nat
  response : ChanRef
deriving DecidableEq, Repr

/-- The `Client` struct, followed by the runtime objects its goroutines share.
Durations are nanoseconds.  `actionChan` is the content of the buffered channel of
capacity 100, oldest first.  `requests` holds the `ActionRequest` objects behind the
pointers, `chans` the buffered content of each response channel (capacity 1),
`nextObj` is the next unused object address, `ctxDone` tells whether `cancel` ran,
`readLoops` and `writeLoops` count the goroutines running `readLoop` and `writeLoop`. -/
structure Client where
  url : String
  accessToken : String
  self : Option Self
  logger : Nat
  reconnect : Bool
  reconnectWait : Int
  heartbeat : Int
  timeout : Int
  conn : Option Nat
  closed : Bool
  connected : Bool
  eventHandlers : String → Option (List Handler)
  actionChan : List ActionCall
  responseChan : String → Option ChanRef
  ctxDone : Bool
  readLoops : Nat
  writeLoops : Nat
  requests : Nat → ActionRequest
  chans : Nat → List ActionResponse
  nextObj : Nat

/-- Map assignment `m[k] = v`. -/
def mapSet {β : Type} (m : String → Option β) (k : String) (v : β) : String → Option β :=
  fun x => if x = k then some v else m x

/-- Map deletion `delete(m, k)`. -/
def mapDelete {β : Type} (m : String → Option β) (k : String) : String → Option β :=
  fun x => if x = k then none else m x

/-- Store into a heap cell. -/
def heapSet {β : Type} (h : Nat → β) (i : Nat) (v : β) : Nat → β :=
  fun x => if x = i then v else h x

/-- One second, in nanoseconds (`time.Second`). -/
def Second : Int := 1000000000

/-- The constructor `New`: the default client with the options applied in argument order. -/
def New (url : String) (opts : List (Client → Client)) : Client :=
  opts.foldl (fun c opt => opt c)
    { url := url
      accessToken := ""
      self := none
      logger := 0
      reconnect := true
      reconnectWait := 5 * Second
      heartbeat := 30 * Second
      timeout := 30 * Second
      conn := none
      closed := false
      connected := false
      eventHandlers := fun _ => none
      actionChan := []
      responseChan := fun _ => none
      ctxDone := false
      readLoops := 0
      writeLoops := 0
      requests := fun _ => NewActionRequest "" none
      chans := fun _ => []
      nextObj := 0 }

/-- The method `Client.connect`, given the outcome of `websocket.Dial` (the new connection, or
the text of the dial error): on success the connection is stored, the client is
marked connected and one `readLoop` and one `writeLoop` goroutine are started.  The
socket objects themselves (the old connection closed by `CloseNow`) are not part of
the state. -/
def connect (c : Client) (dial : Except String Nat) : Client × Option GoError :=
  match dial with
  | .error err => (c, some (.errorf ("连接 WebSocket 失败: " ++ err)))
  | .ok conn =>
    ({ c with
       conn := some conn
       connected := true
       readLoops := c.readLoops + 1
       writeLoops := c.writeLoops + 1 }, none)

/-- The method `Client.IsConnected`. -/
def IsConnected (c : Client) : Bool := c.connected

/-- The method `Client.On`: `c.eventHandlers[eventType] = append(c.eventHandlers[eventType], handler)`. -/
def On (c : Client) (eventType : String) (handler : Handler) : Client :=
  { c with eventHandlers :=
      mapSet c.eventHandlers eventType (((c.eventHandlers eventType).getD []) ++ [handler]) }

/-- The `eventType` string computed by the type switch of `handleEvent`. -/
def eventTypeOf : AnyEvent → String
  | .message e => if e.toEvent.DetailType ≠ "" then "message." ++ e.toEvent.DetailType else "message"
  | .notice e => if e.toEvent.DetailType ≠ "" then "notice." ++ e.toEvent.DetailType else "notice"
  | .meta e => if e.toEvent.DetailType ≠ "" then "meta." ++ e.toEvent.DetailType else "meta"
  | .request e => if e.toEvent.DetailType ≠ "" then "request." ++ e.toEvent.DetailType else "request"
  | .base e => if e.DetailType ≠ "" then e.Type_ ++ "." ++ e.DetailType else e.Type_

/-- The goroutines `go handler(event)` started for the handlers stored under one key. -/
def spawnAll (c : Client) (key : String) (event : AnyEvent) : List (Handler × AnyEvent) :=
  match c.eventHandlers key with
  | some handlers => handlers.map (fun h => (h, event))
  | none => []

/-- The method `Client.handleEvent`: the handler invocations it starts, in the order of the
`go` statements (first the handlers under the wildcard key, then those under
`eventType`).  The client state is only read. -/
def handleEvent (c : Client) (event : AnyEvent) : List (Handler × AnyEvent) :=
  spawnAll c "*" event ++ spawnAll c (eventTypeOf event) event

/-- The timed send `select { case ch <- response: ; case <-time.After(time.Second): }`
on a channel of capacity 1 with buffered content `buf`: the send arm is taken when
the buffer has room; when the buffer is full for the whole second the timer arm is
taken and the response is dropped.  A receive that frees the slot during the wait
is the interleaving in which the receive step comes before this step. -/
def timedSend (buf : List ActionResponse) (response : ActionResponse) : List ActionResponse :=
  if buf.length < 1 then buf ++ [response] else buf

/-- The method `Client.handleActionResponse`: look the echo up and delete it under the lock,
then deliver to the channel found there, if any. -/
def handleActionResponse (c : Client) (response : ActionResponse) : Client :=
  match c.responseChan response.Echo with
  | some ch =>
    let c1 := { c with responseChan := mapDelete c.responseChan response.Echo }
    match ch with
    | some i => { c1 with chans := heapSet c1.chans i (timedSend (c1.chans i) response) }
    | none => c1
  | none => c

/-- The writer's handling of a dequeued call up to the registration (`writeLoop`,
`case call := <-c.actionChan`): an empty echo is replaced, through the request
pointer, by `uuid` (the value of `uuid.New().String()`), then the call's channel is
stored under the echo. -/
def writeLoopRegister (c : Client) (call : ActionCall) (uuid : String) : Client :=
  let req := c.requests call.request
  let req := if req.Echo = "" then { req with Echo := uuid } else req
  { c with
    requests := heapSet c.requests call.request req
    responseChan := mapSet c.responseChan req.Echo call.response }

/-- The receive `call := <-c.actionChan` of the writer: the oldest queued call. -/
def writeLoopDequeue (c : Client) : Option (ActionCall × Client) :=
  match c.actionChan with
  | [] => none
  | call :: rest => some (call, { c with actionChan := rest })

/-- The method `Client.CallWithTimeout` up to the first `select`: the connection check, the
construction of the request and of the call (allocated at `nextObj`, with a fresh
empty response channel) and the send on `actionChan`.  The send completes when the
queue holds fewer than 100 calls; otherwise, with no writer step in between, the
timer arm is taken. -/
def CallWithTimeoutSubmit (c : Client) (action : String) (params : Option GoFields) :
    Client × Except GoError ActionCall :=
  if !IsConnected c then
    (c, .error (.errorf "未连接到 OneBot 实现"))
  else
    let request := NewActionRequest action params
    let request := if c.self ≠ none then request.WithSelf c.self else request
    let p := c.nextObj
    let call : ActionCall := { request := p, response := some p }
    let c1 := { c with
      requests := heapSet c.requests p request
      chans := heapSet c.chans p []
      nextObj := p + 1 }
    if c1.actionChan.length < 100 then
      ({ c1 with actionChan := c1.actionChan ++ [call] }, .ok call)
    else
      (c1, .error (.errorf "发送动作请求超时"))

/-- The arm `case response := <-call.response` of the second `select` of
`CallWithTimeout`: enabled when the channel holds a response. -/
def CallWithTimeoutReceive (c : Client) (call : ActionCall) : Option (Client × ActionResponse) :=
  match call.response with
  | some i =>
    match c.chans i with
    | r :: rest => some ({ c with chans := heapSet c.chans i rest }, r)
    | [] => none
  | none => none

/-- The arm `case <-time.After(timeout)` of the second `select` of `CallWithTimeout`:
delete the entry under the echo the request object carries at that moment, and
return the error. -/
def CallWithTimeoutExpire (c : Client) (call : ActionCall) : Client × GoError :=
  ({ c with responseChan := mapDelete c.responseChan (c.requests call.request).Echo },
   .errorf "等待动作响应超时")

/-! ## The inbound loop (`readLoop`) -/

/-- The branch the body of `readLoop` takes for one frame. -/
inductive Route
  | response (r : ActionResponse)
  | event (e : AnyEvent)
  | discard
deriving DecidableEq

/-- The branch taken by the body of `readLoop`: `handleActionResponse` when the frame
decodes as an `ActionResponse` with a non-empty echo, otherwise `ParseEvent` and, if
it succeeds, `handleEvent`; a frame `ParseEvent` rejects is logged and dropped. -/
def readLoopRoute (data : Frame) : Route :=
  match (UnmarshalActionResponse data).filter (fun response => decide (response.Echo ≠ "")) with
  | some response => .response response
  | none =>
    match ParseEvent data with
    | some event => .event event
    | none => .discard

/-- One iteration of `readLoop` after a successful read: the new client state and
the handler invocations started. -/
def readLoopStep (c : Client) (data : Frame) : Client × List (Handler × AnyEvent) :=
  match readLoopRoute data with
  | .response response => (handleActionResponse c response, [])
  | .event event => (c, handleEvent c event)
  | .discard => (c, [])

/-- The return of `readLoop` when a read fails, up to the first statement of its
deferred function: `c.connected.Store(false)`. -/
def readLoopExit (c : Client) : Client :=
  { c with connected := false, readLoops := c.readLoops - 1 }

/-- What a run of `readLoop` has done so far: the client state, the handler
invocations started, the number of calls of `conn.Read` that have returned, and
whether the loop has returned (`false`: it is blocked in the next `conn.Read`). -/
structure ReadLoopRun where
  client : Client
  started : List (Handler × AnyEvent)
  reads : Nat
  returned : Bool

/-- The function `readLoop` run against what its successive calls of `conn.Read` return: a
frame (`.ok`), for which the body of the loop is run and the loop reads again, or an
error (`.error`), on which the loop returns and its deferred function runs. -/
def readLoop (c : Client) : List (Except String Frame) → ReadLoopRun
  | [] => { client := c, started := [], reads := 0, returned := false }
  | .error _ :: _ => { client := readLoopExit c, started := [], reads := 1, returned := true }
  | .ok data :: rest =>
    let step := readLoopStep c data
    let more := readLoop step.1 rest
    { client := more.client, started := step.2 ++ more.started, reads := more.reads + 1,
      returned := more.returned }

/-! ## Encoding (`json.Marshal`)

`json.Marshal` returns the JSON text or an error; the text is kept as the JSON
document it spells.  The entries of a map are written in increasing key order, the
fields of a struct in declaration order. -/

/-- Put an entry into a list kept in increasing key order; an entry with the same
key is replaced. -/
def insertKey {α : Type} (k : String) (v : α) : List (String × α) → List (String × α)
  | [] => [(k, v)]
  | (k0, v0) :: rest =>
    if keyLess k k0 then (k, v) :: (k0, v0) :: rest
    else if k = k0 then (k, v) :: rest
    else (k0, v0) :: insertKey k v rest

/-- The members of an object from the encodings of the entries of a map, taken in
key order: the first entry whose encoding failed makes the whole encoding fail. -/
def collectFields : List (String × Except String JValue) → Except String JFields
  | [] => .ok .nil
  | (k, .ok j) :: rest =>
    match collectFields rest with
    | .ok js => .ok (.cons k j js)
    | .error err => .error err
  | (_, .error err) :: _ => .error err

mutual
/-- The call `json.Marshal(v)` for a value held in an `any`: the JSON document written, or the
text of the error (`UnsupportedValueError` for NaN and the infinities,
`UnsupportedTypeError` for a type that has no encoding). -/
def GoValue.Marshal : GoValue → Except String JValue
  | .nil => .ok .null
  | .bool b => .ok (.bool b)
  | .float64 x => .ok (.num (float64Literal x))
  | .nan => .error "json: unsupported value: NaN"
  | .inf negative =>
    .error (if negative then "json: unsupported value: -Inf" else "json: unsupported value: +Inf")
  | .int n => .ok (.num (.int n))
  | .string s => .ok (.str s)
  | .sliceAny xs =>
    match xs.Marshal with
    | .ok js => .ok (.arr js)
    | .error err => .error err
  | .mapAny kvs =>
    match collectFields kvs.Marshal with
    | .ok js => .ok (.obj js)
    | .error err => .error err
  | .other enc => .ok enc
  | .unsupported typeName => .error ("json: unsupported type: " ++ typeName)
/-- The encodings of the elements of a `[]any`, in order, up to the first failure. -/
def GoList.Marshal : GoList → Except String JList
  | .nil => .ok .nil
  | .cons x xs =>
    match x.Marshal with
    | .error err => .error err
    | .ok j =>
      match xs.Marshal with
      | .ok js => .ok (.cons j js)
      | .error err => .error err
/-- The entries of a `map[string]any` in increasing key order, each with the outcome
of its encoding. -/
def GoFields.Marshal : GoFields → List (String × Except String JValue)
  | .nil => []
  | .cons k v rest => insertKey k v.Marshal rest.Marshal
end

/-- The JSON encoding of a `Self`. -/
def Self.Marshal (s : Self) : JValue :=
  .obj (.cons "platform" (.str s.Platform) (.cons "user_id" (.str s.UserID) .nil))

/-- The JSON encoding of a `map[string]any` field without `omitempty`: `null` for the
nil map, else the object of its entries. -/
def marshalMap (m : Option GoFields) : Except String JValue :=
  match m with
  | some kvs => (GoValue.mapAny kvs).Marshal
  | none => .ok .null

/-- The call `json.Marshal(r)` for an `ActionRequest`, following the struct tags: `action` and
`params` always, `echo` unless empty, `self` unless nil.  It fails when the encoding
of a parameter fails. -/
def ActionRequest.Marshal (r : ActionRequest) : Except String JValue :=
  match marshalMap r.Params with
  | .error err => .error err
  | .ok params =>
    .ok (.obj (.cons "action" (.str r.Action) (.cons "params" params
      (if r.Echo = "" then
        (match r.Self with
         | some s => .cons "self" s.Marshal .nil
         | none => .nil)
       else
        .cons "echo" (.str r.Echo)
          (match r.Self with
           | some s => .cons "self" s.Marshal .nil
           | none => .nil)))))

/-- Store the member `key: v` into an `ActionRequest`. -/
def ActionRequest.setField (r : ActionRequest) (key : String) (v : JValue) :
    Option ActionRequest :=
  if sameName key "action" then (decodeString v r.Action).map (fun x => { r with Action := x })
  else if sameName key "params" then (decodeMapAny v r.Params).map (fun x => { r with Params := x })
  else if sameName key "echo" then (decodeString v r.Echo).map (fun x => { r with Echo := x })
  else if sameName key "self" then
    (decodePtr Self.zero Self.setField v r.Self).map (fun x => { r with Self := x })
  else some r

/-- The zero `ActionRequest`. -/
def ActionRequest.zero : ActionRequest :=
  { Action := "", Params := none, Echo := "", Self := none }

/-- Encoding a request and decoding the text again: `json.Marshal(r)`, then
`json.Unmarshal` of the text into a zero `ActionRequest` (`none` when either fails). -/
def ActionRequest.roundTrip (r : ActionRequest) : Option ActionRequest :=
  match r.Marshal with
  | .ok data => decodeStruct ActionRequest.setField data ActionRequest.zero
  | .error _ => none

/-- The constant `RetcodeOK`. -/
def RetcodeOK : Int := 0

/-- The constant `RetcodeBadRequest`. -/
def RetcodeBadRequest : Int := 10001

/-- The constant `RetcodeInternalHandlerError`. -/
def RetcodeInternalHandlerError : Int := 20002

/-- The method `ActionResponse.IsOK`. -/
def ActionResponse.IsOK (r : ActionResponse) : Bool :=
  r.Status == "ok" && r.Retcode == 0

/-! ## The writer after the registration (`writeLoop`, lines 181-209) -/

/-- The blocking send `ch <- response` on a response channel (capacity 1): it
completes when the buffer has room; on a full buffer, or on the nil channel, the
sender stays blocked (`none`). -/
def blockingSend (c : Client) (ch : ChanRef) (response : ActionResponse) : Option Client :=
  match ch with
  | some i =>
    if (c.chans i).length < 1 then
      some { c with chans := heapSet c.chans i (c.chans i ++ [response]) }
    else none
  | none => none

/-- The response the writer synthesizes when `json.Marshal` fails with error text `err`. -/
def marshalFailure (err : String) : ActionResponse :=
  { Status := "failed", Retcode := RetcodeBadRequest, Data := .nil, Message := err, Echo := "" }

/-- The response the writer synthesizes when `conn.Write` fails with error text `err`. -/
def writeFailure (err : String) : ActionResponse :=
  { Status := "failed", Retcode := RetcodeInternalHandlerError, Data := .nil, Message := err,
    Echo := "" }

/-- The writer's handling of a registered call: encode the request, and write the
frame when a connection is stored.  When `json.Marshal` fails the writer sends the
response synthesized from its error and goes on with the next call; `writeErr` is
the error of `conn.Write`, if any.  The result is the new state and the frame handed
to `conn.Write`, or `none` when the writer stays blocked on the send of a
synthesized response. -/
def writeLoopSend (c : Client) (call : ActionCall) (writeErr : Option String) :
    Option (Client × Option JValue) :=
  match (c.requests call.request).Marshal with
  | .error err => (blockingSend c call.response (marshalFailure err)).map (fun c1 => (c1, none))
  | .ok data =>
    match c.conn with
    | some _ =>
      match writeErr with
      | some err =>
        (blockingSend c call.response (writeFailure err)).map (fun c1 => (c1, some data))
      | none => some (c, some data)
    | none => some (c, none)

/-- The whole arm `case call := <-c.actionChan` of `writeLoop` for a dequeued call. -/
def writeLoopCall (c : Client) (call : ActionCall) (uuid : String) (writeErr : Option String) :
    Option (Client × Option JValue) :=
  writeLoopSend (writeLoopRegister c call uuid) call writeErr

/-- The arm `case <-c.ctx.Done(): return` of `writeLoop`: the only exit of the writer. -/
def writeLoopExit (c : Client) : Client :=
  if c.ctxDone then { c with writeLoops := c.writeLoops - 1 } else c

/-! ## Lifecycle (`Close`, `handleDisconnect`) and options (`options.go`) -/

/-- The first two statements of `Client.Close`: `c.closed.Store(true)` and `c.cancel()`. -/
def CloseCancel (c : Client) : Client :=
  { c with closed := true, ctxDone := true }

/-- The rest of `Client.Close`, under the lock `c.mu`: close the connection if there is one;
`closeErr` is what `conn.Close` returns. -/
def CloseConn (c : Client) (closeErr : Option GoError) : Client × Option GoError :=
  match c.conn with
  | some _ => (c, closeErr)
  | none => (c, none)

/-- The method `Client.Close` run without another goroutine in between: set the closed intent,
cancel the context and close the connection if there is one. -/
def Close (c : Client) (closeErr : Option GoError) : Client × Option GoError :=
  CloseConn (CloseCancel c) closeErr

/-- A step of one of the goroutines at work while `Close` runs: the two parts of
`Close` in the calling goroutine, and the return of `readLoop` in the reader
goroutine, whose blocked `conn.Read` fails once the context is cancelled or the
connection is closed.  Nothing orders the return of the reader with the second part of
`Close` or with what the caller does after `Close`. -/
inductive CloseStep
  | cancel
  | closeConn (closeErr : Option GoError)
  | readerExit
deriving DecidableEq

/-- The effect of one step on the client state. -/
def CloseStep.run (c : Client) : CloseStep → Client
  | .cancel => CloseCancel c
  | .closeConn closeErr => (CloseConn c closeErr).1
  | .readerExit => readLoopExit c

/-- The effect of a sequence of steps, first to last. -/
def runSteps (c : Client) (steps : List CloseStep) : Client :=
  steps.foldl CloseStep.run c

/-- The method `Client.handleDisconnect`: whether the reconnect goroutine is started. -/
def handleDisconnect (c : Client) : Bool :=
  if c.closed then false
  else if c.reconnect then true
  else false

/-- One pass of the loop `for !c.closed.Load()` of the reconnect goroutine, from the
test of the condition: `none` when the loop ends at the condition without a connect
attempt, else the result of the one attempt made (`connect` after the wait); the loop
breaks when that result is no error. -/
def reconnectPass (c : Client) (dial : Except String Nat) : Client × Option (Option GoError) :=
  if c.closed then (c, none)
  else
    let r := connect c dial
    (r.1, some r.2)

/-- The reconnect goroutine run against the outcomes of its successive dials: the
final state and the number of connect attempts made. -/
def reconnectLoop (c : Client) : List (Except String Nat) → Client × Nat
  | [] => (c, 0)
  | dial :: rest =>
    match reconnectPass c dial with
    | (c1, none) => (c1, 0)
    | (c1, some none) => (c1, 1)
    | (c1, some (some _)) =>
      let more := reconnectLoop c1 rest
      (more.1, more.2 + 1)

/-- The option `WithAccessToken`. -/
def WithAccessToken (token : String) : Client → Client :=
  fun c => { c with accessToken := token }

/-- The option `WithSelf`. -/
def WithSelf (platform userID : String) : Client → Client :=
  fun c => { c with self := some { Platform := platform, UserID := userID } }

/-- The option `WithLogger`. -/
def WithLogger (logger : Nat) : Client → Client :=
  fun c => { c with logger := logger }

/-- The option `WithReconnect`. -/
def WithReconnect (enabled : Bool) : Client → Client :=
  fun c => { c with reconnect := enabled }

/-- The option `WithReconnectWait`. -/
def WithReconnectWait (wait : Int) : Client → Client :=
  fun c => { c with reconnectWait := wait }

/-- The option `WithHeartbeat`. -/
def WithHeartbeat (interval : Int) : Client → Client :=
  fun c => { c with heartbeat := interval }

/-- The option `WithTimeout`. -/
def WithTimeout (timeout : Int) : Client → Client :=
  fun c => { c with timeout := timeout }

/-! ## Message content (`types.go`) -/

/-- The constructor `Text`. -/
def Text (text : String) : MessageSegment :=
  { Type_ := "text", Data := some (.cons "text" (.string text) .nil) }

/-- The constructor `Image`. -/
def Image (fileID : String) : MessageSegment :=
  { Type_ := "image", Data := some (.cons "file_id" (.string fileID) .nil) }

/-- The constructor `Voice`. -/
def Voice (fileID : String) : MessageSegment :=
  { Type_ := "voice", Data := some (.cons "file_id" (.string fileID) .nil) }

/-- The constructor `Audio`. -/
def Audio (fileID : String) : MessageSegment :=
  { Type_ := "audio", Data := some (.cons "file_id" (.string fileID) .nil) }

/-- The constructor `Video`. -/
def Video (fileID : String) : MessageSegment :=
  { Type_ := "video", Data := some (.cons "file_id" (.string fileID) .nil) }

/-- The constructor `File`. -/
def File (fileID : String) : MessageSegment :=
  { Type_ := "file", Data := some (.cons "file_id" (.string fileID) .nil) }

/-- The constructor `Mention`. -/
def Mention (userID : String) : MessageSegment :=
  { Type_ := "mention", Data := some (.cons "user_id" (.string userID) .nil) }

/-- The constructor `MentionAll`. -/
def MentionAll : MessageSegment :=
  { Type_ := "mention_all", Data := some .nil }

/-- The expression `seg.Data[key].(string)`: the value stored under the key when it
is a string (`none` when the assertion fails: nil map, key absent, other type). -/
def dataString (seg : MessageSegment) (key : String) : Option String :=
  match seg.Data with
  | some m =>
    match m.get key with
    | some (.string x) => some x
    | _ => none
  | none => none

/-- The body of the loop of `Message.ToAltMessage`: the switch on `seg.Type` applied
to the result built so far. -/
def altStep (result : String) (seg : MessageSegment) : String :=
  if seg.Type_ = "text" then
    (match dataString seg "text" with
     | some text => result ++ text
     | none => result)
  else if seg.Type_ = "image" then result ++ "[图片]"
  else if seg.Type_ = "voice" then result ++ "[语音]"
  else if seg.Type_ = "audio" then result ++ "[音频]"
  else if seg.Type_ = "video" then result ++ "[视频]"
  else if seg.Type_ = "file" then result ++ "[文件]"
  else if seg.Type_ = "location" then result ++ "[位置]"
  else if seg.Type_ = "reply" then result ++ "[回复]"
  else if seg.Type_ = "mention" then
    (match dataString seg "user_id" with
     | some userID => result ++ ("@" ++ userID)
     | none => result)
  else if seg.Type_ = "mention_all" then result ++ "@全体成员"
  else result ++ ("[" ++ seg.Type_ ++ "]")

/-- The method `Message.ToAltMessage`: the loop over the segments, from the empty string. -/
def ToAltMessage (m : Message) : String :=
  m.foldl altStep ""

/-- The rendering of one segment as the specification words it: the text of a text
segment, a fixed tag for the media types, `@` and the user id for a mention, the
type in brackets for any other type. -/
def renderSegment (seg : MessageSegment) : String :=
  if seg.Type_ = "text" then (dataString seg "text").getD ""
  else if seg.Type_ = "image" then "[图片]"
  else if seg.Type_ = "voice" then "[语音]"
  else if seg.Type_ = "audio" then "[音频]"
  else if seg.Type_ = "video" then "[视频]"
  else if seg.Type_ = "file" then "[文件]"
  else if seg.Type_ = "location" then "[位置]"
  else if seg.Type_ = "reply" then "[回复]"
  else if seg.Type_ = "mention" then
    (match dataString seg "user_id" with
     | some userID => "@" ++ userID
     | none => "")
  else if seg.Type_ = "mention_all" then "@全体成员"
  else "[" ++ seg.Type_ ++ "]"

/-- The concatenation of a list of strings, in order. -/
def concatAll : List String → String
  | [] => ""
  | x :: xs => x ++ concatAll xs

/-- The call `json.Marshal(seg)` for a `MessageSegment`: members `type` and `data`. -/
def MessageSegment.Marshal (seg : MessageSegment) : Except String JValue :=
  match marshalMap seg.Data with
  | .ok data => .ok (.obj (.cons "type" (.str seg.Type_) (.cons "data" data .nil)))
  | .error err => .error err

/-- The encodings of the segments of a message, in order, up to the first failure. -/
def marshalSegments : List MessageSegment → Except String JList
  | [] => .ok .nil
  | seg :: rest =>
    match seg.Marshal with
    | .error err => .error err
    | .ok j =>
      match marshalSegments rest with
      | .ok js => .ok (.cons j js)
      | .error err => .error err

/-- The call `json.Marshal(m)` for a non-nil `Message`: the JSON array of the encodings of its
segments. -/
def segmentsArray (m : Message) : Except String JValue :=
  match marshalSegments m with
  | .ok js => .ok (.arr js)
  | .error err => .error err

/-- What decoding the encoding of the segment `seg` into a cell that holds `old`
leaves in the cell: the type of `seg`, and for the data the nil map when `seg` has
the nil map, else the map of `old` (a new one when that is nil) with the entries of
`seg` assigned into it. -/
def MessageSegment.storedInto (old seg : MessageSegment) : MessageSegment :=
  { Type_ := seg.Type_,
    Data := seg.Data.map (fun kvs => (old.Data.getD .nil).insertAll kvs) }

/-- What decoding the encodings of `segs` into the cells of a backing array leaves
in the first cells, one segment per cell (zero values once the cells are used up). -/
def storeSegments : List MessageSegment → List MessageSegment → List MessageSegment
  | _, [] => []
  | cells, seg :: rest =>
    (cells.headD MessageSegment.zero).storedInto seg :: storeSegments cells.tail rest

/-- The message of `TestMessageToAltMessage`. -/
def testMessage : Message :=
  [Text "你好", Image "file123", Voice "voice456", Mention "user789", MentionAll, Text "！"]

/-! ## Response data (`ActionResponse.UnmarshalData`, `action.go`) -/

/-- The error `UnmarshalData` returns: the error of `json.Marshal(r.Data)`, with its
text, or the error of `json.Unmarshal`. -/
inductive DataError
  | encode (err : String)
  | decode
deriving DecidableEq, Repr

/-- The outcome of `UnmarshalData`: the value stored into the target, or the error. -/
inductive DataResult (σ : Type)
  | ok (v : σ)
  | error (err : DataError)
deriving DecidableEq

/-- The method `ActionResponse.UnmarshalData` for a target decoded by `decode` (the call
`json.Unmarshal(data, v)` for the target `v`): `json.Marshal(r.Data)`, whose error is
returned if there is one, then `json.Unmarshal` of the text into the target. -/
def ActionResponse.UnmarshalData {σ : Type} (r : ActionResponse) (decode : Frame → Option σ) :
    DataResult σ :=
  match r.Data.Marshal with
  | .error err => .error (.encode err)
  | .ok data =>
    match decode (some data) with
    | some v => .ok v
    | none => .error .decode

mutual
/-- Whether `json.Marshal` has an encoding for the value: it holds no NaN, no infinity
and no value of an unsupported type. -/
def GoValue.encodable : GoValue → Bool
  | .nan => false
  | .inf _ => false
  | .unsupported _ => false
  | .sliceAny xs => xs.encodable
  | .mapAny kvs => kvs.encodable
  | .nil => true
  | .bool _ => true
  | .float64 _ => true
  | .int _ => true
  | .string _ => true
  | .other _ => true
/-- Elementwise `GoValue.encodable`. -/
def GoList.encodable : GoList → Bool
  | .nil => true
  | .cons x xs => x.encodable && xs.encodable
/-- Entrywise `GoValue.encodable`. -/
def GoFields.encodable : GoFields → Bool
  | .nil => true
  | .cons _ v rest => v.encodable && rest.encodable
end

/-- The entry `v.(map[string]any)[key]` of a value that is a map (`none` for any other
value and for an absent key). -/
def GoValue.entry (v : GoValue) (key : String) : Option GoValue :=
  match v with
  | .mapAny kvs => kvs.get key
  | _ => none

/-- The `SendMessageResponse` struct.  `Time` is a `float64`. -/
structure SendMessageResponse where
  MessageID : String
  Time : Rat
deriving DecidableEq

/-- Store the member `key: v` into a `SendMessageResponse`. -/
def SendMessageResponse.setField (r : SendMessageResponse) (key : String) (v : JValue) :
    Option SendMessageResponse :=
  if sameName key "message_id" then
    (decodeString v r.MessageID).map (fun x => { r with MessageID := x })
  else if sameName key "time" then (decodeFloat64 v r.Time).map (fun x => { r with Time := x })
  else some r

/-- The zero `SendMessageResponse` (`var result SendMessageResponse`). -/
def SendMessageResponse.zero : SendMessageResponse := { MessageID := "", Time := 0 }

/-- Whether some key of the member list selects the field tagged `name`. -/
def JFields.selects : JFields → String → Bool
  | .nil, _ => false
  | .cons k _ rest, name => sameName k name || rest.selects name

/-! ## Errors (`errors.go`) -/

/-- The constructor `NewError`. -/
def NewError (code : Int) (message : String) : Error := { Code := code, Message := message }

/-- The predefined error `ErrNotConnected`. -/
def ErrNotConnected : Error := NewError (-1) "未连接到 OneBot 实现"

/-- The predefined error `ErrTimeout`. -/
def ErrTimeout : Error := NewError (-2) "操作超时"

/-- The predefined error `ErrInvalidResponse`. -/
def ErrInvalidResponse : Error := NewError (-3) "无效的响应"

/-- The function `IsError`: the type assertion `err.(*Error)` succeeds only on an error
that is a pointer to an `Error`; `none` is the nil error. -/
def IsError (err : Option GoError) (code : Int) : Bool :=
  match err with
  | some (.onebot e) => e.Code == code
  | _ => false

/-- The error of a result, `none` when there is none. -/
def errorOf {α : Type} (r : Except GoError α) : Option GoError :=
  match r with
  | .error e => some e
  | .ok _ => none

/-! ## Options, handshake and `SendMessage` -/

/-- The options `options.go` lets a caller build, by constructor. -/
inductive ClientOption
  | withAccessToken (token : String)
  | withSelf (platform userID : String)
  | withLogger (logger : Nat)
  | withReconnect (enabled : Bool)
  | withReconnectWait (wait : Int)
  | withHeartbeat (interval : Int)
  | withTimeout (timeout : Int)
deriving DecidableEq

/-- The function value each option constructor returns. -/
def ClientOption.apply : ClientOption → Client → Client
  | .withAccessToken token => WithAccessToken token
  | .withSelf platform userID => WithSelf platform userID
  | .withLogger logger => WithLogger logger
  | .withReconnect enabled => WithReconnect enabled
  | .withReconnectWait wait => WithReconnectWait wait
  | .withHeartbeat interval => WithHeartbeat interval
  | .withTimeout timeout => WithTimeout timeout

/-- The access token an option sets, if it is `WithAccessToken`. -/
def ClientOption.token? : ClientOption → Option String
  | .withAccessToken token => some token
  | _ => none

/-- The self an option sets, if it is `WithSelf`. -/
def ClientOption.self? : ClientOption → Option Self
  | .withSelf platform userID => some { Platform := platform, UserID := userID }
  | _ => none

/-- The logger an option sets, if it is `WithLogger`. -/
def ClientOption.logger? : ClientOption → Option Nat
  | .withLogger logger => some logger
  | _ => none

/-- The reconnect flag an option sets, if it is `WithReconnect`. -/
def ClientOption.reconnect? : ClientOption → Option Bool
  | .withReconnect enabled => some enabled
  | _ => none

/-- The reconnect wait an option sets, if it is `WithReconnectWait`. -/
def ClientOption.reconnectWait? : ClientOption → Option Int
  | .withReconnectWait wait => some wait
  | _ => none

/-- The heartbeat interval an option sets, if it is `WithHeartbeat`. -/
def ClientOption.heartbeat? : ClientOption → Option Int
  | .withHeartbeat interval => some interval
  | _ => none

/-- The timeout an option sets, if it is `WithTimeout`. -/
def ClientOption.timeout? : ClientOption → Option Int
  | .withTimeout timeout => some timeout
  | _ => none

/-- The last element of a list, or the default when the list is empty. -/
def lastOr {α : Type} (d : α) : List α → α
  | [] => d
  | x :: xs => lastOr x xs

/-- The `HTTPHeader` map `connect` builds for `websocket.Dial`: empty, with the
`Authorization` entry added when the access token is not empty. -/
def connectHeader (c : Client) : String → Option (List String) :=
  if c.accessToken ≠ "" then
    mapSet (fun _ => none) "Authorization" ["Bearer " ++ c.accessToken]
  else fun _ => none

/-- The member stored under a key of a JSON object (`none` for any other value). -/
def JValue.member (v : JValue) (key : String) : Option JValue :=
  match v with
  | .obj kvs => kvs.get key
  | _ => none

/-- The assignment `params[key] = v` on a `map[string]any`: a runtime panic on the nil
map, else the map with the entry set. -/
def mapAssign (params : Option GoFields) (key : String) (v : GoValue) : Except String GoFields :=
  match params with
  | some m => .ok (m.insert key v)
  | none => .error "assignment to entry in nil map"

/-- The method `Client.SendMessage` up to the submission of the call: the assignment
of `detail_type`, then `c.Call("send_message", params)`, whose first part is
`CallWithTimeoutSubmit`.  The error of the outer result is a runtime panic. -/
def SendMessageSubmit (c : Client) (detailType : String) (params : Option GoFields) :
    Except String (Client × Except GoError ActionCall) :=
  match mapAssign params "detail_type" (.string detailType) with
  | .error panic => .error panic
  | .ok m => .ok (CallWithTimeoutSubmit c "send_message" (some m))

/-! ## Scenarios -/

/-- A client after a successful `Connect`. -/
def connectedClient : Client := (connect (New "ws://localhost:5700" []) (.ok 1)).1

/-- A fresh client with handler 0 under the wildcard key, handler 1 under `message`
and handler 2 under `message.private`. -/
def fanOutClient : Client :=
  On (On (On (New "ws://localhost:5700" []) "*" 0) "message" 1) "message.private" 2

/-- The call allocated by the first `CallWithTimeout` on `connectedClient`. -/
def firstCall : ActionCall := { request := 0, response := some 0 }

/-- The call allocated by the second `CallWithTimeout` on `connectedClient`. -/
def secondCall : ActionCall := { request := 1, response := some 1 }

/-- State after one `CallWithTimeout` has queued its call on `connectedClient`. -/
def oneSubmitted : Client := (CallWithTimeoutSubmit connectedClient "get_status" none).1

/-- State after a second `CallWithTimeout` has queued its call. -/
def twoSubmitted : Client := (CallWithTimeoutSubmit oneSubmitted "get_version" none).1

/-- State after the writer has registered both queued calls under the tokens `t1`
and `t2` drawn for them. -/
def twoPending : Client :=
  writeLoopRegister (writeLoopRegister twoSubmitted firstCall "t1") secondCall "t2"

/-- A response carrying the given echo. -/
def okResponse (echo : String) : ActionResponse :=
  { Status := "ok", Retcode := 0, Data := .nil, Message := "", Echo := echo }

/-- Two calls whose request objects both carry the caller-supplied echo `tok`. -/
def sameTokenClient : Client :=
  { connectedClient with
    requests := heapSet (heapSet connectedClient.requests 0
      ((NewActionRequest "get_status" none).WithEcho "tok")) 1
      ((NewActionRequest "get_version" none).WithEcho "tok")
    nextObj := 2 }

/-- The caller of the first call gives up (its response timeout fires) while the
call is still waiting in `actionChan`. -/
def expiredBeforeRegister : Client := (CallWithTimeoutExpire oneSubmitted firstCall).1

/-- The writer then dequeues that call and registers it under a fresh token. -/
def registeredAfterExpire : Client :=
  match writeLoopDequeue expiredBeforeRegister with
  | some (call, c) => writeLoopRegister c call "6ba7b810-9dad-11d1-80b4-00c04fd430c8"
  | none => expiredBeforeRegister

/-- The embedded `Event` of a parsed event. -/
def AnyEvent.toEvent : AnyEvent → Event
  | .message e => e.toEvent
  | .notice e => e.toEvent
  | .meta e => e.toEvent
  | .request e => e.toEvent
  | .base e => e

/-- The private message frame of `TestEventParsing`. -/
def privateMsgFrame : Frame :=
  some (.obj (.ofList [
    ("id", .str "test-id"),
    ("self", .obj (.ofList [("platform", .str "qq"), ("user_id", .str "bot123")])),
    ("time", .num (.dec 12345678905 (-1))),
    ("type", .str "message"),
    ("detail_type", .str "private"),
    ("sub_type", .str ""),
    ("message_id", .str "msg123"),
    ("message", .arr (.ofList [.obj (.ofList [("type", .str "text"),
      ("data", .obj (.ofList [("text", .str "Hello")]))])])),
    ("alt_message", .str "Hello"),
    ("user_id", .str "user456")]))

/-- The group message frame of `TestEventParsing`. -/
def groupMsgFrame : Frame :=
  some (.obj (.ofList [
    ("id", .str "test-id2"),
    ("self", .obj (.ofList [("platform", .str "qq"), ("user_id", .str "bot123")])),
    ("time", .num (.dec 12345678905 (-1))),
    ("type", .str "message"),
    ("detail_type", .str "group"),
    ("sub_type", .str ""),
    ("message_id", .str "msg456"),
    ("message", .arr (.ofList [.obj (.ofList [("type", .str "text"),
      ("data", .obj (.ofList [("text", .str "World")]))])])),
    ("alt_message", .str "World"),
    ("user_id", .str "user789"),
    ("group_id", .str "group123")]))

/-- The base `Event` both test frames share, up to id and detail type. -/
def testBase (id detail : String) : Event :=
  { ID := id, Self := some { Platform := "qq", UserID := "bot123" },
    Time := mkRat 12345678905 10, Type_ := "message", DetailType := detail,
    SubType := "" }

/-- A notice frame whose `user_id` is a JSON number. -/
def numericUserNotice : Frame :=
  some (.obj (.ofList [
    ("id", .str "n1"),
    ("time", .num (.int 1700000000)),
    ("type", .str "notice"),
    ("detail_type", .str "friend_increase"),
    ("user_id", .num (.int 10001))]))

/-- A well-formed response frame without an echo. -/
def echolessResponse : Frame :=
  some (.obj (.ofList [
    ("status", .str "ok"),
    ("retcode", .num (.int 0)),
    ("data", .null),
    ("message", .str "")]))

/-- A frame that is valid JSON but neither a response nor an event: an array. -/
def arrayFrame : Frame := some (.arr (.ofList [.num (.int 1), .num (.int 2)]))

/-- A request with parameters, an echo and a self, as `TestActionRequest` builds it. -/
def testRequest : ActionRequest :=
  ((NewActionRequest "send_message"
      (some (.cons "message" (.string "test") (.cons "user_id" (.string "123") .nil)))).WithEcho
    "echo123").WithSelf (some { Platform := "qq", UserID := "bot123" })

/-- State after the writer has dequeued the first queued call. -/
def firstDequeued : Client :=
  match writeLoopDequeue oneSubmitted with
  | some (_, c) => c
  | none => oneSubmitted

/-- The reader of `connectedClient` has returned on a read failure. -/
def readerGone : Client := readLoopExit connectedClient

/-- The reconnect goroutine started by `handleDisconnect` then connects at its first
attempt. -/
def reconnected : Client := (reconnectPass readerGone (.ok 2)).1

/-- A notice frame with detail type `friend_increase`. -/
def friendIncreaseNotice : Frame :=
  some (.obj (.ofList [
    ("id", .str "n2"),
    ("time", .num (.int 1700000000)),
    ("type", .str "notice"),
    ("detail_type", .str "friend_increase"),
    ("user_id", .str "10001")]))

/-- The event `ParseEvent` returns for `friendIncreaseNotice`. -/
def friendIncreaseEvent : AnyEvent :=
  .notice { toEvent := { ID := "n2", Self := none, Time := 1700000000, Type_ := "notice",
                         DetailType := "friend_increase", SubType := "" },
            UserID := "10001", GroupID := "", OperatorID := "" }

/-- The response of `TestActionResponse`: the data is the map the test builds, with
the string "msg123" and the `float64` 1234567890.5. -/
def testResponse : ActionResponse :=
  { Status := "ok", Retcode := 0,
    Data := .mapAny (.cons "message_id" (.string "msg123")
      (.cons "time" (.float64 (mkRat 12345678905 10)) .nil)),
    Message := "", Echo := "echo123" }

/-- A response whose data also has an entry `MESSAGE_ID` holding an `int`. -/
def foldedKeyResponse : ActionResponse :=
  { testResponse with
    Data := .mapAny (.cons "MESSAGE_ID" (.int 5) (.cons "message_id" (.string "msg123")
      (.cons "time" (.float64 (mkRat 12345678905 10)) .nil))) }

/-- A response whose data also has an entry holding a channel. -/
def channelResponse : ActionResponse :=
  { testResponse with
    Data := .mapAny (.cons "done" (.unsupported "chan bool") (.cons "message_id"
      (.string "msg123") (.cons "time" (.float64 (mkRat 12345678905 10)) .nil))) }

/-- The decoder of `json.Unmarshal(data, &result)` for a zero `SendMessageResponse`. -/
def decodeSendMessageResponse : Frame → Option SendMessageResponse :=
  Unmarshal SendMessageResponse.setField SendMessageResponse.zero

/-- The client of `TestNewClient`. -/
def testClient : Client :=
  New "ws://localhost:5700" [WithAccessToken "test-token", WithTimeout (5 * Second)]

/-- A fresh client with handler 0 registered under the wildcard key. -/
def wildcardClient : Client := On (New "ws://localhost:5700" []) "*" 0

/-- An extension event frame whose type field is `*`. -/
def starFrame : Frame :=
  some (.obj (.ofList [("id", .str "x1"), ("type", .str "*")]))

/-- The base event `ParseEvent` returns for `starFrame`. -/
def starEvent : AnyEvent :=
  .base { ID := "x1", Self := none, Time := 0, Type_ := "*", DetailType := "", SubType := "" }

/-- A connected client whose send queue holds 100 calls. -/
def fullQueueClient : Client :=
  { connectedClient with actionChan := List.replicate 100 firstCall }

/-- A response frame carrying the given echo. -/
def responseFrame (echo : String) : Frame :=
  some (.obj (.ofList [
    ("status", .str "ok"),
    ("retcode", .num (.int 0)),
    ("data", .null),
    ("message", .str ""),
    ("echo", .str echo)]))

/-- The token the writer draws for the call in the scenario `droppedResponseClient`. -/
def lateToken : String := "6ba7b810-9dad-11d1-80b4-00c04fd430c8"

/-- The caller of the first call has given up before the writer dequeued the call
(`registeredAfterExpire`); the writer then fails to write the frame and puts the
synthesized failure response into the channel of the call, which nobody reads. -/
def droppedResponseClient : Client :=
  match writeLoopDequeue expiredBeforeRegister with
  | some (call, c) =>
    (match writeLoopCall c call lateToken (some "broken pipe") with
     | some r => r.1
     | none => c)
  | none => expiredBeforeRegister

/-- State after a call whose parameters hold a function value has been queued on
`connectedClient` and dequeued by the writer. -/
def funcParamDequeued : Client :=
  match writeLoopDequeue (CallWithTimeoutSubmit connectedClient "send_message"
      (some (.cons "callback" (.unsupported "func()") .nil))).1 with
  | some (_, c) => c
  | none => connectedClient

/-- A request whose parameter `id` is the `int64` 9007199254740993 (`2^53 + 1`). -/
def bigIntRequest : ActionRequest :=
  NewActionRequest "get_user_info" (some (.cons "id" (.int 9007199254740993) .nil))

/-- A request whose parameters are decoded JSON data of every kind: a `float64`, a
`[]any` and a nested `map[string]any`. -/
def nestedRequest : ActionRequest :=
  (NewActionRequest "set_profile" (some (.cons "flags" (.sliceAny (.cons (.bool true)
      (.cons .nil (.cons (.float64 3) .nil))))
    (.cons "profile" (.mapAny (.cons "age" (.float64 (mkRat 61 2))
      (.cons "name" (.string "bot") .nil)))
    (.cons "time" (.float64 (mkRat 12345678905 10)) .nil))))).WithEcho "e1"

/-- A request whose parameter `message` is the `Message` `[Text("hi")]`, as
`SendPrivateMessage` builds its parameters. -/
def messageRequest : ActionRequest :=
  NewActionRequest "send_message" (some (.cons "message"
    (.other (.arr (.cons (.obj (.cons "type" (.str "text")
      (.cons "data" (.obj (.cons "text" (.str "hi") .nil)) .nil))) .nil))) .nil))

/-- The message `[Mention("1")]`, as the content a receiver already holds. -/
def oldMessage : Message := [Mention "1"]

/-- The JSON array `[{"type":"text","data":{"text":"hi"}}]`, the encoding of the
message `[Text("hi")]`. -/
def helloArray : JValue :=
  .arr (.cons (.obj (.cons "type" (.str "text")
    (.cons "data" (.obj (.cons "text" (.str "hi") .nil)) .nil))) .nil)

/-- A private message frame in which the member `message` occurs twice: first with
the encoding of `[Mention("1")]`, then with the encoding of `[Text("hi")]`. -/
def twiceMessageFrame : Frame :=
  some (.obj (.ofList [
    ("id", .str "m1"),
    ("type", .str "message"),
    ("detail_type", .str "private"),
    ("message", .arr (.ofList [.obj (.ofList [("type", .str "mention"),
      ("data", .obj (.ofList [("user_id", .str "1")]))])])),
    ("message", helloArray)]))

/-! ## Map and heap lemmas -/

theorem mapSet_same {β : Type} (m : String → Option β) (k : String) (v : β) :
    mapSet m k v k = some v := by
  simp [mapSet]

theorem mapSet_other {β : Type} (m : String → Option β) (k x : String) (v : β) (h : x ≠ k) :
    mapSet m k v x = m x := by
  simp [mapSet, h]

theorem mapDelete_same {β : Type} (m : String → Option β) (k : String) :
    mapDelete m k k = none := by
  simp [mapDelete]

theorem mapDelete_other {β : Type} (m : String → Option β) (k x : String) (h : x ≠ k) :
    mapDelete m k x = m x := by
  simp [mapDelete, h]

theorem heapSet_same {β : Type} (h : Nat → β) (i : Nat) (v : β) : heapSet h i v i = v := by
  simp [heapSet]

theorem heapSet_other {β : Type} (h : Nat → β) (i x : Nat) (v : β) (hx : x ≠ i) :
    heapSet h i v x = h x := by
  simp [heapSet, hx]

/-! ## Response correlation -/

/-- The table after `handleActionResponse`: the echo of the response is absent, every
other key is as before. -/
theorem handleActionResponse_responseChan (c : Client) (r : ActionResponse) (k : String) :
    (handleActionResponse c r).responseChan k =
      if k = r.Echo then none else c.responseChan k := by
  unfold handleActionResponse
  cases h : c.responseChan r.Echo with
  | none =>
    by_cases hk : k = r.Echo
    · simp [hk, h]
    · simp [hk]
  | some ch =>
    cases ch <;> simp [mapDelete]

/-- The channels after `handleActionResponse`: only the channel stored under the echo
of the response is sent to. -/
theorem handleActionResponse_chans (c : Client) (r : ActionResponse) (j : Nat) :
    (handleActionResponse c r).chans j =
      if c.responseChan r.Echo = some (some j) then timedSend (c.chans j) r else c.chans j := by
  unfold handleActionResponse
  cases h : c.responseChan r.Echo with
  | none => simp
  | some ch =>
    cases ch with
    | none => simp
    | some i =>
      by_cases hj : j = i
      · subst hj
        simp [heapSet]
      · have hij : ¬ i = j := fun e => hj e.symm
        simp [heapSet, hj, hij]

/-- C1 (the code at the failing input): with handler 0 under the wildcard key,
handler 1 under "message" and handler 2 under "message.private", the private message
frame of `TestEventParsing` is parsed as a message event and `handleEvent` starts
handlers 0 and 2 only; handler 1, registered under the coarse type "message", is not
invoked. -/
theorem handleEvent_private_message_skips_coarse_key :
    ∃ e, ParseEvent privateMsgFrame = some (.message e) ∧
      e.toEvent.Type_ = "message" ∧ e.toEvent.DetailType = "private" ∧
      eventTypeOf (.message e) = "message.private" ∧
      handleEvent fanOutClient (.message e) = [(0, .message e), (2, .message e)] ∧
      (readLoopStep fanOutClient privateMsgFrame).2 = [(0, .message e), (2, .message e)] ∧
      (1, AnyEvent.message e) ∉ handleEvent fanOutClient (.message e) :=
  ⟨_, rfl, by decide, by decide, by decide, by decide, by decide, by decide⟩

/-- C2 (counterexample): the caller of the first call gave up before the writer
dequeued the call; the writer registered the call under `lateToken`, its write failed
and it put the synthesized failure response into the channel of the call.  The token
is pending and nobody reads the channel.  `handleActionResponse` on the response
frame carrying that echo removes the token, and the channel holds the failure
response as before: the response is not delivered to the channel registered under its
echo. -/
theorem handleActionResponse_full_channel_drops :
    droppedResponseClient.responseChan lateToken = some (some 0) ∧
      droppedResponseClient.chans 0 = [writeFailure "broken pipe"] ∧
      readLoopRoute (responseFrame lateToken) = .response (okResponse lateToken) ∧
      (handleActionResponse droppedResponseClient (okResponse lateToken)).responseChan lateToken =
        none ∧
      (handleActionResponse droppedResponseClient (okResponse lateToken)).chans 0 =
        [writeFailure "broken pipe"] ∧
      okResponse lateToken ∉
        (handleActionResponse droppedResponseClient (okResponse lateToken)).chans 0 := by
  decide

/-- C2 (amended): when the echo of a response is stored in the correlation table with
the channel `ch`, `handleActionResponse` removes exactly that key and touches no
channel but `ch`; when `ch` is the channel `i`, the response is delivered to it if its
single slot is free, and is dropped, the channel keeping what it holds, if the slot
is occupied; the nil channel receives nothing. -/
theorem handleActionResponse_pending (c : Client) (response : ActionResponse) (ch : ChanRef)
    (h : c.responseChan response.Echo = some ch) :
    (handleActionResponse c response).responseChan response.Echo = none ∧
      (∀ k, k ≠ response.Echo →
        (handleActionResponse c response).responseChan k = c.responseChan k) ∧
      (∀ j, ch ≠ some j → (handleActionResponse c response).chans j = c.chans j) ∧
      (∀ i, ch = some i → c.chans i = [] →
        (handleActionResponse c response).chans i = [response]) ∧
      (∀ i, ch = some i → c.chans i ≠ [] →
        (handleActionResponse c response).chans i = c.chans i) := by
  refine ⟨?_, ?_, ?_, ?_, ?_⟩
  · simp [handleActionResponse_responseChan]
  · intro k hk
    simp [handleActionResponse_responseChan, hk]
  · intro j hj
    have hne : ¬ some ch = some (some j) := fun e => hj (Option.some.inj e)
    simp [handleActionResponse_chans, h, hne]
  · intro i hi hfree
    simp [handleActionResponse_chans, h, hi, hfree, timedSend]
  · intro i hi hfull
    cases hb : c.chans i with
    | nil => exact absurd hb hfull
    | cons r rest => simp [handleActionResponse_chans, h, hi, hb, timedSend]

/-- C2 (witness): with two calls pending under `t1` and `t2` and waiting, the response
for `t2` reaches the channel of the second call and no other; with the channel of the
first call occupied, the response for `lateToken` leaves that channel as it is. -/
theorem handleActionResponse_pending_witness :
    (handleActionResponse twoPending (okResponse "t2")).responseChan "t2" = none ∧
      (handleActionResponse twoPending (okResponse "t2")).responseChan "t1" = some (some 0) ∧
      (handleActionResponse twoPending (okResponse "t2")).chans 0 = [] ∧
      (handleActionResponse twoPending (okResponse "t2")).chans 1 = [okResponse "t2"] ∧
      (handleActionResponse droppedResponseClient (okResponse lateToken)).chans 0 =
        droppedResponseClient.chans 0 :=
  have h := handleActionResponse_pending twoPending (okResponse "t2") (some 1) (by decide)
  have h2 := handleActionResponse_pending droppedResponseClient (okResponse lateToken) (some 0)
    (by decide)
  ⟨h.1, (h.2.1 "t1" (by decide)).trans (by decide), (h.2.2.1 0 (by decide)).trans (by decide),
    h.2.2.2.1 1 rfl (by decide), h2.2.2.2.2 0 rfl (by decide)⟩

/-- C3: a response whose echo is not in the correlation table changes nothing (no
delivery, table unchanged), and handling the same response a second time changes
nothing more. -/
theorem handleActionResponse_not_pending (c : Client) (response : ActionResponse) :
    (c.responseChan response.Echo = none → handleActionResponse c response = c) ∧
      handleActionResponse (handleActionResponse c response) response =
        handleActionResponse c response := by
  have hnone : ∀ d : Client, d.responseChan response.Echo = none →
      handleActionResponse d response = d := by
    intro d hd
    simp [handleActionResponse, hd]
  refine ⟨hnone c, hnone _ ?_⟩
  simp [handleActionResponse_responseChan]

/-- C3 (witness): a response with the unknown echo `t3` leaves the state with `t1`
and `t2` pending as it is. -/
theorem handleActionResponse_not_pending_witness :
    twoPending.responseChan "t3" = none ∧
      handleActionResponse twoPending (okResponse "t3") = twoPending :=
  ⟨by decide, (handleActionResponse_not_pending twoPending (okResponse "t3")).1 (by decide)⟩

/-- The correlation table after a run of `handleActionResponse` over `rs`. -/
theorem foldl_handleActionResponse_responseChan (rs : List ActionResponse) (c : Client)
    (k : String) :
    (rs.foldl handleActionResponse c).responseChan k =
      if k ∈ rs.map (fun r => r.Echo) then none else c.responseChan k := by
  induction rs generalizing c with
  | nil => simp
  | cons r rs ih =>
    simp only [List.foldl_cons, ih, handleActionResponse_responseChan, List.map_cons,
      List.mem_cons]
    by_cases h1 : k ∈ rs.map (fun r => r.Echo)
    · simp [h1]
    · by_cases h2 : k = r.Echo
      · simp [h2]
      · simp [h1, h2]

/-- The channels after a run of `handleActionResponse` over responses with pairwise
distinct echoes, when distinct keys of the table hold distinct channels and the
channels awaited are empty: each awaited channel holds exactly the response carrying
its key, every other channel is unchanged. -/
theorem foldl_handleActionResponse_chans (rs : List ActionResponse) :
    ∀ c : Client,
      (rs.map (fun r => r.Echo)).Nodup →
      (∀ k1 k2 i, c.responseChan k1 = some (some i) → c.responseChan k2 = some (some i) →
        k1 = k2) →
      (∀ r ∈ rs, ∀ i, c.responseChan r.Echo = some (some i) → c.chans i = []) →
      (∀ r ∈ rs, ∀ i, c.responseChan r.Echo = some (some i) →
        (rs.foldl handleActionResponse c).chans i = [r]) ∧
      (∀ i, (∀ r ∈ rs, c.responseChan r.Echo ≠ some (some i)) →
        (rs.foldl handleActionResponse c).chans i = c.chans i) := by
  induction rs with
  | nil =>
    intro c _ _ _
    exact ⟨fun r hr => absurd hr (List.not_mem_nil r), fun i _ => rfl⟩
  | cons r rs ih =>
    intro c hnd hinj hfree
    have hnd2 : r.Echo ∉ rs.map (fun r => r.Echo) ∧ (rs.map (fun r => r.Echo)).Nodup := by
      simpa [List.nodup_cons] using hnd
    -- keys of later responses are untouched by the first step
    have hkeep : ∀ q ∈ rs, (handleActionResponse c r).responseChan q.Echo =
        c.responseChan q.Echo := by
      intro q hq
      have hne : q.Echo ≠ r.Echo := by
        intro e
        exact hnd2.1 (e ▸ List.mem_map_of_mem (fun r => r.Echo) hq)
      simp [handleActionResponse_responseChan, hne]
    -- a later response never shares its channel with the first one
    have hsep : ∀ q ∈ rs, ∀ i, c.responseChan q.Echo = some (some i) →
        c.responseChan r.Echo ≠ some (some i) := by
      intro q hq i hqi hri
      have e : q.Echo = r.Echo := hinj _ _ i hqi hri
      exact hnd2.1 (e ▸ List.mem_map_of_mem (fun r => r.Echo) hq)
    have hinj1 : ∀ k1 k2 i, (handleActionResponse c r).responseChan k1 = some (some i) →
        (handleActionResponse c r).responseChan k2 = some (some i) → k1 = k2 := by
      intro k1 k2 i h1 h2
      rw [handleActionResponse_responseChan] at h1 h2
      by_cases e1 : k1 = r.Echo
      · simp [e1] at h1
      · by_cases e2 : k2 = r.Echo
        · simp [e2] at h2
        · simp only [e1, e2, if_false] at h1 h2
          exact hinj _ _ i h1 h2
    have hfree1 : ∀ q ∈ rs, ∀ i, (handleActionResponse c r).responseChan q.Echo = some (some i) →
        (handleActionResponse c r).chans i = [] := by
      intro q hq i hqi
      rw [hkeep q hq] at hqi
      rw [handleActionResponse_chans, if_neg (hsep q hq i hqi)]
      exact hfree q (List.mem_cons_of_mem _ hq) i hqi
    obtain ⟨ihB, ihC⟩ := ih (handleActionResponse c r) hnd2.2 hinj1 hfree1
    refine ⟨?_, ?_⟩
    · intro q hq i hqi
      rw [List.foldl_cons]
      rcases List.mem_cons.mp hq with e | hq2
      · subst e
        have hrest : ∀ p ∈ rs, (handleActionResponse c q).responseChan p.Echo ≠ some (some i) := by
          intro p hp hpi
          rw [hkeep p hp] at hpi
          exact hsep p hp i hpi hqi
        rw [ihC i hrest, handleActionResponse_chans, if_pos hqi,
          hfree q (List.mem_cons_self _ _) i hqi]
        simp [timedSend]
      · exact ihB q hq2 i (by rw [hkeep q hq2]; exact hqi)
    · intro i hi
      rw [List.foldl_cons]
      have hrest : ∀ p ∈ rs, (handleActionResponse c r).responseChan p.Echo ≠ some (some i) := by
        intro p hp hpi
        rw [hkeep p hp] at hpi
        exact hi p (List.mem_cons_of_mem _ hp) hpi
      rw [ihC i hrest, handleActionResponse_chans, if_neg (hi r (List.mem_cons_self _ _))]

/-- C4: when the calls in `pending` (token, channel) are registered under pairwise
distinct tokens with pairwise distinct, empty channels and nothing else is pending,
then after `handleActionResponse` has processed, in any order, responses whose echoes
are exactly those tokens, the channel of every call holds exactly one response, the
one carrying the token of that call, and the correlation table is empty. -/
theorem responses_in_any_order (c : Client) (pending : List (String × Nat))
    (rs : List ActionResponse)
    (htok : (pending.map Prod.fst).Nodup)
    (hch : (pending.map Prod.snd).Nodup)
    (hreg : ∀ p ∈ pending, c.responseChan p.1 = some (some p.2) ∧ c.chans p.2 = [])
    (honly : ∀ k, k ∉ pending.map Prod.fst → c.responseChan k = none)
    (hperm : (rs.map (fun r => r.Echo)).Perm (pending.map Prod.fst)) :
    (∀ p ∈ pending, ∃ r ∈ rs, r.Echo = p.1 ∧
        (rs.foldl handleActionResponse c).chans p.2 = [r]) ∧
      (∀ k, (rs.foldl handleActionResponse c).responseChan k = none) := by
  have hnd : (rs.map (fun r => r.Echo)).Nodup := hperm.nodup_iff.mpr htok
  -- every stored channel belongs to one of the pending calls
  have hown : ∀ k i, c.responseChan k = some (some i) → (k, i) ∈ pending := by
    intro k i hk
    by_cases hmem : k ∈ pending.map Prod.fst
    · obtain ⟨p, hp, hpk⟩ := List.mem_map.mp hmem
      have h1 := (hreg p hp).1
      rw [hpk, hk] at h1
      have e : i = p.2 := by simpa using h1
      have : p = (k, i) := by
        cases p
        simp_all
      exact this ▸ hp
    · rw [honly k hmem] at hk
      cases hk
  have hinj : ∀ k1 k2 i, c.responseChan k1 = some (some i) → c.responseChan k2 = some (some i) →
      k1 = k2 := by
    intro k1 k2 i h1 h2
    have e := List.inj_on_of_nodup_map hch (hown k1 i h1) (hown k2 i h2) rfl
    exact congrArg Prod.fst e
  have hfree : ∀ r ∈ rs, ∀ i, c.responseChan r.Echo = some (some i) → c.chans i = [] := by
    intro r _ i hi
    exact (hreg (r.Echo, i) (hown _ _ hi)).2
  obtain ⟨hB, _⟩ := foldl_handleActionResponse_chans rs c hnd hinj hfree
  refine ⟨?_, ?_⟩
  · intro p hp
    have hmem : p.1 ∈ rs.map (fun r => r.Echo) :=
      hperm.mem_iff.mpr (List.mem_map_of_mem Prod.fst hp)
    obtain ⟨r, hr, hre⟩ := List.mem_map.mp hmem
    refine ⟨r, hr, hre, hB r hr p.2 ?_⟩
    have hre2 : r.Echo = p.1 := hre
    rw [hre2]
    exact (hreg p hp).1
  · intro k
    rw [foldl_handleActionResponse_responseChan]
    by_cases hk : k ∈ rs.map (fun r => r.Echo)
    · simp [hk]
    · rw [if_neg hk]
      exact honly k (fun hmem => hk (hperm.mem_iff.mpr hmem))

/-- C4 (witness): two calls registered under `t1` and `t2`, answered in the reverse
of the submission order. -/
theorem responses_in_any_order_witness :
    (∀ p ∈ [("t1", 0), ("t2", 1)], ∃ r ∈ [okResponse "t2", okResponse "t1"], r.Echo = p.1 ∧
        ([okResponse "t2", okResponse "t1"].foldl handleActionResponse twoPending).chans p.2
          = [r]) ∧
      (∀ k, ([okResponse "t2", okResponse "t1"].foldl handleActionResponse
        twoPending).responseChan k = none) :=
  responses_in_any_order twoPending [("t1", 0), ("t2", 1)] [okResponse "t2", okResponse "t1"]
    (by decide) (by decide) (by decide)
    (by
      intro k hk
      have h1 : k ≠ "t1" := fun e => hk (by simp [e])
      have h2 : k ≠ "t2" := fun e => hk (by simp [e])
      simp [twoPending, writeLoopRegister, mapSet, twoSubmitted, oneSubmitted,
        CallWithTimeoutSubmit, connectedClient, connect, New, IsConnected, heapSet,
        NewActionRequest, firstCall, secondCall, h1, h2])
    (by decide)

/-- C5 (counterexample): with `tok` already pending for the first call, the writer
registers a second call carrying the same token without any failure, and the waiter
of the first call is replaced by the channel of the second. -/
theorem writeLoopRegister_duplicate_token_replaces :
    (writeLoopRegister sameTokenClient firstCall "u1").responseChan "tok" = some (some 0) ∧
      (writeLoopRegister (writeLoopRegister sameTokenClient firstCall "u1") secondCall
        "u2").responseChan "tok" = some (some 1) ∧
      ((writeLoopRegister (writeLoopRegister sameTokenClient firstCall "u1") secondCall
        "u2").requests 1).Echo = "tok" := by
  decide

/-- C5 (amended): registration by the writer never fails and has no duplicate check:
the token of the call (its own echo if non-empty, else the generated one) is mapped to
the channel of that call, whatever was stored under it before, and every other token
keeps its waiter; the table, being a map, holds one waiter per token, the last one
registered. -/
theorem writeLoopRegister_overwrites (c : Client) (call : ActionCall) (uuid : String) :
    ((writeLoopRegister c call uuid).requests call.request).Echo =
        (if (c.requests call.request).Echo = "" then uuid
         else (c.requests call.request).Echo) ∧
      (writeLoopRegister c call uuid).responseChan
        ((writeLoopRegister c call uuid).requests call.request).Echo = some call.response ∧
      (∀ k, k ≠ ((writeLoopRegister c call uuid).requests call.request).Echo →
        (writeLoopRegister c call uuid).responseChan k = c.responseChan k) := by
  have he : ((writeLoopRegister c call uuid).requests call.request).Echo =
      (if (c.requests call.request).Echo = "" then uuid
       else (c.requests call.request).Echo) := by
    by_cases h : (c.requests call.request).Echo = "" <;> simp [writeLoopRegister, heapSet, h]
  refine ⟨he, ?_, ?_⟩
  · rw [he]
    by_cases h : (c.requests call.request).Echo = "" <;> simp [writeLoopRegister, mapSet, h]
  · intro k hk
    rw [he] at hk
    by_cases h : (c.requests call.request).Echo = ""
    · simp only [h, if_true] at hk
      simp [writeLoopRegister, mapSet, h, hk]
    · simp only [h, if_false] at hk
      simp [writeLoopRegister, mapSet, h, hk]

/-- C6 (the code at the failing input): a call is queued, the caller's response
timeout fires while the call is still in `actionChan` (its request carries no echo
yet, so the cleanup deletes the key ""), `CallWithTimeout` returns the timeout error,
and the writer then dequeues the call and registers it: the token of the call is in
the correlation table after the call has returned. -/
theorem CallWithTimeout_expire_before_register_leaks :
    (CallWithTimeoutSubmit connectedClient "get_status" none).2 = .ok firstCall ∧
      (oneSubmitted.requests firstCall.request).Echo = "" ∧
      (CallWithTimeoutExpire oneSubmitted firstCall).2 = GoError.errorf "等待动作响应超时" ∧
      (writeLoopDequeue expiredBeforeRegister).map Prod.fst = some firstCall ∧
      (registeredAfterExpire.requests firstCall.request).Echo =
        "6ba7b810-9dad-11d1-80b4-00c04fd430c8" ∧
      registeredAfterExpire.responseChan "6ba7b810-9dad-11d1-80b4-00c04fd430c8" =
        some firstCall.response :=
  ⟨rfl, by decide, by decide, by decide, by decide, by decide⟩

/-- C10: `CallWithTimeout` on a client that is not connected returns the not-connected
error at once; nothing is allocated, queued or registered, the state is unchanged. -/
theorem CallWithTimeout_not_connected (c : Client) (action : String) (params : Option GoFields)
    (h : IsConnected c = false) :
    CallWithTimeoutSubmit c action params = (c, .error (.errorf "未连接到 OneBot 实现")) := by
  simp [CallWithTimeoutSubmit, h]

/-- C10 (witness): a fresh client has never connected, and a client whose `readLoop`
has returned on a read failure is marked not connected; the call fails at once on the
latter. -/
theorem CallWithTimeout_not_connected_witness :
    IsConnected (New "ws://localhost:5700" []) = false ∧
      IsConnected (readLoopExit connectedClient) = false ∧
      CallWithTimeoutSubmit (readLoopExit connectedClient) "get_status" none =
        (readLoopExit connectedClient, .error (.errorf "未连接到 OneBot 实现")) :=
  ⟨by decide, by decide,
    CallWithTimeout_not_connected (readLoopExit connectedClient) "get_status" none (by decide)⟩

/-! ## Frame classification and event parsing -/

/-- A member whose key does not select `echo` leaves the echo of the response as it is. -/
theorem ActionResponse_setField_echo (r r1 : ActionResponse) (key : String) (v : JValue)
    (hk : sameName key "echo" = false) (h : ActionResponse.setField r key v = some r1) :
    r1.Echo = r.Echo := by
  unfold ActionResponse.setField at h
  simp only [hk, Bool.false_eq_true, if_false] at h
  split_ifs at h <;> simp only [Option.map_eq_some', Option.some.injEq] at h
  all_goals (obtain ⟨x, _, rfl⟩ := h; rfl)

/-- An object none of whose keys selects `echo` decodes to a response with the echo
it started from. -/
theorem decodeFields_ActionResponse_echo :
    ∀ (kvs : JFields) (r r1 : ActionResponse), (∀ k ∈ kvs.keys, sameName k "echo" = false) →
      decodeFields ActionResponse.setField kvs r = some r1 → r1.Echo = r.Echo
  | .nil, r, r1, _, h => by
    simp only [decodeFields, Option.some.injEq] at h
    rw [h]
  | .cons k v rest, r, r1, hkeys, h => by
    simp only [decodeFields] at h
    cases hs : ActionResponse.setField r k v with
    | none => simp [hs] at h
    | some next =>
      simp only [hs] at h
      have h1 := ActionResponse_setField_echo r next k v (hkeys k (by simp [JFields.keys])) hs
      have h2 := decodeFields_ActionResponse_echo rest next r1
        (fun k2 hk2 => hkeys k2 (by simp [JFields.keys, hk2])) h
      rw [h2, h1]

/-- A key that selects no field of `Event` leaves the event as it is. -/
theorem Event_setField_of_not_hasField (e : Event) (key : String) (v : JValue)
    (h : Event.hasField key = false) : Event.setField e key v = some e := by
  simp only [Event.hasField, Bool.or_eq_false_iff] at h
  simp [Event.setField, h.1.1.1.1.1, h.1.1.1.1.2, h.1.1.1.2, h.1.1.2, h.1.2, h.2]

/-- Decoding an object into a struct that embeds `Event` stores into the embedded
event what decoding the object into a plain `Event` stores. -/
theorem decodeFields_toEvent {σ : Type} (setField : σ → String → JValue → Option σ)
    (proj : σ → Event)
    (hstep : ∀ s k v s1, setField s k v = some s1 →
      Event.setField (proj s) k v = some (proj s1)) :
    ∀ (kvs : JFields) (s s1 : σ), decodeFields setField kvs s = some s1 →
      decodeFields Event.setField kvs (proj s) = some (proj s1)
  | .nil, s, s1, h => by
    simp only [decodeFields, Option.some.injEq] at h
    simp [decodeFields, h]
  | .cons k v rest, s, s1, h => by
    simp only [decodeFields] at h
    cases hs : setField s k v with
    | none => simp [hs] at h
    | some next =>
      simp only [hs] at h
      simp only [decodeFields, hstep s k v next hs]
      exact decodeFields_toEvent setField proj hstep rest next s1 h

/-- The frame-level form of `decodeFields_toEvent`. -/
theorem Unmarshal_toEvent {σ : Type} (setField : σ → String → JValue → Option σ)
    (proj : σ → Event) (zero : σ) (hzero : proj zero = Event.zero)
    (hstep : ∀ s k v s1, setField s k v = some s1 →
      Event.setField (proj s) k v = some (proj s1))
    (data : Frame) (s1 : σ) (h : Unmarshal setField zero data = some s1) :
    Unmarshal Event.setField Event.zero data = some (proj s1) := by
  cases data with
  | none => simp [Unmarshal] at h
  | some v =>
    cases v with
    | obj kvs =>
      simp only [Unmarshal, decodeStruct] at h ⊢
      rw [← hzero]
      exact decodeFields_toEvent setField proj hstep kvs zero s1 h
    | null =>
      simp only [Unmarshal, decodeStruct, Option.some.injEq] at h ⊢
      rw [← h, hzero]
    | bool b => simp [Unmarshal, decodeStruct] at h
    | num n => simp [Unmarshal, decodeStruct] at h
    | str x => simp [Unmarshal, decodeStruct] at h
    | arr xs => simp [Unmarshal, decodeStruct] at h

theorem MessageEvent_setField_toEvent (s : MessageEvent) (k : String) (v : JValue)
    (s1 : MessageEvent) (h : MessageEvent.setField s k v = some s1) :
    Event.setField s.toEvent k v = some s1.toEvent := by
  unfold MessageEvent.setField at h
  by_cases hf : Event.hasField k = true
  · simp only [hf, if_true, Option.map_eq_some'] at h
    obtain ⟨x, hx, rfl⟩ := h
    exact hx
  · have hf2 : Event.hasField k = false := by simpa using hf
    rw [Event_setField_of_not_hasField _ _ _ hf2]
    simp only [hf2, Bool.false_eq_true, if_false] at h
    split_ifs at h <;> simp only [Option.map_eq_some', Option.some.injEq] at h
    all_goals (obtain ⟨x, _, rfl⟩ := h; rfl)

theorem NoticeEvent_setField_toEvent (s : NoticeEvent) (k : String) (v : JValue)
    (s1 : NoticeEvent) (h : NoticeEvent.setField s k v = some s1) :
    Event.setField s.toEvent k v = some s1.toEvent := by
  unfold NoticeEvent.setField at h
  by_cases hf : Event.hasField k = true
  · simp only [hf, if_true, Option.map_eq_some'] at h
    obtain ⟨x, hx, rfl⟩ := h
    exact hx
  · have hf2 : Event.hasField k = false := by simpa using hf
    rw [Event_setField_of_not_hasField _ _ _ hf2]
    simp only [hf2, Bool.false_eq_true, if_false] at h
    split_ifs at h <;> simp only [Option.map_eq_some', Option.some.injEq] at h
    all_goals (obtain ⟨x, _, rfl⟩ := h; rfl)

theorem MetaEvent_setField_toEvent (s : MetaEvent) (k : String) (v : JValue)
    (s1 : MetaEvent) (h : MetaEvent.setField s k v = some s1) :
    Event.setField s.toEvent k v = some s1.toEvent := by
  unfold MetaEvent.setField at h
  by_cases hf : Event.hasField k = true
  · simp only [hf, if_true, Option.map_eq_some'] at h
    obtain ⟨x, hx, rfl⟩ := h
    exact hx
  · have hf2 : Event.hasField k = false := by simpa using hf
    rw [Event_setField_of_not_hasField _ _ _ hf2]
    simp only [hf2, Bool.false_eq_true, if_false] at h
    split_ifs at h <;> simp only [Option.map_eq_some', Option.some.injEq] at h
    all_goals (obtain ⟨x, _, rfl⟩ := h; rfl)

theorem RequestEvent_setField_toEvent (s : RequestEvent) (k : String) (v : JValue)
    (s1 : RequestEvent) (h : RequestEvent.setField s k v = some s1) :
    Event.setField s.toEvent k v = some s1.toEvent := by
  unfold RequestEvent.setField at h
  by_cases hf : Event.hasField k = true
  · simp only [hf, if_true, Option.map_eq_some'] at h
    obtain ⟨x, hx, rfl⟩ := h
    exact hx
  · have hf2 : Event.hasField k = false := by simpa using hf
    rw [Event_setField_of_not_hasField _ _ _ hf2]
    simp only [hf2, Bool.false_eq_true, if_false] at h
    split_ifs at h <;> simp only [Option.map_eq_some', Option.some.injEq] at h
    all_goals (obtain ⟨x, _, rfl⟩ := h; rfl)

/-- C7: the body of `readLoop` takes the response branch exactly when the frame
decodes as an `ActionResponse` whose echo is non-empty; every other frame goes to
`ParseEvent` (and to `handleEvent` when that succeeds); the branch is a function of
the frame alone and fixes the step; an object without an `echo` member is never
treated as a response. -/
theorem readLoop_classification (data : Frame) :
    (∀ r, readLoopRoute data = .response r ↔
        (UnmarshalActionResponse data = some r ∧ r.Echo ≠ "")) ∧
      ((∀ r, UnmarshalActionResponse data = some r → r.Echo = "") →
        readLoopRoute data =
          (match ParseEvent data with
           | some event => Route.event event
           | none => Route.discard)) ∧
      (∀ c : Client, readLoopStep c data =
          (match readLoopRoute data with
           | .response r => (handleActionResponse c r, [])
           | .event event => (c, handleEvent c event)
           | .discard => (c, []))) ∧
      (∀ kvs, data = some (.obj kvs) → (∀ k ∈ kvs.keys, sameName k "echo" = false) →
        ∀ r, readLoopRoute data ≠ .response r) := by
  have hiff : ∀ r, readLoopRoute data = .response r ↔
      (UnmarshalActionResponse data = some r ∧ r.Echo ≠ "") := by
    intro r
    unfold readLoopRoute
    cases hu : UnmarshalActionResponse data with
    | none =>
      simp only [Option.filter]
      cases ParseEvent data <;> simp
    | some r0 =>
      by_cases he : r0.Echo = ""
      · simp only [Option.filter, he, ne_eq, not_true_eq_false, decide_False]
        constructor
        · intro h
          cases hp : ParseEvent data <;> simp [hp] at h
        · rintro ⟨h1, h2⟩
          cases h1
          exact absurd he h2
      · simp only [Option.filter, he, ne_eq, not_false_eq_true, decide_True, if_true]
        constructor
        · intro h
          cases h
          exact ⟨rfl, he⟩
        · rintro ⟨h1, _⟩
          cases h1
          rfl
  refine ⟨hiff, ?_, fun c => rfl, ?_⟩
  · intro hall
    unfold readLoopRoute
    cases hu : UnmarshalActionResponse data with
    | none => simp [Option.filter]
    | some r0 => simp [Option.filter, hall r0 hu]
  · intro kvs hd hkeys r hr
    obtain ⟨h1, h2⟩ := (hiff r).mp hr
    subst hd
    simp only [UnmarshalActionResponse, decodeStruct] at h1
    exact h2 (decodeFields_ActionResponse_echo kvs ActionResponse.zero r hkeys h1)

/-- C7 (witness): a well-formed response without an echo is handed to `ParseEvent`
and dispatched as a base event. -/
theorem readLoop_classification_witness :
    readLoopRoute echolessResponse = Route.event (.base Event.zero) :=
  ((readLoop_classification echolessResponse).2.1 (by decide)).trans (by decide)

/-- C8 (counterexample): the notice frame with a numeric `user_id` decodes as an
event object of type "notice", yet `ParseEvent` returns an error and no event. -/
theorem ParseEvent_numeric_user_id_fails :
    Unmarshal Event.setField Event.zero numericUserNotice =
        some { ID := "n1", Self := none, Time := 1700000000, Type_ := "notice",
               DetailType := "friend_increase", SubType := "" } ∧
      ParseEvent numericUserNotice = none := by
  decide

/-- C8 (amended): for a frame that decodes as an event object `base`, `ParseEvent`
decodes the frame again as the struct selected by `base.Type` ("message", "notice",
"meta", "request") and returns that event, or the error of that second decoding;
for every other type it returns the base event without error.  Every event returned
carries the id, self, time, type, detail type and sub type of `base`, so that
`IsPrivateMessage` and `IsGroupMessage` follow the detail type of the frame. -/
theorem ParseEvent_by_type (data : Frame) (base : Event)
    (h : Unmarshal Event.setField Event.zero data = some base) :
    (base.Type_ = "message" → ParseEvent data =
        (Unmarshal MessageEvent.setField MessageEvent.zero data).map AnyEvent.message) ∧
      (base.Type_ = "notice" → ParseEvent data =
        (Unmarshal NoticeEvent.setField NoticeEvent.zero data).map AnyEvent.notice) ∧
      (base.Type_ = "meta" → ParseEvent data =
        (Unmarshal MetaEvent.setField MetaEvent.zero data).map AnyEvent.meta) ∧
      (base.Type_ = "request" → ParseEvent data =
        (Unmarshal RequestEvent.setField RequestEvent.zero data).map AnyEvent.request) ∧
      (base.Type_ ≠ "message" → base.Type_ ≠ "notice" → base.Type_ ≠ "meta" →
        base.Type_ ≠ "request" → ParseEvent data = some (.base base)) ∧
      (∀ event, ParseEvent data = some event → event.toEvent = base) ∧
      (∀ e, ParseEvent data = some (.message e) →
        (e.IsPrivateMessage = true ↔ base.DetailType = "private") ∧
        (e.IsGroupMessage = true ↔ base.DetailType = "group")) := by
  have hall : ∀ event, ParseEvent data = some event → event.toEvent = base := by
    intro event hev
    have hinj : ∀ b : Event, Unmarshal Event.setField Event.zero data = some b → b = base := by
      intro b hb
      rw [h] at hb
      exact (Option.some.inj hb).symm
    unfold ParseEvent at hev
    simp only [h] at hev
    split_ifs at hev
    · obtain ⟨e, he, rfl⟩ := Option.map_eq_some'.mp hev
      exact hinj _ (Unmarshal_toEvent MessageEvent.setField MessageEvent.toEvent
        MessageEvent.zero rfl MessageEvent_setField_toEvent data e he)
    · obtain ⟨e, he, rfl⟩ := Option.map_eq_some'.mp hev
      exact hinj _ (Unmarshal_toEvent NoticeEvent.setField NoticeEvent.toEvent
        NoticeEvent.zero rfl NoticeEvent_setField_toEvent data e he)
    · obtain ⟨e, he, rfl⟩ := Option.map_eq_some'.mp hev
      exact hinj _ (Unmarshal_toEvent MetaEvent.setField MetaEvent.toEvent
        MetaEvent.zero rfl MetaEvent_setField_toEvent data e he)
    · obtain ⟨e, he, rfl⟩ := Option.map_eq_some'.mp hev
      exact hinj _ (Unmarshal_toEvent RequestEvent.setField RequestEvent.toEvent
        RequestEvent.zero rfl RequestEvent_setField_toEvent data e he)
    · cases hev
      rfl
  refine ⟨?_, ?_, ?_, ?_, ?_, hall, ?_⟩
  · intro ht
    simp [ParseEvent, h, ht]
  · intro ht
    simp [ParseEvent, h, ht]
  · intro ht
    simp [ParseEvent, h, ht]
  · intro ht
    simp [ParseEvent, h, ht]
  · intro h1 h2 h3 h4
    simp [ParseEvent, h, h1, h2, h3, h4]
  · intro e he
    have hb : e.toEvent = base := hall _ he
    simp [MessageEvent.IsPrivateMessage, MessageEvent.IsGroupMessage, hb]

/-- C8 (witness): the private message frame of `TestEventParsing` is parsed as a
message event carrying the base fields of the frame, and only `IsPrivateMessage`
holds of it. -/
theorem ParseEvent_by_type_witness :
    ParseEvent privateMsgFrame =
        (Unmarshal MessageEvent.setField MessageEvent.zero privateMsgFrame).map
          AnyEvent.message ∧
      (∀ event, ParseEvent privateMsgFrame = some event →
        event.toEvent = testBase "test-id" "private") ∧
      (∀ e, ParseEvent privateMsgFrame = some (.message e) →
        (e.IsPrivateMessage = true ↔ (testBase "test-id" "private").DetailType = "private") ∧
        (e.IsGroupMessage = true ↔ (testBase "test-id" "private").DetailType = "group")) :=
  have h := ParseEvent_by_type privateMsgFrame (testBase "test-id" "private") (by decide)
  ⟨h.1 (by decide), h.2.2.2.2.2.1, h.2.2.2.2.2.2⟩

/-- The checks of `TestEventParsing` on the private message frame. -/
theorem TestEventParsing_private :
    ∃ e, ParseEvent privateMsgFrame = some (.message e) ∧ e.IsPrivateMessage = true ∧
      e.IsGroupMessage = false ∧ e.UserID = "user456" ∧
      e.toEvent = testBase "test-id" "private" :=
  ⟨_, rfl, by decide, by decide, by decide, by decide⟩

/-- The checks of `TestEventParsing` on the group message frame. -/
theorem TestEventParsing_group :
    ∃ e, ParseEvent groupMsgFrame = some (.message e) ∧ e.IsPrivateMessage = false ∧
      e.IsGroupMessage = true ∧ e.UserID = "user789" ∧ e.GroupID = "group123" ∧
      e.toEvent = testBase "test-id2" "group" :=
  ⟨_, rfl, by decide, by decide, by decide, by decide, by decide⟩

/-- C9: a frame that decodes neither as a response nor as an event is dropped: the
body of the loop starts no handler and leaves the whole client state (correlation
table, channels, handler registry, connected flag) unchanged, and the loop does not
return but calls `conn.Read` again: the run of the loop on the frame followed by
further reads is the run from the same state on those reads, with one more read
made; so a frame that follows is handled by the body of the loop in that state, and a
response that follows is delivered to the waiting channel registered under its echo. -/
theorem readLoop_discards_undecodable (c : Client) (data : Frame)
    (reads : List (Except String Frame))
    (hresp : UnmarshalActionResponse data = none) (hevent : ParseEvent data = none) :
    readLoopRoute data = .discard ∧ readLoopStep c data = (c, []) ∧
      (readLoop c (.ok data :: reads)).client = (readLoop c reads).client ∧
      (readLoop c (.ok data :: reads)).started = (readLoop c reads).started ∧
      (readLoop c (.ok data :: reads)).reads = (readLoop c reads).reads + 1 ∧
      (readLoop c (.ok data :: reads)).returned = (readLoop c reads).returned ∧
      (readLoop c [.ok data]).returned = false ∧ (readLoop c [.ok data]).reads = 1 ∧
      (∀ next rest,
        (readLoop c (.ok data :: .ok next :: rest)).client =
          (readLoop (readLoopStep c next).1 rest).client ∧
        (readLoop c (.ok data :: .ok next :: rest)).started =
          (readLoopStep c next).2 ++ (readLoop (readLoopStep c next).1 rest).started ∧
        (readLoop c (.ok data :: .ok next :: rest)).reads =
          (readLoop (readLoopStep c next).1 rest).reads + 2) ∧
      (∀ next r i, readLoopRoute next = .response r →
        c.responseChan r.Echo = some (some i) → c.chans i = [] →
        (readLoop c [.ok data, .ok next]).client.chans i = [r] ∧
        (readLoop c [.ok data, .ok next]).client.responseChan r.Echo = none) := by
  have hroute : readLoopRoute data = .discard := by
    simp [readLoopRoute, hresp, hevent, Option.filter]
  have hstep : readLoopStep c data = (c, []) := by
    simp [readLoopStep, hroute]
  refine ⟨hroute, hstep, ?_, ?_, ?_, ?_, ?_, ?_, ?_, ?_⟩
  · simp [readLoop, hstep]
  · simp [readLoop, hstep]
  · simp [readLoop, hstep]
  · simp [readLoop, hstep]
  · simp [readLoop, hstep]
  · simp [readLoop, hstep]
  · intro next rest
    simp [readLoop, hstep]
  · intro next r i hnext hreg hfree
    have hn : readLoopStep c next = (handleActionResponse c r, []) := by
      simp [readLoopStep, hnext]
    simp [readLoop, hstep, hn, handleActionResponse_chans, handleActionResponse_responseChan,
      hreg, hfree, timedSend]

/-- C9 (witness): with two calls pending, an array frame changes nothing, and the
response frame read after it is delivered to the channel of the second call; the loop
has made two reads and waits in the third. -/
theorem readLoop_discards_undecodable_witness :
    readLoopStep twoPending arrayFrame = (twoPending, []) ∧
      (readLoop twoPending [.ok arrayFrame, .ok (responseFrame "t2")]).client.chans 1 =
        [okResponse "t2"] ∧
      (readLoop twoPending [.ok arrayFrame, .ok (responseFrame "t2")]).client.responseChan "t2" =
        none ∧
      (readLoop twoPending [.ok arrayFrame, .ok (responseFrame "t2")]).reads = 2 ∧
      (readLoop twoPending [.ok arrayFrame, .ok (responseFrame "t2")]).returned = false :=
  have h := readLoop_discards_undecodable twoPending arrayFrame [.ok (responseFrame "t2")]
    (by decide) (by decide)
  have hd := h.2.2.2.2.2.2.2.2.2 (responseFrame "t2") (okResponse "t2") 1 (by decide) (by decide)
    (by decide)
  ⟨h.2.1, hd.1, hd.2, h.2.2.2.2.1.trans (by decide), h.2.2.2.2.2.1.trans (by decide)⟩

/-! ## The writer's failure path -/

/-- The writer's step on a call whose channel is empty, when the request is encoded
as `data` and `conn.Write` fails. -/
theorem writeLoopCall_write_failure (c : Client) (call : ActionCall) (uuid err : String)
    (i conn : Nat) (data : JValue) (hch : call.response = some i) (hconn : c.conn = some conn)
    (hwait : c.chans i = [])
    (henc : ((writeLoopRegister c call uuid).requests call.request).Marshal = .ok data) :
    writeLoopCall c call uuid (some err) =
      some ({ writeLoopRegister c call uuid with
                chans := heapSet c.chans i [writeFailure err] },
            some data) := by
  have hreg : (writeLoopRegister c call uuid).chans = c.chans := rfl
  have hregc : (writeLoopRegister c call uuid).conn = c.conn := rfl
  simp only [writeLoopCall, writeLoopSend, henc, hregc, hconn, blockingSend, hch, hreg, hwait,
    List.length_nil, Nat.lt_one_iff, if_true, Option.map_some', List.nil_append]

/-- C11: when the writer handles a dequeued call whose channel is still empty, the
request is encoded as `data` and `conn.Write` fails with error text `err`, the step
completes, the frame handed to `conn.Write` is `data`, the channel of the call holds
the synthesized response (status "failed", retcode 20002, message `err`), and the
receive arm of the caller's `select` is enabled and returns exactly that response. -/
theorem writeLoop_write_failure_resolves (c : Client) (call : ActionCall) (uuid err : String)
    (i conn : Nat) (data : JValue) (hch : call.response = some i) (hconn : c.conn = some conn)
    (hwait : c.chans i = [])
    (henc : ((writeLoopRegister c call uuid).requests call.request).Marshal = .ok data) :
    (writeFailure err).Status = "failed" ∧ (writeFailure err).Retcode = 20002 ∧
      (writeFailure err).Message = err ∧
      (writeLoopCall c call uuid (some err)).map Prod.snd = some (some data) ∧
      (writeLoopCall c call uuid (some err)).map (fun r => r.1.chans i) =
        some [writeFailure err] ∧
      ((writeLoopCall c call uuid (some err)).bind
        (fun r => CallWithTimeoutReceive r.1 call)).map Prod.snd = some (writeFailure err) := by
  rw [writeLoopCall_write_failure c call uuid err i conn data hch hconn hwait henc]
  refine ⟨rfl, rfl, rfl, rfl, ?_, ?_⟩
  · simp [heapSet]
  · simp [CallWithTimeoutReceive, hch, heapSet]

/-- C11 (witness): the first call of `connectedClient`, queued and then handled by the
writer, with a write that fails on a broken pipe. -/
theorem writeLoop_write_failure_resolves_witness :
    (writeLoopDequeue oneSubmitted).map Prod.fst = some firstCall ∧
      (writeLoopCall firstDequeued firstCall "t1" (some "broken pipe")).map Prod.snd =
        some (some (.obj (.cons "action" (.str "get_status") (.cons "params" .null
          (.cons "echo" (.str "t1") .nil))))) ∧
      (writeLoopCall firstDequeued firstCall "t1" (some "broken pipe")).map
        (fun r => r.1.chans 0) = some [writeFailure "broken pipe"] ∧
      ((writeLoopCall firstDequeued firstCall "t1" (some "broken pipe")).bind
        (fun r => CallWithTimeoutReceive r.1 firstCall)).map Prod.snd =
        some (writeFailure "broken pipe") :=
  ⟨by decide, (writeLoop_write_failure_resolves firstDequeued firstCall "t1" "broken pipe" 0 1
    (.obj (.cons "action" (.str "get_status") (.cons "params" .null
      (.cons "echo" (.str "t1") .nil))))
    rfl (by decide) (by decide) rfl).2.2.2⟩

/-! ## Encoding round trips -/

/-- The literal written for a finite `float64` parses back to the same `float64`. -/
theorem float64Literal_toFloat64 (x : Rat) (h : isFloat64 x = true) :
    (float64Literal x).toFloat64 = some x := by
  simp only [isFloat64, Bool.and_eq_true, decide_eq_true_eq] at h
  obtain ⟨⟨hden, hround⟩, hrange⟩ := h
  have hval : ∀ n : JNumber, n.inFloat64 = true → n.exactValue = x → n.toFloat64 = some x := by
    intro n h1 h2
    simp [JNumber.toFloat64, h1, h2, hround]
  unfold float64Literal
  by_cases h1 : x.den = 1
  · rw [if_pos h1]
    have hx : (x.num : Rat) = x := Rat.coe_int_num_of_den_eq_one h1
    rw [h1, Nat.mul_one] at hrange
    by_cases h2 : x.num.natAbs < 10 ^ 21
    · rw [if_pos h2]
      exact hval _ (by simp [JNumber.inFloat64, hrange]) (by simp [JNumber.exactValue, hx])
    · rw [if_neg h2]
      exact hval _ (by simp [JNumber.inFloat64, hrange]) (by simp [JNumber.exactValue, hx])
  · rw [if_neg h1]
    generalize hk : bitLen x.den x.den - 1 = k at hden
    have hk0 : k ≠ 0 := by
      intro e
      rw [e, pow_zero] at hden
      exact h1 hden
    have hneg : ¬ (0 : Int) ≤ -(k : Int) := by omega
    have htn : (- -(k : Int)).toNat = k := by simp
    apply hval
    · simp only [JNumber.inFloat64, hneg, if_false, htn, decide_eq_true_eq]
      rw [Int.natAbs_mul, Int.natAbs_pow]
      rw [hden] at hrange
      have h5 : (10 : Nat) ^ k = 2 ^ k * 5 ^ k := by rw [← Nat.mul_pow]
      rw [h5, ← Nat.mul_assoc]
      have : (5 : Int).natAbs = 5 := rfl
      rw [this]
      exact Nat.mul_lt_mul_of_pos_right hrange (by positivity)
    · simp only [JNumber.exactValue, hneg, if_false, htn]
      rw [Rat.mkRat_eq_div]
      have hx : (x.num : Rat) / ((2 ^ k : Nat) : Rat) = x := by
        rw [← hden]
        exact Rat.num_div_den x
      have h5 : (10 : Rat) ^ k = 2 ^ k * 5 ^ k := by rw [← mul_pow]; norm_num
      refine Eq.trans ?_ hx
      push_cast
      rw [h5]
      field_simp
      ring

theorem keyLess_irrefl (k : String) : keyLess k k = false := by
  simp [keyLess]

theorem keyLess_asymm (a b : String) (h : keyLess a b = true) : keyLess b a = false := by
  simp only [keyLess, decide_eq_true_eq] at h
  simp only [keyLess, decide_eq_false_iff_not]
  exact lt_asymm h

theorem GoFields_append_nil : ∀ (m : GoFields), m.append .nil = m
  | .nil => rfl
  | .cons k v rest => by simp [GoFields.append, GoFields_append_nil rest]

theorem GoFields_keys_append :
    ∀ (m n : GoFields), (m.append n).keys = m.keys ++ n.keys
  | .nil, n => by simp [GoFields.append, GoFields.keys]
  | .cons k v rest, n => by
    simp [GoFields.append, GoFields.keys, GoFields_keys_append rest n]

theorem GoFields_append_cons :
    ∀ (m : GoFields) (k : String) (v : GoValue) (rest : GoFields),
      (m.append (.cons k v .nil)).append rest = m.append (.cons k v rest)
  | .nil, k, v, rest => by simp [GoFields.append]
  | .cons k0 v0 m, k, v, rest => by
    simp [GoFields.append, GoFields_append_cons m k v rest]

/-- Assigning a key above all the keys of the map adds the entry at the end. -/
theorem GoFields_insert_above :
    ∀ (m : GoFields) (k : String) (v : GoValue), (∀ a ∈ m.keys, keyLess a k = true) →
      m.insert k v = m.append (.cons k v .nil)
  | .nil, k, v, _ => by simp [GoFields.insert, GoFields.append]
  | .cons k0 v0 rest, k, v, h => by
    have h0 : keyLess k0 k = true := h k0 (by simp [GoFields.keys])
    have hne : ¬ k = k0 := by
      intro e
      rw [e, keyLess_irrefl] at h0
      cases h0
    have hnl : keyLess k k0 = false := keyLess_asymm _ _ h0
    have hr : ∀ a ∈ rest.keys, keyLess a k = true := fun a ha => h a (by simp [GoFields.keys, ha])
    simp [GoFields.insert, GoFields.append, hne, hnl, GoFields_insert_above rest k v hr]

/-- Putting an entry whose key is below the first key of the list puts it in front. -/
theorem insertKey_below {α : Type} (k : String) (v : α) (entries : List (String × α))
    (h : ∀ a ∈ entries.map Prod.fst, keyLess k a = true) :
    insertKey k v entries = (k, v) :: entries := by
  cases entries with
  | nil => rfl
  | cons e rest =>
    have h0 : keyLess k e.1 = true := h e.1 (by simp)
    simp [insertKey, h0]

/-- Assigning the entries of a list in key order, all above the keys of the map,
adds them at the end in that order. -/
theorem GoFields_insertAll_above :
    ∀ (kvs acc : GoFields), kvs.isJSONData = true →
      (∀ a ∈ acc.keys, ∀ b ∈ kvs.keys, keyLess a b = true) →
      acc.insertAll kvs = acc.append kvs
  | .nil, acc, _, _ => by simp [GoFields.insertAll, GoFields_append_nil]
  | .cons k v rest, acc, h, hacc => by
    simp only [GoFields.isJSONData, Bool.and_eq_true, List.all_eq_true] at h
    obtain ⟨⟨hk, _⟩, hrest⟩ := h
    have hlow : ∀ a ∈ acc.keys, keyLess a k = true :=
      fun a ha => hacc a ha k (by simp [GoFields.keys])
    simp only [GoFields.insertAll]
    rw [GoFields_insert_above acc k v hlow, GoFields_insertAll_above rest _ hrest,
      GoFields_append_cons]
    intro a ha b hb
    rw [GoFields_keys_append] at ha
    simp only [GoFields.keys, List.mem_append, List.mem_singleton, List.mem_cons,
      List.not_mem_nil, or_false] at ha
    rcases ha with ha | rfl
    · exact hacc a ha b (by simp [GoFields.keys, hb])
    · exact hk b hb

/-- Assigning the entries of a map in key order into an empty map gives the map. -/
theorem GoFields_insertAll_nil (kvs : GoFields) (h : kvs.isJSONData = true) :
    GoFields.nil.insertAll kvs = kvs := by
  rw [GoFields_insertAll_above kvs .nil h (by intro a ha; simp [GoFields.keys] at ha)]
  rfl

mutual
theorem GoValue_roundtrip :
    ∀ (v : GoValue), v.isJSONData = true → ∃ j, v.Marshal = .ok j ∧ decodeAny j = some v
  | .nil, _ => ⟨_, rfl, rfl⟩
  | .bool b, _ => ⟨_, rfl, rfl⟩
  | .float64 x, h => by
    refine ⟨_, rfl, ?_⟩
    simp only [GoValue.isJSONData] at h
    simp [decodeAny, float64Literal_toFloat64 x h]
  | .string s, _ => ⟨_, rfl, rfl⟩
  | .sliceAny xs, h => by
    simp only [GoValue.isJSONData] at h
    obtain ⟨js, h1, h2⟩ := GoList_roundtrip xs h
    exact ⟨.arr js, by simp [GoValue.Marshal, h1], by simp [decodeAny, h2]⟩
  | .mapAny kvs, h => by
    simp only [GoValue.isJSONData] at h
    obtain ⟨js, h1, _, h3⟩ := GoFields_roundtrip kvs h
    refine ⟨.obj js, by simp [GoValue.Marshal, h1], ?_⟩
    simp [decodeAny, h3 .nil, GoFields_insertAll_nil kvs h]
  | .nan, h => by simp [GoValue.isJSONData] at h
  | .inf _, h => by simp [GoValue.isJSONData] at h
  | .int _, h => by simp [GoValue.isJSONData] at h
  | .other _, h => by simp [GoValue.isJSONData] at h
  | .unsupported _, h => by simp [GoValue.isJSONData] at h
theorem GoList_roundtrip :
    ∀ (xs : GoList), xs.isJSONData = true →
      ∃ js, xs.Marshal = .ok js ∧ decodeAnyList js = some xs
  | .nil, _ => ⟨_, rfl, rfl⟩
  | .cons x xs, h => by
    simp only [GoList.isJSONData, Bool.and_eq_true] at h
    obtain ⟨j, h1, h2⟩ := GoValue_roundtrip x h.1
    obtain ⟨js, h3, h4⟩ := GoList_roundtrip xs h.2
    exact ⟨.cons j js, by simp [GoList.Marshal, h1, h3], by simp [decodeAnyList, h2, h4]⟩
theorem GoFields_roundtrip :
    ∀ (kvs : GoFields), kvs.isJSONData = true →
      ∃ js, collectFields kvs.Marshal = .ok js ∧ kvs.Marshal.map Prod.fst = kvs.keys ∧
        ∀ acc : GoFields, decodeAnyFields js acc = some (acc.insertAll kvs)
  | .nil, _ => ⟨.nil, rfl, rfl, fun acc => by simp [decodeAnyFields, GoFields.insertAll]⟩
  | .cons k v rest, h => by
    simp only [GoFields.isJSONData, Bool.and_eq_true, List.all_eq_true] at h
    obtain ⟨⟨hk, hv⟩, hrest⟩ := h
    obtain ⟨j, h1, h2⟩ := GoValue_roundtrip v hv
    obtain ⟨js, h3, h4, h5⟩ := GoFields_roundtrip rest hrest
    have hins : GoFields.Marshal (.cons k v rest) = (k, v.Marshal) :: rest.Marshal := by
      simp only [GoFields.Marshal]
      exact insertKey_below k _ _ (by rw [h4]; exact hk)
    refine ⟨.cons k j js, ?_, ?_, ?_⟩
    · rw [hins, h1]
      simp [collectFields, h3]
    · rw [hins]
      simp [GoFields.keys, h4]
    · intro acc
      simp only [decodeAnyFields, h2, h5, GoFields.insertAll]
end

/-- Decoding the encoding of a map of JSON data (or of the nil map) into a nil map
gives the map back. -/
theorem decodeMapAny_marshalMap (m : Option GoFields)
    (h : ∀ kvs, m = some kvs → kvs.isJSONData = true) :
    ∃ j, marshalMap m = .ok j ∧ decodeMapAny j none = some m := by
  cases m with
  | none => exact ⟨.null, rfl, rfl⟩
  | some kvs =>
    obtain ⟨js, h1, _, h3⟩ := GoFields_roundtrip kvs (h kvs rfl)
    refine ⟨.obj js, by simp [marshalMap, GoValue.Marshal, h1], ?_⟩
    simp [decodeMapAny, h3 .nil, GoFields_insertAll_nil kvs (h kvs rfl)]

/-- C12 (counterexample): the request whose parameter `id` is the `int64`
9007199254740993 is encoded with the literal 9007199254740993, and decoding the
encoding gives a request whose parameter `id` is the `float64` 9007199254740992:
another dynamic type and another number.  A parameter that is a `Message` comes
back as a `[]any` of `map[string]any`. -/
theorem ActionRequest_int_param_comes_back_float64 :
    bigIntRequest.Marshal =
        .ok (.obj (.cons "action" (.str "get_user_info") (.cons "params"
          (.obj (.cons "id" (.num (.int 9007199254740993)) .nil)) .nil))) ∧
      bigIntRequest.roundTrip =
        some { bigIntRequest with
          Params := some (.cons "id" (.float64 9007199254740992) .nil) } ∧
      bigIntRequest.roundTrip ≠ some bigIntRequest ∧
      messageRequest.roundTrip =
        some { messageRequest with
          Params := some (.cons "message" (.sliceAny (.cons (.mapAny
            (.cons "data" (.mapAny (.cons "text" (.string "hi") .nil))
              (.cons "type" (.string "text") .nil))) .nil)) .nil) } ∧
      messageRequest.roundTrip ≠ some messageRequest := by
  refine ⟨rfl, by decide, by decide, by decide, by decide⟩

/-- C12 (amended): for every request whose parameters are the nil map or a map that
holds only values of the kinds `json.Unmarshal` stores in an `any` (nil, bool,
`float64`, string, `[]any` and `map[string]any` of such values), the encoding
succeeds and decoding it gives the request back: same action, same parameters, same
echo (also when the echo is empty and the member is omitted) and same self. -/
theorem ActionRequest_roundtrip (r : ActionRequest)
    (h : ∀ kvs, r.Params = some kvs → kvs.isJSONData = true) :
    r.roundTrip = some r ∧ (∃ j, r.Marshal = .ok j) := by
  cases r with
  | mk a p e s =>
    obtain ⟨j, hj, hp⟩ := decodeMapAny_marshalMap p h
    refine ⟨?_, ?_⟩
    · simp only [ActionRequest.roundTrip, ActionRequest.Marshal, hj, decodeStruct]
      by_cases he : e = "" <;> cases s <;>
        simp +decide [decodeFields, ActionRequest.setField, ActionRequest.zero, he, hp,
          decodeString, decodePtr, decodeStruct, Self.Marshal, Self.setField, Self.zero]
    · simp only [ActionRequest.Marshal, hj]
      exact ⟨_, rfl⟩

/-- C12 (witness): the request of `TestActionRequest`, a request whose parameters hold
numbers, a slice and a nested map, and a request with nil parameters and no echo,
whose encoding has only the members `action` and `params`. -/
theorem ActionRequest_roundtrip_witness :
    testRequest.roundTrip = some testRequest ∧
      nestedRequest.roundTrip = some nestedRequest ∧
      (NewActionRequest "get_status" none).Marshal =
        .ok (.obj (.cons "action" (.str "get_status") (.cons "params" .null .nil))) ∧
      (NewActionRequest "get_status" none).roundTrip =
        some (NewActionRequest "get_status" none) :=
  ⟨(ActionRequest_roundtrip testRequest (by
      intro kvs hk
      cases hk
      decide)).1,
    (ActionRequest_roundtrip nestedRequest (by
      intro kvs hk
      cases hk
      decide)).1,
    rfl, by decide⟩

/-- C20: `IsOK` holds exactly of the responses whose status is "ok" and whose retcode
is 0; status "ok" with another retcode, or retcode 0 with another status, is not OK. -/
theorem IsOK_iff (r : ActionResponse) :
    (r.IsOK = true ↔ r.Status = "ok" ∧ r.Retcode = 0) ∧
      (r.Status = "ok" → r.Retcode ≠ 0 → r.IsOK = false) ∧
      (r.Retcode = 0 → r.Status ≠ "ok" → r.IsOK = false) := by
  refine ⟨?_, ?_, ?_⟩
  · simp [ActionResponse.IsOK]
  · intro _ h2
    simp [ActionResponse.IsOK, h2]
  · intro _ h2
    simp [ActionResponse.IsOK, h2]

/-- C20 (witness): a response with status "ok" and retcode 0 is OK; the same response
with retcode 10001 is not. -/
theorem IsOK_iff_witness :
    (okResponse "echo123").IsOK = true ∧
      ({ okResponse "echo123" with Retcode := RetcodeBadRequest } : ActionResponse).IsOK = false :=
  ⟨(IsOK_iff (okResponse "echo123")).1.mpr ⟨rfl, rfl⟩,
    (IsOK_iff { okResponse "echo123" with Retcode := RetcodeBadRequest }).2.1 rfl (by decide)⟩

/-! ## Lifecycle -/

/-- One step changes the connected flag only when it is the return of the reader. -/
theorem CloseStep_run_connected (c : Client) (step : CloseStep) :
    IsConnected (step.run c) = (IsConnected c && !(step == CloseStep.readerExit)) := by
  cases step with
  | cancel => simp [CloseStep.run, CloseCancel, IsConnected]
  | closeConn closeErr => cases h : c.conn <;> simp [CloseStep.run, CloseConn, h, IsConnected]
  | readerExit => simp [CloseStep.run, readLoopExit, IsConnected]

/-- The connected flag after a sequence of steps. -/
theorem runSteps_connected (steps : List CloseStep) :
    ∀ c : Client, IsConnected (runSteps c steps) =
      (IsConnected c && !steps.contains CloseStep.readerExit) := by
  induction steps with
  | nil =>
    intro c
    simp [runSteps]
  | cons step rest ih =>
    intro c
    have h := ih (step.run c)
    simp only [runSteps, List.foldl_cons] at h ⊢
    rw [h, CloseStep_run_connected]
    cases step with
    | cancel =>
      have hb : (CloseStep.cancel == CloseStep.readerExit) = false := by decide
      have hc : (CloseStep.readerExit == CloseStep.cancel) = false := by decide
      simp [List.contains_cons, hb, hc]
    | closeConn closeErr =>
      have hb : (CloseStep.closeConn closeErr == CloseStep.readerExit) = false :=
        beq_eq_false_iff_ne.mpr (fun e => by cases e)
      have hc : (CloseStep.readerExit == CloseStep.closeConn closeErr) = false :=
        beq_eq_false_iff_ne.mpr (fun e => by cases e)
      simp [List.contains_cons, hb, hc]
    | readerExit => simp [List.contains_cons]

/-- C13 (counterexample): `Close` on a connected client runs its two parts and returns
while the reader has not yet returned from its read, and `IsConnected` is true after
`Close`; the flag is false after the return of the reader.  In the other order the
reader returns between the two parts of `Close`, and `IsConnected` is false when
`Close` returns. -/
theorem Close_returns_before_reader_exit :
    IsConnected connectedClient = true ∧
      (Close connectedClient none).1 = runSteps connectedClient [.cancel, .closeConn none] ∧
      IsConnected (Close connectedClient none).1 = true ∧
      (Close connectedClient none).1.closed = true ∧
      IsConnected (runSteps connectedClient [.cancel, .closeConn none, .readerExit]) = false ∧
      IsConnected (runSteps connectedClient [.cancel, .readerExit, .closeConn none]) = false :=
  ⟨by decide, rfl, by decide, by decide, by decide, by decide⟩

/-- C13 (amended): `Close` is its two parts in turn; it sets the closed intent and
cancels the context and never writes the connected flag, so that by itself it leaves
`IsConnected` as it was.  The flag is cleared by the return of the reader, a step of
another goroutine that nothing orders with the steps of `Close`: after any sequence
of steps of `Close` and of the reader, `IsConnected` is false when the reader has
returned or the client was not connected, and true otherwise; in particular it is
false once the reader has returned, before or after the second part of `Close`. -/
theorem Close_flag_follows_reader_exit (c : Client) (closeErr : Option GoError)
    (steps : List CloseStep) :
    (Close c closeErr).1 = runSteps c [.cancel, .closeConn closeErr] ∧
      IsConnected (Close c closeErr).1 = IsConnected c ∧
      (Close c closeErr).1.closed = true ∧ (Close c closeErr).1.ctxDone = true ∧
      IsConnected (runSteps c steps) =
        (IsConnected c && !steps.contains CloseStep.readerExit) ∧
      IsConnected (runSteps c [.cancel, .closeConn closeErr, .readerExit]) = false ∧
      IsConnected (runSteps c [.cancel, .readerExit, .closeConn closeErr]) = false := by
  refine ⟨rfl, ?_, ?_, ?_, runSteps_connected steps c, ?_, ?_⟩
  · cases h : c.conn <;> simp [Close, CloseConn, CloseCancel, h, IsConnected]
  · cases h : c.conn <;> simp [Close, CloseConn, CloseCancel, h]
  · cases h : c.conn <;> simp [Close, CloseConn, CloseCancel, h]
  · rw [runSteps_connected]
    simp [List.contains_cons]
  · rw [runSteps_connected]
    simp [List.contains_cons]

/-- C14: with the closed intent set, `handleDisconnect` starts no reconnect goroutine
whatever the reconnect option, and a reconnect loop that tests the intent ends without
a connect attempt; with the reconnect option off, `handleDisconnect` starts no
goroutine either.  `Close` sets the intent, `connect` and the return of `readLoop`
keep both the intent and the option, and `WithReconnect(false)` as the last option
turns the option off. -/
theorem closed_intent_suppresses_reconnect (c : Client) (dial : Except String Nat)
    (dials : List (Except String Nat)) (closeErr : Option GoError) (url : String)
    (opts : List (Client → Client)) :
    (c.closed = true → handleDisconnect c = false ∧ reconnectPass c dial = (c, none) ∧
        reconnectLoop c dials = (c, 0)) ∧
      (c.reconnect = false → handleDisconnect c = false) ∧
      (Close c closeErr).1.closed = true ∧
      (Close c closeErr).1.reconnect = c.reconnect ∧
      (connect c dial).1.closed = c.closed ∧ (connect c dial).1.reconnect = c.reconnect ∧
      (readLoopExit c).closed = c.closed ∧ (readLoopExit c).reconnect = c.reconnect ∧
      (New url (opts ++ [WithReconnect false])).reconnect = false := by
  refine ⟨?_, ?_, ?_, ?_, ?_, ?_, rfl, rfl, ?_⟩
  · intro h
    have hp : reconnectPass c dial = (c, none) := by simp [reconnectPass, h]
    refine ⟨by simp [handleDisconnect, h], hp, ?_⟩
    cases dials with
    | nil => rfl
    | cons d rest => simp [reconnectLoop, reconnectPass, h]
  · intro h
    simp [handleDisconnect, h]
  · cases h : c.conn <;> simp [Close, CloseConn, CloseCancel, h]
  · cases h : c.conn <;> simp [Close, CloseConn, CloseCancel, h]
  · cases dial <;> rfl
  · cases dial <;> rfl
  · simp [New, List.foldl_append, WithReconnect]

/-- C14 (witness): after `Close` on a connected client, the return of `readLoop` starts
no reconnect, and a reconnect loop offered two successful dials makes no attempt. -/
theorem closed_intent_suppresses_reconnect_witness :
    handleDisconnect (readLoopExit (Close connectedClient none).1) = false ∧
      (reconnectLoop (readLoopExit (Close connectedClient none).1) [.ok 2, .ok 3]).2 = 0 ∧
      handleDisconnect (readLoopExit
        (connect (New "ws://localhost:5700" [WithReconnect false]) (.ok 1)).1) = false :=
  have h := closed_intent_suppresses_reconnect (readLoopExit (Close connectedClient none).1)
    (.ok 2) [.ok 2, .ok 3] none "ws://localhost:5700" []
  have h2 := closed_intent_suppresses_reconnect
    (readLoopExit (connect (New "ws://localhost:5700" [WithReconnect false]) (.ok 1)).1)
    (.ok 2) [] none "ws://localhost:5700" []
  ⟨(h.1 (by decide)).1, congrArg Prod.snd (h.1 (by decide)).2.2, h2.2.1 (by decide)⟩

/-- C15 (the code at the failing input): after a connect there is one reader and one
writer; the reader returns on a read failure, the writer does not return (its only
exit is the cancelled context) and `handleDisconnect` starts the reconnect goroutine;
its successful `connect` starts a new reader and a new writer, so that two writers
run.  A repeated `Connect` on a connected client gives two readers and two writers. -/
theorem reconnect_leaves_old_writer_running :
    connectedClient.readLoops = 1 ∧ connectedClient.writeLoops = 1 ∧
      readerGone.readLoops = 0 ∧ (writeLoopExit readerGone).writeLoops = 1 ∧
      handleDisconnect readerGone = true ∧
      (reconnectPass readerGone (.ok 2)).2 = some none ∧
      reconnected.readLoops = 1 ∧ reconnected.writeLoops = 2 ∧
      (connect connectedClient (.ok 2)).1.readLoops = 2 ∧
      (connect connectedClient (.ok 2)).1.writeLoops = 2 := by
  decide

/-! ## Event routing -/

/-- The invocations started for one key are those of the handlers stored under it, on
the event dispatched. -/
theorem mem_spawnAll (c : Client) (key : String) (event e : AnyEvent) (h : Handler) :
    (h, e) ∈ spawnAll c key event ↔ e = event ∧ h ∈ (c.eventHandlers key).getD [] := by
  unfold spawnAll
  cases hk : c.eventHandlers key with
  | none => simp
  | some hs =>
    simp only [List.mem_map, Prod.mk.injEq, Option.getD_some]
    constructor
    · rintro ⟨x, hx, rfl, rfl⟩
      exact ⟨rfl, hx⟩
    · rintro ⟨rfl, hx⟩
      exact ⟨h, hx, rfl, rfl⟩

/-- The key `handleEvent` computes for an event returned by `ParseEvent` is the type
field of the frame, followed by a dot and the detail type when there is one. -/
theorem ParseEvent_eventTypeOf (data : Frame) (event : AnyEvent)
    (h : ParseEvent data = some event) :
    eventTypeOf event =
      if event.toEvent.DetailType ≠ "" then
        event.toEvent.Type_ ++ "." ++ event.toEvent.DetailType
      else event.toEvent.Type_ := by
  unfold ParseEvent at h
  cases hb : Unmarshal Event.setField Event.zero data with
  | none => simp [hb] at h
  | some base =>
    simp only [hb] at h
    split_ifs at h with h1 h2 h3 h4
    · obtain ⟨e, he, rfl⟩ := Option.map_eq_some'.mp h
      have hbase := Unmarshal_toEvent MessageEvent.setField MessageEvent.toEvent
        MessageEvent.zero rfl MessageEvent_setField_toEvent data e he
      rw [hb] at hbase
      have ht : e.toEvent.Type_ = "message" := by
        rw [← Option.some.inj hbase]
        exact h1
      simp [eventTypeOf, AnyEvent.toEvent, ht]
    · obtain ⟨e, he, rfl⟩ := Option.map_eq_some'.mp h
      have hbase := Unmarshal_toEvent NoticeEvent.setField NoticeEvent.toEvent
        NoticeEvent.zero rfl NoticeEvent_setField_toEvent data e he
      rw [hb] at hbase
      have ht : e.toEvent.Type_ = "notice" := by
        rw [← Option.some.inj hbase]
        exact h2
      simp [eventTypeOf, AnyEvent.toEvent, ht]
    · obtain ⟨e, he, rfl⟩ := Option.map_eq_some'.mp h
      have hbase := Unmarshal_toEvent MetaEvent.setField MetaEvent.toEvent
        MetaEvent.zero rfl MetaEvent_setField_toEvent data e he
      rw [hb] at hbase
      have ht : e.toEvent.Type_ = "meta" := by
        rw [← Option.some.inj hbase]
        exact h3
      simp [eventTypeOf, AnyEvent.toEvent, ht]
    · obtain ⟨e, he, rfl⟩ := Option.map_eq_some'.mp h
      have hbase := Unmarshal_toEvent RequestEvent.setField RequestEvent.toEvent
        RequestEvent.zero rfl RequestEvent_setField_toEvent data e he
      rw [hb] at hbase
      have ht : e.toEvent.Type_ = "request" := by
        rw [← Option.some.inj hbase]
        exact h4
      simp [eventTypeOf, AnyEvent.toEvent, ht]
    · cases h
      rfl

/-- C16: every invocation `handleEvent` starts is an invocation, on the event
dispatched, of a handler registered under "*" or under the one key computed for the
event; for an event returned by `ParseEvent` that key is the coarse type when the
detail type is empty and "coarse.detail" otherwise. -/
theorem handleEvent_only_matching_keys (c : Client) (event e : AnyEvent) (h : Handler)
    (hin : (h, e) ∈ handleEvent c event) :
    e = event ∧
      (h ∈ (c.eventHandlers "*").getD [] ∨ h ∈ (c.eventHandlers (eventTypeOf event)).getD []) ∧
      (∀ data, ParseEvent data = some event →
        (event.toEvent.DetailType = "" ∧ eventTypeOf event = event.toEvent.Type_) ∨
        (event.toEvent.DetailType ≠ "" ∧
          eventTypeOf event = event.toEvent.Type_ ++ "." ++ event.toEvent.DetailType)) := by
  have hmem : (h, e) ∈ spawnAll c "*" event ∨ (h, e) ∈ spawnAll c (eventTypeOf event) event := by
    simpa [handleEvent] using hin
  refine ⟨?_, ?_, ?_⟩
  · rcases hmem with h1 | h1
    · exact ((mem_spawnAll c _ event e h).mp h1).1
    · exact ((mem_spawnAll c _ event e h).mp h1).1
  · rcases hmem with h1 | h1
    · exact Or.inl ((mem_spawnAll c _ event e h).mp h1).2
    · exact Or.inr ((mem_spawnAll c _ event e h).mp h1).2
  · intro data hd
    have hk := ParseEvent_eventTypeOf data event hd
    by_cases hD : event.toEvent.DetailType = ""
    · exact Or.inl ⟨hD, by simpa [hD] using hk⟩
    · exact Or.inr ⟨hD, by simpa [hD] using hk⟩

/-- C16 (witness): with handlers under "*", "message" and "message.private", the notice
frame with detail type friend_increase starts handler 0 only, the handler under "*". -/
theorem handleEvent_only_matching_keys_witness :
    ParseEvent friendIncreaseNotice = some friendIncreaseEvent ∧
      eventTypeOf friendIncreaseEvent = "notice.friend_increase" ∧
      handleEvent fanOutClient friendIncreaseEvent = [(0, friendIncreaseEvent)] ∧
      (0 ∈ (fanOutClient.eventHandlers "*").getD [] ∨
        0 ∈ (fanOutClient.eventHandlers (eventTypeOf friendIncreaseEvent)).getD []) :=
  ⟨by decide, by decide, by decide,
    (handleEvent_only_matching_keys fanOutClient friendIncreaseEvent friendIncreaseEvent 0
      (by decide)).2.1⟩

/-- C17: `On` is total and only appends: the list under the key becomes the previous
list followed by the handler (one longer, earlier handlers in place), the lists under
all other keys and the rest of the client are unchanged. -/
theorem On_appends (c : Client) (key : String) (handler : Handler) :
    (On c key handler).eventHandlers key =
        some ((c.eventHandlers key).getD [] ++ [handler]) ∧
      (((On c key handler).eventHandlers key).getD []).length =
        ((c.eventHandlers key).getD []).length + 1 ∧
      (∀ n (hn : n < ((c.eventHandlers key).getD []).length),
        (((On c key handler).eventHandlers key).getD [])[n]? =
          some (((c.eventHandlers key).getD [])[n])) ∧
      (∀ k, k ≠ key → (On c key handler).eventHandlers k = c.eventHandlers k) ∧
      (On c key handler).responseChan = c.responseChan ∧
      (On c key handler).actionChan = c.actionChan ∧
      (On c key handler).connected = c.connected ∧
      (On c key handler).closed = c.closed := by
  have h1 : (On c key handler).eventHandlers key =
      some ((c.eventHandlers key).getD [] ++ [handler]) := by
    simp [On, mapSet]
  refine ⟨h1, ?_, ?_, ?_, rfl, rfl, rfl, rfl⟩
  · rw [h1]
    simp
  · intro n hn
    rw [h1]
    simp [List.getElem?_append_left hn, List.getElem?_eq_getElem hn]
  · intro k hk
    simp [On, mapSet, hk]

/-- C17 (witness): the registrations of `TestEventHandlerRegistration`: one handler
under "message.private", then one under "*", on a fresh client. -/
theorem On_appends_witness :
    (((On (New "ws://localhost:5700" []) "message.private" 0).eventHandlers
        "message.private").getD []).length = 1 ∧
      (((On (On (New "ws://localhost:5700" []) "message.private" 0) "*" 1).eventHandlers
        "*").getD []).length = 1 ∧
      (((On (On (New "ws://localhost:5700" []) "message.private" 0) "*" 1).eventHandlers
        "message.private").getD []).length = 1 :=
  ⟨(On_appends (New "ws://localhost:5700" []) "message.private" 0).2.1,
    (On_appends (On (New "ws://localhost:5700" []) "message.private" 0) "*" 1).2.1,
    by decide⟩

/-! ## Message rendering and decoding -/

/-- The loop body of `ToAltMessage` appends the rendering of the segment. -/
theorem altStep_eq (result : String) (seg : MessageSegment) :
    altStep result seg = result ++ renderSegment seg := by
  unfold altStep renderSegment
  by_cases h0 : seg.Type_ = "text"
  · rw [if_pos h0, if_pos h0]
    cases dataString seg "text" <;>
      simp only [Option.getD_some, Option.getD_none, String.append_empty]
  rw [if_neg h0, if_neg h0]
  by_cases h1 : seg.Type_ = "image"
  · rw [if_pos h1, if_pos h1]
  rw [if_neg h1, if_neg h1]
  by_cases h2 : seg.Type_ = "voice"
  · rw [if_pos h2, if_pos h2]
  rw [if_neg h2, if_neg h2]
  by_cases h3 : seg.Type_ = "audio"
  · rw [if_pos h3, if_pos h3]
  rw [if_neg h3, if_neg h3]
  by_cases h4 : seg.Type_ = "video"
  · rw [if_pos h4, if_pos h4]
  rw [if_neg h4, if_neg h4]
  by_cases h5 : seg.Type_ = "file"
  · rw [if_pos h5, if_pos h5]
  rw [if_neg h5, if_neg h5]
  by_cases h6 : seg.Type_ = "location"
  · rw [if_pos h6, if_pos h6]
  rw [if_neg h6, if_neg h6]
  by_cases h7 : seg.Type_ = "reply"
  · rw [if_pos h7, if_pos h7]
  rw [if_neg h7, if_neg h7]
  by_cases h8 : seg.Type_ = "mention"
  · rw [if_pos h8, if_pos h8]
    cases dataString seg "user_id" <;> simp only [String.append_empty]
  rw [if_neg h8, if_neg h8]
  by_cases h9 : seg.Type_ = "mention_all"
  · rw [if_pos h9, if_pos h9]
  rw [if_neg h9, if_neg h9]

/-- The loop of `ToAltMessage` from any start value. -/
theorem foldl_altStep (m : Message) :
    ∀ acc : String, m.foldl altStep acc = acc ++ concatAll (m.map renderSegment) := by
  induction m with
  | nil =>
    intro acc
    simp [concatAll]
  | cons seg rest ih =>
    intro acc
    simp [List.foldl_cons, ih, altStep_eq, concatAll, String.append_assoc]

/-- C18: `ToAltMessage` is the concatenation, in segment order, of the renderings of
the segments (`renderSegment`: text value, fixed tags, `@` + user id, `@全体成员`, the
type in brackets); so the empty message renders as the empty string and the rendering
of a concatenation is the concatenation of the renderings.  The message of
`TestMessageToAltMessage` renders as the test expects. -/
theorem ToAltMessage_concat (m a b : Message) :
    ToAltMessage m = concatAll (m.map renderSegment) ∧
      ToAltMessage [] = "" ∧
      ToAltMessage (a ++ b) = ToAltMessage a ++ ToAltMessage b ∧
      ToAltMessage testMessage = "你好[图片][语音]@user789@全体成员！" := by
  refine ⟨?_, rfl, ?_, by decide⟩
  · simp [ToAltMessage, foldl_altStep]
  · simp [ToAltMessage, List.foldl_append, foldl_altStep]

/-- The encoding of a segment whose data is a map of JSON data (or the nil map),
decoded into a cell that holds `old`. -/
theorem MessageSegment_decode_into (old seg : MessageSegment)
    (h : ∀ kvs, seg.Data = some kvs → kvs.isJSONData = true) :
    ∃ j, seg.Marshal = .ok j ∧
      decodeStruct MessageSegment.setField j old = some (old.storedInto seg) := by
  cases seg with
  | mk t d =>
    cases d with
    | none =>
      refine ⟨_, rfl, ?_⟩
      simp +decide [decodeStruct, decodeFields, MessageSegment.setField, decodeString,
        decodeMapAny, MessageSegment.storedInto]
    | some kvs =>
      obtain ⟨js, h1, _, h3⟩ := GoFields_roundtrip kvs (h kvs rfl)
      refine ⟨.obj (.cons "type" (.str t) (.cons "data" (.obj js) .nil)), ?_, ?_⟩
      · simp [MessageSegment.Marshal, marshalMap, GoValue.Marshal, h1]
      · simp +decide [decodeStruct, decodeFields, MessageSegment.setField, decodeString,
          decodeMapAny, MessageSegment.storedInto, h3]

/-- The encodings of segments are decoded into the cells of a backing array one by
one. -/
theorem decodeElems_segments :
    ∀ (segs : Message) (cells : List MessageSegment),
      (∀ seg ∈ segs, ∀ kvs, seg.Data = some kvs → kvs.isJSONData = true) →
      ∃ js, marshalSegments segs = .ok js ∧
        (segs = [] ↔ js = .nil) ∧
        decodeElems MessageSegment.zero MessageSegment.setField js cells =
          some (storeSegments cells segs, cells.drop segs.length)
  | [], cells, _ => ⟨.nil, rfl, by simp, by simp [decodeElems, storeSegments]⟩
  | seg :: rest, cells, h => by
    obtain ⟨j, h1, h2⟩ := MessageSegment_decode_into (cells.headD MessageSegment.zero) seg
      (h seg (List.mem_cons_self _ _))
    obtain ⟨js, h3, _, h5⟩ := decodeElems_segments rest cells.tail
      (fun x hx => h x (List.mem_cons_of_mem _ hx))
    refine ⟨.cons j js, by simp [marshalSegments, h1, h3], by simp, ?_⟩
    have hdrop : List.drop rest.length cells.tail = List.drop (rest.length + 1) cells := by
      cases cells <;> simp
    simp only [decodeElems, h2, h5, storeSegments, List.length_cons, hdrop]

/-- A segment whose data is a map of JSON data, stored into a zero cell, is the
segment. -/
theorem storedInto_zero (seg : MessageSegment)
    (h : ∀ kvs, seg.Data = some kvs → kvs.isJSONData = true) :
    MessageSegment.zero.storedInto seg = seg := by
  cases seg with
  | mk t d =>
    cases d with
    | none => rfl
    | some kvs =>
      simp [MessageSegment.storedInto, MessageSegment.zero, GoFields_insertAll_nil kvs (h kvs rfl)]

/-- Segments stored into an empty backing array are the segments. -/
theorem storeSegments_nil :
    ∀ (segs : Message), (∀ seg ∈ segs, ∀ kvs, seg.Data = some kvs → kvs.isJSONData = true) →
      storeSegments [] segs = segs
  | [], _ => rfl
  | seg :: rest, h => by
    simp only [storeSegments, List.headD_nil, List.tail_nil]
    rw [storedInto_zero seg (h seg (List.mem_cons_self _ _)),
      storeSegments_nil rest (fun x hx => h x (List.mem_cons_of_mem _ hx))]

/-- C19 (counterexample): decoding the JSON array that encodes `[Text("hi")]` into a
receiver that holds `[Mention("1")]` gives one segment of type "text" whose data has
the entry `text` and also the entry `user_id` of the old segment: not the segment
`Text("hi")`.  The decoder does this to the message of an event whose frame has the
member `message` twice.  A JSON string decoded into the same receiver replaces the
content. -/
theorem Message_UnmarshalJSON_array_merges_into_receiver :
    segmentsArray [Text "hi"] = .ok helloArray ∧
      Message.UnmarshalJSON oldMessage [] helloArray =
        some ([{ Type_ := "text",
                 Data := some (.cons "text" (.string "hi")
                   (.cons "user_id" (.string "1") .nil)) }], []) ∧
      Message.UnmarshalJSON oldMessage [] helloArray ≠ some ([Text "hi"], []) ∧
      Message.UnmarshalJSON [] [] helloArray = some ([Text "hi"], []) ∧
      Message.UnmarshalJSON oldMessage [] (.str "hi") = some ([Text "hi"], []) ∧
      (∃ e, ParseEvent twiceMessageFrame = some (.message e) ∧
        e.Message = [{ Type_ := "text",
                       Data := some (.cons "text" (.string "hi")
                         (.cons "user_id" (.string "1") .nil)) }]) :=
  ⟨rfl, by decide, by decide, by decide, by decide, ⟨_, rfl, by decide⟩⟩

/-- C19 (amended): `Message.UnmarshalJSON` decodes a JSON string `s` as the one-segment
message `[Text(s)]`, whatever the receiver held.  The JSON array that encodes message
segments (whose data are maps of JSON data) is decoded into the cells of the
receiver: each segment gets the type of the encoded one and, for the data, the old
map of its cell with the encoded entries assigned into it; into a receiver without
content (nil, as in a newly declared event) the array decodes as exactly those
segments, in the same order. -/
theorem Message_UnmarshalJSON_formats (s : String) (segs m spare : List MessageSegment)
    (h : ∀ seg ∈ segs, ∀ kvs, seg.Data = some kvs → kvs.isJSONData = true) :
    Message.UnmarshalJSON m spare (.str s) = some ([Text s], []) ∧
      (Text s).Type_ = "text" ∧ (Text s).Data = some (.cons "text" (.string s) .nil) ∧
      (∃ j, segmentsArray segs = .ok j ∧
        Message.UnmarshalJSON [] [] j = some (segs, []) ∧
        Message.UnmarshalJSON m spare j =
          some (if segs = [] then ([], [])
                else (storeSegments (m ++ spare) segs, (m ++ spare).drop segs.length))) := by
  refine ⟨rfl, rfl, rfl, ?_⟩
  have hany : ∀ cells : List MessageSegment, ∃ js, marshalSegments segs = .ok js ∧
      Message.UnmarshalJSON cells [] (.arr js) =
        some (if segs = [] then ([], [])
              else (storeSegments cells segs, cells.drop segs.length)) := by
    intro cells
    obtain ⟨js, h1, h2, h3⟩ := decodeElems_segments segs cells h
    refine ⟨js, h1, ?_⟩
    cases js with
    | nil =>
      have he : segs = [] := h2.mpr rfl
      simp [Message.UnmarshalJSON, decodeString, decodeSlice, he]
    | cons j js =>
      have hne : segs ≠ [] := fun e => by simpa using h2.mp e
      simp [Message.UnmarshalJSON, decodeString, decodeSlice, h3, hne]
  obtain ⟨js, h1, h2⟩ := hany []
  obtain ⟨js2, h3, h4⟩ := hany (m ++ spare)
  rw [h1] at h3
  cases h3
  refine ⟨.arr js, by simp [segmentsArray, h1], ?_, ?_⟩
  · rw [h2]
    by_cases he : segs = []
    · simp [he]
    · simp [he, storeSegments_nil segs h]
  · have hcells : Message.UnmarshalJSON m spare (.arr js) =
        Message.UnmarshalJSON (m ++ spare) [] (.arr js) := by
      simp [Message.UnmarshalJSON]
    rw [hcells, h4]

/-- C19 (witness): the string "Hello" and the array encoding of the message of
`TestMessageToAltMessage`, decoded into an empty receiver; the array that encodes
`[Text("hi")]` decoded into a receiver that holds `[Mention("1")]`. -/
theorem Message_UnmarshalJSON_formats_witness :
    Message.UnmarshalJSON [] [] (.str "Hello") = some ([Text "Hello"], []) ∧
      (∃ j, segmentsArray testMessage = .ok j ∧
        Message.UnmarshalJSON [] [] j = some (testMessage, []) ∧
        Message.UnmarshalJSON oldMessage [] j =
          some (if testMessage = [] then ([], [])
                else (storeSegments (oldMessage ++ []) testMessage,
                      (oldMessage ++ []).drop testMessage.length))) :=
  have h := Message_UnmarshalJSON_formats "Hello" testMessage oldMessage [] (by
    intro seg hseg kvs hk
    simp only [testMessage, List.mem_cons, List.mem_singleton, List.not_mem_nil, or_false]
      at hseg
    rcases hseg with rfl | rfl | rfl | rfl | rfl | rfl <;> cases hk <;> decide)
  ⟨rfl, h.2.2.2⟩

/-! ## Construction and options -/

/-- The client after a list of options, from any start: the fields no option sets are
those of the start, each configurable field is the value of the last option for it. -/
theorem foldl_options (opts : List ClientOption) :
    ∀ c0 : Client,
      (opts.foldl (fun c o => o.apply c) c0).url = c0.url ∧
      (opts.foldl (fun c o => o.apply c) c0).conn = c0.conn ∧
      (opts.foldl (fun c o => o.apply c) c0).closed = c0.closed ∧
      (opts.foldl (fun c o => o.apply c) c0).connected = c0.connected ∧
      (opts.foldl (fun c o => o.apply c) c0).eventHandlers = c0.eventHandlers ∧
      (opts.foldl (fun c o => o.apply c) c0).actionChan = c0.actionChan ∧
      (opts.foldl (fun c o => o.apply c) c0).responseChan = c0.responseChan ∧
      (opts.foldl (fun c o => o.apply c) c0).accessToken =
        lastOr c0.accessToken (opts.filterMap ClientOption.token?) ∧
      (opts.foldl (fun c o => o.apply c) c0).self =
        lastOr c0.self ((opts.filterMap ClientOption.self?).map some) ∧
      (opts.foldl (fun c o => o.apply c) c0).logger =
        lastOr c0.logger (opts.filterMap ClientOption.logger?) ∧
      (opts.foldl (fun c o => o.apply c) c0).reconnect =
        lastOr c0.reconnect (opts.filterMap ClientOption.reconnect?) ∧
      (opts.foldl (fun c o => o.apply c) c0).reconnectWait =
        lastOr c0.reconnectWait (opts.filterMap ClientOption.reconnectWait?) ∧
      (opts.foldl (fun c o => o.apply c) c0).heartbeat =
        lastOr c0.heartbeat (opts.filterMap ClientOption.heartbeat?) ∧
      (opts.foldl (fun c o => o.apply c) c0).timeout =
        lastOr c0.timeout (opts.filterMap ClientOption.timeout?) := by
  induction opts with
  | nil =>
    intro c0
    simp [lastOr]
  | cons o rest ih =>
    intro c0
    have h := ih (o.apply c0)
    cases o <;>
      simpa [List.foldl_cons, List.filterMap_cons, ClientOption.apply, ClientOption.token?,
        ClientOption.self?, ClientOption.logger?, ClientOption.reconnect?,
        ClientOption.reconnectWait?, ClientOption.heartbeat?, ClientOption.timeout?,
        WithAccessToken, WithSelf, WithLogger, WithReconnect, WithReconnectWait, WithHeartbeat,
        WithTimeout, lastOr] using h

/-- C22: `New` is total (it has no failing path), applies the options in argument
order to the default client, and for every list of options built with `options.go`
returns a client that is not connected, has the given url, an empty handler registry
and an empty correlation table, and whose configuration is the default (no access
token, no self, reconnect on, 5 s reconnect wait, 30 s heartbeat, 30 s timeout)
overridden by the last option given for each field; each option sets its own field
and no other. -/
theorem New_defaults_and_options (url : String) (opts : List ClientOption) (c : Client)
    (fs : List (Client → Client)) (f : Client → Client) (t p u : String) (l : Nat) (b : Bool)
    (d : Int) :
    New url (fs ++ [f]) = f (New url fs) ∧
      ((New url (opts.map ClientOption.apply)).url = url ∧
        IsConnected (New url (opts.map ClientOption.apply)) = false ∧
        (New url (opts.map ClientOption.apply)).closed = false ∧
        (New url (opts.map ClientOption.apply)).conn = none ∧
        (∀ k, (New url (opts.map ClientOption.apply)).eventHandlers k = none) ∧
        (∀ k, (New url (opts.map ClientOption.apply)).responseChan k = none) ∧
        (New url (opts.map ClientOption.apply)).actionChan = []) ∧
      ((New url (opts.map ClientOption.apply)).accessToken =
          lastOr "" (opts.filterMap ClientOption.token?) ∧
        (New url (opts.map ClientOption.apply)).self =
          lastOr none ((opts.filterMap ClientOption.self?).map some) ∧
        (New url (opts.map ClientOption.apply)).reconnect =
          lastOr true (opts.filterMap ClientOption.reconnect?) ∧
        (New url (opts.map ClientOption.apply)).reconnectWait =
          lastOr (5 * Second) (opts.filterMap ClientOption.reconnectWait?) ∧
        (New url (opts.map ClientOption.apply)).heartbeat =
          lastOr (30 * Second) (opts.filterMap ClientOption.heartbeat?) ∧
        (New url (opts.map ClientOption.apply)).timeout =
          lastOr (30 * Second) (opts.filterMap ClientOption.timeout?)) ∧
      ((WithAccessToken t c).accessToken = t ∧
        { WithAccessToken t c with accessToken := c.accessToken } = c ∧
        (WithSelf p u c).self = some { Platform := p, UserID := u } ∧
        { WithSelf p u c with self := c.self } = c ∧
        (WithLogger l c).logger = l ∧ { WithLogger l c with logger := c.logger } = c ∧
        (WithReconnect b c).reconnect = b ∧
        { WithReconnect b c with reconnect := c.reconnect } = c ∧
        (WithReconnectWait d c).reconnectWait = d ∧
        { WithReconnectWait d c with reconnectWait := c.reconnectWait } = c ∧
        (WithHeartbeat d c).heartbeat = d ∧
        { WithHeartbeat d c with heartbeat := c.heartbeat } = c ∧
        (WithTimeout d c).timeout = d ∧ { WithTimeout d c with timeout := c.timeout } = c) ∧
      (testClient.url = "ws://localhost:5700" ∧ testClient.accessToken = "test-token" ∧
        testClient.timeout = 5 * Second) := by
  have hfold : ∀ c0 : Client, (opts.map ClientOption.apply).foldl (fun c opt => opt c) c0 =
      opts.foldl (fun c o => o.apply c) c0 := by
    intro c0
    rw [List.foldl_map]
  refine ⟨?_, ?_, ?_, ?_, ?_⟩
  · simp [New, List.foldl_append]
  · unfold New IsConnected
    rw [hfold]
    obtain ⟨h1, h2, h3, h4, h5, h6, h7, _⟩ := foldl_options opts
      { url := url, accessToken := "", self := none, logger := 0, reconnect := true,
        reconnectWait := 5 * Second, heartbeat := 30 * Second, timeout := 30 * Second,
        conn := none, closed := false, connected := false, eventHandlers := fun _ => none,
        actionChan := [], responseChan := fun _ => none, ctxDone := false, readLoops := 0,
        writeLoops := 0, requests := fun _ => NewActionRequest "" none, chans := fun _ => [],
        nextObj := 0 }
    refine ⟨h1, h4, h3, h2, ?_, ?_, h6⟩
    · intro k
      rw [h5]
    · intro k
      rw [h7]
  · unfold New
    rw [hfold]
    obtain ⟨_, _, _, _, _, _, _, h8, h9, _, h11, h12, h13, h14⟩ := foldl_options opts
      { url := url, accessToken := "", self := none, logger := 0, reconnect := true,
        reconnectWait := 5 * Second, heartbeat := 30 * Second, timeout := 30 * Second,
        conn := none, closed := false, connected := false, eventHandlers := fun _ => none,
        actionChan := [], responseChan := fun _ => none, ctxDone := false, readLoops := 0,
        writeLoops := 0, requests := fun _ => NewActionRequest "" none, chans := fun _ => [],
        nextObj := 0 }
    exact ⟨h8, h9, h11, h12, h13, h14⟩
  · exact ⟨rfl, rfl, rfl, rfl, rfl, rfl, rfl, rfl, rfl, rfl, rfl, rfl, rfl, rfl⟩
  · exact ⟨by decide, by decide, by decide⟩

/-- C23: `NewActionRequest` gives a request with the action and the parameters, an
empty echo and no self; `WithEcho` sets the echo and nothing else, `WithSelf` sets the
self and nothing else, and the updated request is what each returns, so the two
chain in either order to the same request. -/
theorem ActionRequest_builders (action : String) (params : Option GoFields) (r : ActionRequest)
    (e : String) (s : Option Self) :
    ((NewActionRequest action params).Action = action ∧
        (NewActionRequest action params).Params = params ∧
        (NewActionRequest action params).Echo = "" ∧
        (NewActionRequest action params).Self = none) ∧
      ((r.WithEcho e).Echo = e ∧ (r.WithEcho e).Action = r.Action ∧
        (r.WithEcho e).Params = r.Params ∧ (r.WithEcho e).Self = r.Self) ∧
      ((r.WithSelf s).Self = s ∧ (r.WithSelf s).Action = r.Action ∧
        (r.WithSelf s).Params = r.Params ∧ (r.WithSelf s).Echo = r.Echo) ∧
      (r.WithEcho e).WithSelf s = (r.WithSelf s).WithEcho e ∧
      ((r.WithEcho e).WithSelf s =
        { Action := r.Action, Params := r.Params, Echo := e, Self := s }) ∧
      (testRequest.Action = "send_message" ∧ testRequest.Echo = "echo123" ∧
        testRequest.Self = some { Platform := "qq", UserID := "bot123" }) :=
  ⟨⟨rfl, rfl, rfl, rfl⟩, ⟨rfl, rfl, rfl, rfl⟩, ⟨rfl, rfl, rfl, rfl⟩, rfl, rfl,
    ⟨by decide, by decide, by decide⟩⟩

/-- C24: the header map `connect` hands to the dial has an `Authorization` entry exactly
when the access token is not empty; its value is then the single string "Bearer "
followed by the token; no other key has an entry. -/
theorem connectHeader_authorization (c : Client) :
    (connectHeader c "Authorization" ≠ none ↔ c.accessToken ≠ "") ∧
      (c.accessToken ≠ "" →
        connectHeader c "Authorization" = some ["Bearer " ++ c.accessToken]) ∧
      (∀ k, k ≠ "Authorization" → connectHeader c k = none) := by
  by_cases h : c.accessToken = ""
  · simp [connectHeader, h]
  · refine ⟨?_, ?_, ?_⟩
    · simp [connectHeader, h, mapSet]
    · intro _
      simp [connectHeader, h, mapSet]
    · intro k hk
      simp [connectHeader, h, mapSet, hk]

/-- C24 (witness): the client of `TestNewClient` sends `Bearer test-token`; a client
without a token sends no header. -/
theorem connectHeader_authorization_witness :
    connectHeader testClient "Authorization" = some ["Bearer test-token"] ∧
      connectHeader (New "ws://localhost:5700" []) "Authorization" = none :=
  ⟨((connectHeader_authorization testClient).2.1 (by decide)).trans (by decide), by decide⟩

/-! ## The writer: token assignment and the failure paths -/

/-- The echo the request object carries after the registration. -/
theorem writeLoopRegister_echo (c : Client) (call : ActionCall) (uuid : String) :
    ((writeLoopRegister c call uuid).requests call.request).Echo =
      if (c.requests call.request).Echo = "" then uuid else (c.requests call.request).Echo := by
  by_cases h : (c.requests call.request).Echo = "" <;> simp [writeLoopRegister, heapSet, h]

/-- The registration stores the channel of the call under the echo of the request. -/
theorem writeLoopRegister_stores (c : Client) (call : ActionCall) (uuid : String) :
    (writeLoopRegister c call uuid).responseChan
      ((writeLoopRegister c call uuid).requests call.request).Echo = some call.response := by
  rw [writeLoopRegister_echo]
  by_cases h : (c.requests call.request).Echo = "" <;> simp [writeLoopRegister, mapSet, h]

/-- The encoding of a request with a non-empty echo has the member `echo`. -/
theorem Marshal_member_echo (r : ActionRequest) (data : JValue) (h : r.Echo ≠ "")
    (henc : r.Marshal = .ok data) :
    data.member "echo" = some (.str r.Echo) := by
  unfold ActionRequest.Marshal at henc
  cases hp : marshalMap r.Params with
  | error err => simp [hp] at henc
  | ok params =>
    simp only [hp, h, if_false, Except.ok.injEq] at henc
    subst henc
    cases hs : r.Self <;> simp +decide [JValue.member, JFields.get, hs]

/-- C25: when the writer processes a call with a generated token `uuid` that is not
empty, the request keeps a non-empty echo it already carries and otherwise gets
`uuid`; its action, parameters and self are unchanged; after the registration, hence
before the write, the correlation table maps that echo to the response channel of the
call; and the frame handed to `conn.Write` is the encoding of the request (whenever
the request has one), whose member `echo` is that same echo. -/
theorem writeLoop_echo_registered_and_sent (c : Client) (call : ActionCall) (uuid : String)
    (conn : Nat) (hu : uuid ≠ "") (hconn : c.conn = some conn) :
    ((c.requests call.request).Echo ≠ "" →
        ((writeLoopRegister c call uuid).requests call.request).Echo =
          (c.requests call.request).Echo) ∧
      ((c.requests call.request).Echo = "" →
        ((writeLoopRegister c call uuid).requests call.request).Echo = uuid) ∧
      ((writeLoopRegister c call uuid).requests call.request).Echo ≠ "" ∧
      ((writeLoopRegister c call uuid).requests call.request).Action =
        (c.requests call.request).Action ∧
      ((writeLoopRegister c call uuid).requests call.request).Params =
        (c.requests call.request).Params ∧
      ((writeLoopRegister c call uuid).requests call.request).Self =
        (c.requests call.request).Self ∧
      (writeLoopRegister c call uuid).responseChan
        ((writeLoopRegister c call uuid).requests call.request).Echo = some call.response ∧
      (∀ data, ((writeLoopRegister c call uuid).requests call.request).Marshal = .ok data →
        writeLoopCall c call uuid none = some (writeLoopRegister c call uuid, some data) ∧
        data.member "echo" =
          some (.str ((writeLoopRegister c call uuid).requests call.request).Echo)) := by
  have hne : ((writeLoopRegister c call uuid).requests call.request).Echo ≠ "" := by
    rw [writeLoopRegister_echo]
    by_cases h : (c.requests call.request).Echo = "" <;> simp [h, hu]
  have hregc : (writeLoopRegister c call uuid).conn = c.conn := rfl
  refine ⟨?_, ?_, hne, ?_, ?_, ?_, writeLoopRegister_stores c call uuid, ?_⟩
  · intro h
    rw [writeLoopRegister_echo, if_neg h]
  · intro h
    rw [writeLoopRegister_echo, if_pos h]
  · by_cases h : (c.requests call.request).Echo = "" <;> simp [writeLoopRegister, heapSet, h]
  · by_cases h : (c.requests call.request).Echo = "" <;> simp [writeLoopRegister, heapSet, h]
  · by_cases h : (c.requests call.request).Echo = "" <;> simp [writeLoopRegister, heapSet, h]
  · intro data henc
    refine ⟨?_, Marshal_member_echo _ data hne henc⟩
    simp only [writeLoopCall, writeLoopSend, henc, hregc, hconn]

/-- C25 (witness): the first call of `connectedClient`, whose request has no echo, gets
the generated token, and the frame written carries it; a request that carries the
echo `tok` keeps it. -/
theorem writeLoop_echo_registered_and_sent_witness :
    ((writeLoopRegister firstDequeued firstCall "t1").requests firstCall.request).Echo = "t1" ∧
      (writeLoopRegister firstDequeued firstCall "t1").responseChan "t1" =
        some firstCall.response ∧
      ((writeLoopRegister sameTokenClient firstCall "t1").requests firstCall.request).Echo =
        "tok" ∧
      (writeLoopCall firstDequeued firstCall "t1" none).map Prod.snd =
        some (some (.obj (.cons "action" (.str "get_status") (.cons "params" .null
          (.cons "echo" (.str "t1") .nil))))) :=
  have h := writeLoop_echo_registered_and_sent firstDequeued firstCall "t1" 1 (by decide)
    (by decide)
  have h2 := writeLoop_echo_registered_and_sent sameTokenClient firstCall "t1" 1 (by decide)
    (by decide)
  ⟨h.2.1 (by decide), (h.2.1 (by decide)) ▸ h.2.2.2.2.2.2.1, (h2.1 (by decide)).trans (by decide),
    congrArg (Option.map Prod.snd) (h.2.2.2.2.2.2.2 _ rfl).1⟩

/-- C26 (the code at the failing input): with one handler registered under "*", the
extension event frame whose type field is "*" is parsed as a base event, the key
computed for it is "*" again, and `handleEvent` starts the one handler twice. -/
theorem handleEvent_star_type_dispatches_twice :
    ParseEvent starFrame = some starEvent ∧ eventTypeOf starEvent = "*" ∧
      wildcardClient.eventHandlers "*" = some [0] ∧
      handleEvent wildcardClient starEvent = [(0, starEvent), (0, starEvent)] ∧
      (readLoopStep wildcardClient starFrame).2 = [(0, starEvent), (0, starEvent)] ∧
      (handleEvent wildcardClient starEvent).count (0, starEvent) = 2 := by
  decide

/-- C27 (the code at the failing input): the writer registers the first call under
`t1`, the write fails, the synthesized response is delivered and received by the
caller, and `t1` is still mapped to the channel of the call; the same holds when the
encoding of the request fails (a parameter holds a function value). -/
theorem writer_failure_leaves_token_registered :
    (writeLoopCall firstDequeued firstCall "t1" (some "broken pipe")).map
        (fun r => r.1.responseChan "t1") = some (some firstCall.response) ∧
      ((writeLoopCall firstDequeued firstCall "t1" (some "broken pipe")).bind
        (fun r => CallWithTimeoutReceive r.1 firstCall)).map
        (fun r => (r.1.responseChan "t1", r.2)) =
        some (some firstCall.response, writeFailure "broken pipe") ∧
      ((writeLoopCall funcParamDequeued firstCall "t1" none).bind
        (fun r => CallWithTimeoutReceive r.1 firstCall)).map
        (fun r => (r.1.responseChan "t1", r.2)) =
        some (some firstCall.response, marshalFailure "json: unsupported type: func()") := by
  decide

/-- C28 (the code at the failing input): the three failures of `CallWithTimeout` are
plain errors built by `fmt.Errorf`, not the predefined `ErrNotConnected` and
`ErrTimeout`, so `IsError` is false on them for the codes -1 and -2 (it is true on
the predefined errors themselves). -/
theorem CallWithTimeout_errors_are_not_predefined :
    errorOf (CallWithTimeoutSubmit (New "ws://localhost:5700" []) "get_status" none).2 =
        some (.errorf "未连接到 OneBot 实现") ∧
      IsError (errorOf
        (CallWithTimeoutSubmit (New "ws://localhost:5700" []) "get_status" none).2) (-1) =
        false ∧
      errorOf (CallWithTimeoutSubmit fullQueueClient "get_status" none).2 =
        some (.errorf "发送动作请求超时") ∧
      IsError (errorOf (CallWithTimeoutSubmit fullQueueClient "get_status" none).2) (-2) =
        false ∧
      (CallWithTimeoutExpire oneSubmitted firstCall).2 = .errorf "等待动作响应超时" ∧
      IsError (some (CallWithTimeoutExpire oneSubmitted firstCall).2) (-2) = false ∧
      IsError (some (.onebot ErrNotConnected)) (-1) = true ∧
      IsError (some (.onebot ErrTimeout)) (-2) = true := by
  decide

/-- C29 (the code at the failing input): `SendMessage` with the nil map panics at its
first statement, for every client and detail type, before any call is issued; with a
map it issues `send_message` with the entry `detail_type` set in that map. -/
theorem SendMessage_nil_map_panics (c : Client) (detailType : String) (m : GoFields) :
    SendMessageSubmit c detailType none = .error "assignment to entry in nil map" ∧
      SendMessageSubmit c detailType (some m) =
        .ok (CallWithTimeoutSubmit c "send_message"
          (some (m.insert "detail_type" (.string detailType)))) :=
  ⟨rfl, rfl⟩

/-- C30 (the code at the failing input): on the input `null` `Message.UnmarshalJSON`
returns no error and produces one text segment with the empty text, whatever the
receiver held; on a number, a boolean or an object it returns an error. -/
theorem Message_UnmarshalJSON_null_gives_text (n : JNumber) (b : Bool) (kvs : JFields)
    (m spare : List MessageSegment) :
    Message.UnmarshalJSON m spare .null = some ([Text ""], []) ∧
      Message.UnmarshalJSON m spare (.num n) = none ∧
      Message.UnmarshalJSON m spare (.bool b) = none ∧
      Message.UnmarshalJSON m spare (.obj kvs) = none :=
  ⟨rfl, rfl, rfl, rfl⟩

/-! ## Response data -/

theorem mem_insertKey {α : Type} (k : String) (v : α) :
    ∀ (entries : List (String × α)) (x : String × α),
      x ∈ insertKey k v entries → x = (k, v) ∨ x ∈ entries
  | [], x, h => by
    simp only [insertKey, List.mem_singleton] at h
    exact Or.inl h
  | (k0, v0) :: rest, x, h => by
    simp only [insertKey] at h
    split_ifs at h with h1 h2
    · simp only [List.mem_cons] at h ⊢
      tauto
    · simp only [List.mem_cons] at h ⊢
      tauto
    · simp only [List.mem_cons] at h ⊢
      rcases h with h | h
      · exact Or.inr (Or.inl h)
      · rcases mem_insertKey k v rest x h with h3 | h3
        · exact Or.inl h3
        · exact Or.inr (Or.inr h3)

theorem insertKey_keeps_keys {α : Type} (k : String) (v : α) :
    ∀ (entries : List (String × α)) (key : String),
      (key = k ∨ key ∈ entries.map Prod.fst) → key ∈ (insertKey k v entries).map Prod.fst
  | [], key, h => by
    rcases h with h | h
    · simp [insertKey, h]
    · simp at h
  | (k0, v0) :: rest, key, h => by
    simp only [insertKey]
    split_ifs with h1 h2
    · simp only [List.map_cons, List.mem_cons] at h ⊢
      tauto
    · simp only [List.map_cons, List.mem_cons] at h ⊢
      rcases h with h | h | h
      · exact Or.inl h
      · exact Or.inl (h.trans h2.symm)
      · exact Or.inr h
    · simp only [List.map_cons, List.mem_cons] at h ⊢
      rcases h with h | h | h
      · exact Or.inr (insertKey_keeps_keys k v rest key (Or.inl h))
      · exact Or.inl h
      · exact Or.inr (insertKey_keeps_keys k v rest key (Or.inr h))

/-- The members collected from entries whose encodings all succeeded. -/
theorem collectFields_ok :
    ∀ (entries : List (String × Except String JValue)),
      (∀ e ∈ entries, ∃ j, e.2 = .ok j) →
      ∃ js, collectFields entries = .ok js ∧
        (∀ x ∈ js.toList, (x.1, Except.ok x.2) ∈ entries) ∧
        js.keys = entries.map Prod.fst
  | [], _ => ⟨.nil, rfl, by simp [JFields.toList], rfl⟩
  | (k, r) :: rest, h => by
    obtain ⟨j, hj⟩ := h (k, r) (List.mem_cons_self _ _)
    obtain ⟨js, h1, h2, h3⟩ := collectFields_ok rest (fun e he => h e (List.mem_cons_of_mem _ he))
    have hr : r = .ok j := hj
    subst hr
    refine ⟨.cons k j js, by simp [collectFields, h1], ?_, by simp [JFields.keys, h3]⟩
    intro x hx
    simp only [JFields.toList, List.mem_cons] at hx
    rcases hx with rfl | hx
    · exact List.mem_cons_self _ _
    · exact List.mem_cons_of_mem _ (h2 x hx)

mutual
theorem GoValue_Marshal_ok :
    ∀ (v : GoValue), v.encodable = true → ∃ j, v.Marshal = .ok j
  | .nil, _ => ⟨_, rfl⟩
  | .bool _, _ => ⟨_, rfl⟩
  | .float64 _, _ => ⟨_, rfl⟩
  | .int _, _ => ⟨_, rfl⟩
  | .string _, _ => ⟨_, rfl⟩
  | .other _, _ => ⟨_, rfl⟩
  | .sliceAny xs, h => by
    simp only [GoValue.encodable] at h
    obtain ⟨js, h1⟩ := GoList_Marshal_ok xs h
    exact ⟨.arr js, by simp [GoValue.Marshal, h1]⟩
  | .mapAny kvs, h => by
    simp only [GoValue.encodable] at h
    obtain ⟨h1, _⟩ := GoFields_Marshal_ok kvs h
    obtain ⟨js, h2, _⟩ := collectFields_ok kvs.Marshal
      (fun e he => by
        obtain ⟨_, j, _, _, h5⟩ := h1 e he
        exact ⟨j, h5⟩)
    exact ⟨.obj js, by simp [GoValue.Marshal, h2]⟩
  | .nan, h => by simp [GoValue.encodable] at h
  | .inf _, h => by simp [GoValue.encodable] at h
  | .unsupported _, h => by simp [GoValue.encodable] at h
theorem GoList_Marshal_ok :
    ∀ (xs : GoList), xs.encodable = true → ∃ js, xs.Marshal = .ok js
  | .nil, _ => ⟨_, rfl⟩
  | .cons x xs, h => by
    simp only [GoList.encodable, Bool.and_eq_true] at h
    obtain ⟨j, h1⟩ := GoValue_Marshal_ok x h.1
    obtain ⟨js, h2⟩ := GoList_Marshal_ok xs h.2
    exact ⟨.cons j js, by simp [GoList.Marshal, h1, h2]⟩
theorem GoFields_Marshal_ok :
    ∀ (kvs : GoFields), kvs.encodable = true →
      (∀ e ∈ kvs.Marshal, ∃ v j, (e.1, v) ∈ kvs.toList ∧ v.Marshal = .ok j ∧ e.2 = .ok j) ∧
      (∀ key ∈ kvs.keys, key ∈ kvs.Marshal.map Prod.fst)
  | .nil, _ => by simp [GoFields.Marshal, GoFields.keys]
  | .cons k v rest, h => by
    simp only [GoFields.encodable, Bool.and_eq_true] at h
    obtain ⟨j, h1⟩ := GoValue_Marshal_ok v h.1
    obtain ⟨h2, h3⟩ := GoFields_Marshal_ok rest h.2
    refine ⟨?_, ?_⟩
    · intro e he
      simp only [GoFields.Marshal] at he
      rcases mem_insertKey k _ _ e he with rfl | he2
      · exact ⟨v, j, by simp [GoFields.toList], h1, h1⟩
      · obtain ⟨w, jw, h4, h5, h6⟩ := h2 e he2
        exact ⟨w, jw, by simp [GoFields.toList, h4], h5, h6⟩
    · intro key hkey
      simp only [GoFields.keys, List.mem_cons] at hkey
      simp only [GoFields.Marshal]
      rcases hkey with rfl | hkey
      · exact insertKey_keeps_keys _ _ _ _ (Or.inl rfl)
      · exact insertKey_keeps_keys _ _ _ _ (Or.inr (h3 key hkey))
end

/-- The encoding of a map all of whose entries are encodable: an object each of whose
members is the encoding of an entry of the map, and which has the keys of the map. -/
theorem mapAny_Marshal (kvs : GoFields) (h : kvs.encodable = true) :
    ∃ js, (GoValue.mapAny kvs).Marshal = .ok (.obj js) ∧
      (∀ x ∈ js.toList, ∃ v, (x.1, v) ∈ kvs.toList ∧ v.Marshal = .ok x.2) ∧
      (∀ key ∈ kvs.keys, key ∈ js.keys) := by
  obtain ⟨h1, h2⟩ := GoFields_Marshal_ok kvs h
  obtain ⟨js, h3, h4, h5⟩ := collectFields_ok kvs.Marshal
    (fun e he => by
      obtain ⟨_, j, _, _, h6⟩ := h1 e he
      exact ⟨j, h6⟩)
  refine ⟨js, by simp [GoValue.Marshal, h3], ?_, ?_⟩
  · intro x hx
    obtain ⟨v, j, h6, h7, h8⟩ := h1 _ (h4 x hx)
    have : x.2 = j := by simpa using h8
    exact ⟨v, h6, this ▸ h7⟩
  · intro key hkey
    rw [h5]
    exact h2 key hkey

theorem GoFields_mem_keys :
    ∀ (kvs : GoFields) (k : String) (v : GoValue), (k, v) ∈ kvs.toList → k ∈ kvs.keys
  | .nil, k, v, h => by simp [GoFields.toList] at h
  | .cons k0 v0 rest, k, v, h => by
    simp only [GoFields.toList, List.mem_cons, Prod.mk.injEq] at h
    simp only [GoFields.keys, List.mem_cons]
    rcases h with ⟨h, _⟩ | h
    · exact Or.inl h
    · exact Or.inr (GoFields_mem_keys rest k v h)

theorem JFields_selects_iff :
    ∀ (m : JFields) (name : String),
      m.selects name = true ↔ ∃ k ∈ m.keys, sameName k name = true
  | .nil, name => by simp [JFields.selects, JFields.keys]
  | .cons k v rest, name => by
    simp [JFields.selects, JFields.keys, JFields_selects_iff rest name]

theorem sameName_message_id_not_time (k : String) (h : sameName k "message_id" = true) :
    sameName k "time" = false := by
  simp only [sameName, beq_iff_eq] at h
  simp only [sameName, h]
  decide

theorem sameName_time_not_message_id (k : String) (h : sameName k "time" = true) :
    sameName k "message_id" = false := by
  simp only [sameName, beq_iff_eq] at h
  simp only [sameName, h]
  decide

theorem decodeFields_SendMessageResponse (m : String) (lit : JNumber) (t : Rat)
    (hfl : lit.toFloat64 = some t) :
    ∀ (L : JFields) (cur : SendMessageResponse),
      (∀ x ∈ L.toList, sameName x.1 "message_id" = true → x.2 = .str m) →
      (∀ x ∈ L.toList, sameName x.1 "time" = true → x.2 = .num lit) →
      decodeFields SendMessageResponse.setField L cur =
        some { MessageID := if L.selects "message_id" = true then m else cur.MessageID,
               Time := if L.selects "time" = true then t else cur.Time }
  | .nil, cur, _, _ => by simp [decodeFields, JFields.selects]
  | .cons k v rest, cur, h1, h2 => by
    have hr1 : ∀ x ∈ rest.toList, sameName x.1 "message_id" = true → x.2 = .str m :=
      fun x hx => h1 x (by simp [JFields.toList, hx])
    have hr2 : ∀ x ∈ rest.toList, sameName x.1 "time" = true → x.2 = .num lit :=
      fun x hx => h2 x (by simp [JFields.toList, hx])
    by_cases hk1 : sameName k "message_id" = true
    · have hv : v = .str m := h1 (k, v) (by simp [JFields.toList]) hk1
      have hk2 := sameName_message_id_not_time k hk1
      subst hv
      simp only [decodeFields, SendMessageResponse.setField, hk1, if_true, decodeString,
        Option.map_some']
      rw [decodeFields_SendMessageResponse m lit t hfl rest _ hr1 hr2]
      simp [JFields.selects, hk1, hk2]
    · by_cases hk2 : sameName k "time" = true
      · have hv : v = .num lit := h2 (k, v) (by simp [JFields.toList]) hk2
        subst hv
        simp only [decodeFields, SendMessageResponse.setField, hk1, hk2, if_true,
          Bool.false_eq_true, if_false, decodeFloat64, hfl, Option.map_some']
        rw [decodeFields_SendMessageResponse m lit t hfl rest _ hr1 hr2]
        simp [JFields.selects, hk1, hk2]
      · simp only [decodeFields, SendMessageResponse.setField, hk1, hk2, Bool.false_eq_true,
          if_false]
        rw [decodeFields_SendMessageResponse m lit t hfl rest _ hr1 hr2]
        simp [JFields.selects, hk1, hk2]

/-- C21 (counterexample): the data map has the string entry `message_id` and the
`float64` entry `time`, and also an entry `MESSAGE_ID` holding an `int`; the decoder
matches that key with the field `MessageID` too, and `UnmarshalData` fails in the
decoding.  With an entry that holds a channel instead, `UnmarshalData` fails in the
encoding. -/
theorem UnmarshalData_folded_key_fails :
    foldedKeyResponse.Data.entry "message_id" = some (.string "msg123") ∧
      foldedKeyResponse.Data.entry "time" = some (.float64 (mkRat 12345678905 10)) ∧
      foldedKeyResponse.UnmarshalData decodeSendMessageResponse = .error .decode ∧
      channelResponse.Data.entry "message_id" = some (.string "msg123") ∧
      channelResponse.Data.entry "time" = some (.float64 (mkRat 12345678905 10)) ∧
      channelResponse.UnmarshalData decodeSendMessageResponse =
        .error (.encode "json: unsupported type: chan bool") := by
  decide

/-- C21 (amended): when the data of a response is a map all of whose entries have a
JSON encoding, with a string entry `message_id` = `m` and an entry `time` that is
encoded as a number literal parsing to the `float64` `t` (a `float64` `t` itself, or
an integer that rounds to `t`), and every entry whose key equals `message_id` or
`time` up to letter case carries that same value, `UnmarshalData` into a
`SendMessageResponse` succeeds with `MessageID` = `m` and `Time` = `t`.  For every
response and target, `UnmarshalData` returns the error of the encoding of `r.Data`
when that fails, and otherwise is the decoding of that encoding: it fails exactly when
the encoding or the decoding fails; the encoding succeeds on every value that holds
no NaN, infinity or value of an unsupported type. -/
theorem UnmarshalData_SendMessageResponse (r : ActionResponse) (kvs : GoFields) (m : String)
    (tv : GoValue) (lit : JNumber) (t : Rat)
    (hdata : r.Data = .mapAny kvs) (henc : kvs.encodable = true)
    (hnum : tv.Marshal = .ok (.num lit)) (hfl : lit.toFloat64 = some t)
    (hm : ("message_id", GoValue.string m) ∈ kvs.toList)
    (ht : ("time", tv) ∈ kvs.toList)
    (hm2 : ∀ x ∈ kvs.toList, sameName x.1 "message_id" = true → x.2 = .string m)
    (ht2 : ∀ x ∈ kvs.toList, sameName x.1 "time" = true → x.2 = tv) :
    r.UnmarshalData decodeSendMessageResponse = .ok { MessageID := m, Time := t } ∧
      (∀ (q : ActionResponse) (σ : Type) (decode : Frame → Option σ),
        (∀ err, q.Data.Marshal = .error err → q.UnmarshalData decode = .error (.encode err)) ∧
        (∀ data v, q.Data.Marshal = .ok data → decode (some data) = some v →
          q.UnmarshalData decode = .ok v) ∧
        (∀ data, q.Data.Marshal = .ok data → decode (some data) = none →
          q.UnmarshalData decode = .error .decode) ∧
        ((∃ err, q.UnmarshalData decode = .error err) ↔
          ((∃ err, q.Data.Marshal = .error err) ∨
            (∃ data, q.Data.Marshal = .ok data ∧ decode (some data) = none))) ∧
        (q.Data.encodable = true → ∃ data, q.Data.Marshal = .ok data)) := by
  refine ⟨?_, ?_⟩
  · obtain ⟨js, h1, h2, h3⟩ := mapAny_Marshal kvs henc
    have hmem1 : ∀ x ∈ js.toList, sameName x.1 "message_id" = true → x.2 = .str m := by
      intro x hx hs
      obtain ⟨v, hv, he⟩ := h2 x hx
      have hv2 : v = .string m := hm2 (x.1, v) hv hs
      rw [hv2] at he
      simpa [GoValue.Marshal] using he.symm
    have hmem2 : ∀ x ∈ js.toList, sameName x.1 "time" = true → x.2 = .num lit := by
      intro x hx hs
      obtain ⟨v, hv, he⟩ := h2 x hx
      have hv2 : v = tv := ht2 (x.1, v) hv hs
      rw [hv2, hnum] at he
      simpa using he.symm
    have hs1 : js.selects "message_id" = true := by
      have hself : sameName "message_id" "message_id" = true := by decide
      exact (JFields_selects_iff _ _).mpr ⟨_, h3 _ (GoFields_mem_keys kvs _ _ hm), hself⟩
    have hs2 : js.selects "time" = true := by
      have hself : sameName "time" "time" = true := by decide
      exact (JFields_selects_iff _ _).mpr ⟨_, h3 _ (GoFields_mem_keys kvs _ _ ht), hself⟩
    have hdec := decodeFields_SendMessageResponse m lit t hfl js SendMessageResponse.zero
      hmem1 hmem2
    simp only [hs1, hs2, if_true] at hdec
    simp only [ActionResponse.UnmarshalData, hdata, h1, decodeSendMessageResponse, Unmarshal,
      decodeStruct, hdec]
  · intro q σ decode
    refine ⟨?_, ?_, ?_, ?_, GoValue_Marshal_ok q.Data⟩
    · intro err he
      simp [ActionResponse.UnmarshalData, he]
    · intro data v he hd
      simp [ActionResponse.UnmarshalData, he, hd]
    · intro data he hd
      simp [ActionResponse.UnmarshalData, he, hd]
    · unfold ActionResponse.UnmarshalData
      cases he : q.Data.Marshal with
      | error err => simp
      | ok data =>
        cases hd : decode (some data) <;> simp [hd]

/-- C21 (witness): the response of `TestActionResponse` decodes to message id "msg123"
and time 1234567890.5. -/
theorem UnmarshalData_SendMessageResponse_witness :
    testResponse.IsOK = true ∧
      testResponse.UnmarshalData decodeSendMessageResponse =
        .ok { MessageID := "msg123", Time := mkRat 2469135781 2 } :=
  ⟨by decide,
    (UnmarshalData_SendMessageResponse testResponse _ "msg123"
      (.float64 (mkRat 12345678905 10)) (.dec 12345678905 (-1)) (mkRat 2469135781 2) rfl
      (by decide) rfl (by decide) (by decide) (by decide)
      (by
        intro x hx hs
        simp only [GoFields.toList, List.mem_cons, List.mem_singleton, List.not_mem_nil,
          or_false] at hx
        rcases hx with rfl | rfl
        · rfl
        · exact absurd hs (by decide))
      (by
        intro x hx hs
        simp only [GoFields.toList, List.mem_cons, List.mem_singleton, List.not_mem_nil,
          or_false] at hx
        rcases hx with rfl | rfl
        · exact absurd hs (by decide)
        · rfl)).1⟩

end OneBot
